import Mathlib

/-! # terraform-provider-paddle: a verification development

A shallow embedding of the provider:

* `internal/helpers/custom_data.go`: `CustomDataToMap` and `MapToCustomData`;
* `internal/validators/paddle_validators.go`: the string validators;
* `internal/provider/provider.go`: `Configure`;
* `internal/resources`: `Create`, `Read`, `Update` and `Delete` of the product,
  price, discount, customer and notification setting resources, and the schema
  of the price;
* `internal/datasources`: `Read` of the product, price, discount and customer
  data sources.

An operation takes the methods of the SDK client that it calls as parameters
and returns its response together with the requests it sent, in order.

Go maps are modelled by `GoMap`, an association list with pairwise distinct
keys; a possibly nil map is an `Option (GoMap α)`.  The order of the entries
stands for the order in which `range` happens to visit the map, so a statement
proved for every `GoMap` holds for every iteration order.
-/

set_option autoImplicit false

namespace Paddle

/-! ## Go maps -/

/-- Assignment `m[k] = v` on the entry list: an existing key keeps its place,
a new key is added at the end. -/
def setEntries {α : Type} (k : String) (v : α) : List (String × α) → List (String × α)
  | [] => [(k, v)]
  | (k', v') :: rest =>
    if k' = k then (k, v) :: rest else (k', v') :: setEntries k v rest

/-- Lookup of a key in an entry list. -/
def lookupEntries {α : Type} (k : String) : List (String × α) → Option α
  | [] => none
  | (k', v') :: rest => if k' = k then some v' else lookupEntries k rest

theorem keys_setEntries {α : Type} (k : String) (v : α) (l : List (String × α)) :
    (setEntries k v l).map Prod.fst =
      if k ∈ l.map Prod.fst then l.map Prod.fst else l.map Prod.fst ++ [k] := by
  induction l with
  | nil => simp [setEntries]
  | cons p rest ih =>
    obtain ⟨k', v'⟩ := p
    by_cases h : k' = k
    · subst h; simp [setEntries]
    · have h' : ¬ k = k' := fun e => h e.symm
      simp only [setEntries, h, if_false, List.map_cons, ih, List.mem_cons, h', false_or]
      split <;> simp

theorem nodup_setEntries {α : Type} (k : String) (v : α) (l : List (String × α))
    (h : (l.map Prod.fst).Nodup) : ((setEntries k v l).map Prod.fst).Nodup := by
  rw [keys_setEntries]
  split
  · exact h
  · rename_i hk
    rw [List.nodup_append]
    refine ⟨h, List.nodup_singleton k, ?_⟩
    intro a ha hb
    simp only [List.mem_singleton] at hb
    subst hb
    exact hk ha

theorem lookup_setEntries {α : Type} (k : String) (v : α) (l : List (String × α))
    (j : String) :
    lookupEntries j (setEntries k v l) = if k = j then some v else lookupEntries j l := by
  induction l with
  | nil => simp [setEntries, lookupEntries]
  | cons p rest ih =>
    obtain ⟨k', v'⟩ := p
    by_cases h : k' = k
    · subst h
      by_cases hj : k' = j <;> simp [setEntries, lookupEntries, hj]
    · by_cases hj : k' = j
      · subst hj
        have h' : ¬ k = k' := fun e => h e.symm
        simp [setEntries, lookupEntries, h, h']
      · simp [setEntries, lookupEntries, h, hj, ih]

theorem lookupEntries_eq_none {α : Type} (k : String) (l : List (String × α)) :
    lookupEntries k l = none ↔ k ∉ l.map Prod.fst := by
  induction l with
  | nil => simp [lookupEntries]
  | cons p rest ih =>
    obtain ⟨k', v'⟩ := p
    by_cases h : k' = k
    · subst h; simp [lookupEntries]
    · have h' : ¬ k = k' := fun e => h e.symm
      simp [lookupEntries, h, h', ih]

/-- A non-nil Go map with string keys: its entries, with pairwise distinct keys. -/
structure GoMap (α : Type) where
  entries : List (String × α)
  nodup : (entries.map Prod.fst).Nodup

namespace GoMap

variable {α : Type}

/-- The result of `make(map[string]T)`. -/
def empty : GoMap α := ⟨[], List.nodup_nil⟩

/-- The statement `m[k] = v`. -/
def set (m : GoMap α) (k : String) (v : α) : GoMap α :=
  ⟨setEntries k v m.entries, nodup_setEntries k v m.entries m.nodup⟩

/-- The two-valued read `v, ok := m[k]`. -/
def get? (m : GoMap α) (k : String) : Option α := lookupEntries k m.entries

/-- The read `m[k]`, with the zero value of the element type for a missing key. -/
def getD (m : GoMap α) (k : String) (zero : α) : α := (m.get? k).getD zero

/-- The keys of the map, in iteration order. -/
def keys (m : GoMap α) : List String := m.entries.map Prod.fst

/-- The builtin `len(m)`. -/
def len (m : GoMap α) : Nat := m.entries.length

/-- A composite literal `map[string]T{k1: v1, ...}`. -/
def lit (kvs : List (String × α)) : GoMap α :=
  kvs.foldl (fun m kv => m.set kv.1 kv.2) empty

theorem get?_set (m : GoMap α) (k : String) (v : α) (j : String) :
    (m.set k v).get? j = if k = j then some v else m.get? j :=
  lookup_setEntries k v m.entries j

theorem get?_empty (j : String) : (empty : GoMap α).get? j = none := rfl

theorem get?_eq_none (m : GoMap α) (k : String) : m.get? k = none ↔ k ∉ m.keys :=
  lookupEntries_eq_none k m.entries

theorem keys_set (m : GoMap α) (k : String) (v : α) :
    (m.set k v).keys = if k ∈ m.keys then m.keys else m.keys ++ [k] :=
  keys_setEntries k v m.entries

end GoMap

/-! ## `NotificationSettingResource.Read`: the subscribed-event reconciliation -/

namespace NotificationSettingResource

/-- The lookup table of the events of the API response:
`for _, event := range notifSetting.SubscribedEvents { apiEventsMap[event.Name] = true }`. -/
def apiEventsMap (apiEvents : List String) : GoMap Bool :=
  apiEvents.foldl (fun m event => m.set event true) GoMap.empty

/-- The first loop: the state events that the API still returns, in state order. -/
def keepStateEvents (m : GoMap Bool) (stateEvents : List String) : List String :=
  stateEvents.foldl
    (fun orderedEvents event =>
      if m.getD event false then orderedEvents ++ [event] else orderedEvents) []

/-- The inner loop of the second pass: a linear search of the state events that
stops at the first hit. -/
def found (event : String) : List String → Bool
  | [] => false
  | stateEvent :: rest => if event = stateEvent then true else found event rest

/-- The second loop: the API events that the state does not hold are appended
in API order. -/
def addNewEvents (stateEvents : List String) (orderedEvents : List String)
    (apiEvents : List String) : List String :=
  apiEvents.foldl
    (fun acc event => if !found event stateEvents then acc ++ [event] else acc)
    orderedEvents

/-- The value that `Read` stores in `subscribed_events`, from the list recorded
in state and the list the API returned. -/
def readSubscribedEvents (stateEvents apiEvents : List String) : List String :=
  let m := apiEventsMap apiEvents
  let orderedEvents := keepStateEvents m stateEvents
  addNewEvents stateEvents orderedEvents apiEvents

/-- The reference definition of the merge, as the specification words it:
`[e for e in oldOrder if e in remoteSet] + [e for e in remoteOrder if e not in oldOrder]`. -/
def mergeReference (old remote : List String) : List String :=
  old.filter (fun e => decide (e ∈ remote)) ++ remote.filter (fun e => decide (e ∉ old))

end NotificationSettingResource

/-! ## The Terraform plugin framework: strings, paths, diagnostics -/

/-- A value of `types.String`: null, unknown, or a known string. -/
inductive TfString where
  | null
  | unknown
  | known (s : String)
  deriving DecidableEq, Repr

namespace TfString

/-- The constructor `types.StringValue`. -/
def StringValue (s : String) : TfString := known s

def IsNull : TfString → Bool
  | null => true
  | _ => false

def IsUnknown : TfString → Bool
  | unknown => true
  | _ => false

/-- The known value, or the empty string for null and unknown. -/
def ValueString : TfString → String
  | known s => s
  | _ => ""

end TfString

/-- An attribute path, as its steps from the root. -/
structure Path where
  steps : List String
  deriving DecidableEq, Repr

/-- The path `path.Root(name)`. -/
def Path.Root (name : String) : Path := ⟨[name]⟩

inductive Severity where
  | error
  | warning
  deriving DecidableEq, Repr

/-- One diagnostic: severity, summary, detail and, for an attribute diagnostic,
the attribute path. -/
structure Diagnostic where
  severity : Severity
  summary : String
  detail : String
  path : Option Path
  deriving DecidableEq, Repr

/-- The framework's `diag.Diagnostics`, a list of diagnostics. -/
structure Diagnostics where
  items : List Diagnostic
  deriving DecidableEq, Repr

namespace Diagnostics

/-- The method `Append` for one diagnostic: a diagnostic equal to one already
held is not added a second time. -/
def Append (diags : Diagnostics) (d : Diagnostic) : Diagnostics :=
  if diags.items.contains d then diags else ⟨diags.items ++ [d]⟩

/-- The method `AddAttributeError`. -/
def AddAttributeError (diags : Diagnostics) (p : Path) (summary detail : String) :
    Diagnostics :=
  Append diags ⟨Severity.error, summary, detail, some p⟩

/-- The method `HasError`. -/
def HasError (diags : Diagnostics) : Bool :=
  diags.items.any (fun d => d.severity == Severity.error)

end Diagnostics

/-- The fields of `validator.StringRequest` that the validators read. -/
structure StringRequest where
  Path : Paddle.Path
  ConfigValue : TfString

/-- The response of a validator, `validator.StringResponse`. -/
structure StringResponse where
  Diagnostics : Diagnostics

/-! ## Go regular expressions (the fragment the validators use) -/

/-- The syntax of the patterns in use: `^` and `$` without the multi-line flag
(beginning and end of the text), a character range `[lo-hi]`, concatenation and
the counted repetition `{n}`. -/
inductive Regexp where
  | beginText
  | endText
  | charRange (lo hi : Char)
  | cat (a b : Regexp)
  | rep (n : Nat) (r : Regexp)

namespace Regexp

/-- A position in the text: whether it is the beginning of the text, and the
characters that remain. -/
abbrev Pos := Bool × List Char

/-- Iteration of a step on a set of positions. -/
def iter (f : Pos → List Pos) : Nat → List Pos → List Pos
  | 0, ps => ps
  | n + 1, ps => iter f n (ps.flatMap f)

/-- All positions at which a match of the expression that starts at the given
position can end. -/
def step : Regexp → Pos → List Pos
  | beginText, (atStart, s) => if atStart then [(atStart, s)] else []
  | endText, (atStart, s) => if s.isEmpty then [(atStart, s)] else []
  | charRange _ _, (_, []) => []
  | charRange lo hi, (_, c :: s) =>
    if lo ≤ c ∧ c ≤ hi then [(false, s)] else []
  | cat a b, p => (a.step p).flatMap (fun q => b.step q)
  | rep n r, p => iter (fun q => r.step q) n [p]

/-- Whether a match starts at one of the given suffixes of the text; the first
suffix is the whole text when `atStart` holds. -/
def matchFrom (re : Regexp) : Bool → List Char → Bool
  | atStart, [] => !(re.step (atStart, [])).isEmpty
  | atStart, c :: s => !(re.step (atStart, c :: s)).isEmpty || matchFrom re false s

/-- The function `regexp.MatchString` on a parsed pattern: whether the text
contains a match of the expression. -/
def MatchString (re : Regexp) (s : String) : Bool := matchFrom re true s.data

end Regexp

/-! ## `internal/validators/paddle_validators.go` -/

namespace TaxCategoryValidator

def validCategories : GoMap Bool :=
  GoMap.lit [
    ("standard", true),
    ("digital-goods", true),
    ("ebooks", true),
    ("implementation-services", true),
    ("professional-services", true),
    ("saas", true),
    ("software-programming-services", true),
    ("training-services", true)]

def ValidateString (req : StringRequest) (resp : StringResponse) : StringResponse :=
  if req.ConfigValue.IsNull || req.ConfigValue.IsUnknown then resp
  else
    let value := req.ConfigValue.ValueString
    if !validCategories.getD value false then
      ⟨resp.Diagnostics.AddAttributeError req.Path "Invalid Tax Category"
        ("Tax category must be one of: standard, digital-goods, ebooks, implementation-services, professional-services, saas, software-programming-services, training-services. Got: " ++ value)⟩
    else resp

end TaxCategoryValidator

namespace DiscountTypeValidator

def validTypes : GoMap Bool :=
  GoMap.lit [("percentage", true), ("flat", true), ("flat_per_seat", true)]

def ValidateString (req : StringRequest) (resp : StringResponse) : StringResponse :=
  if req.ConfigValue.IsNull || req.ConfigValue.IsUnknown then resp
  else
    let value := req.ConfigValue.ValueString
    if !validTypes.getD value false then
      ⟨resp.Diagnostics.AddAttributeError req.Path "Invalid Discount Type"
        ("Discount type must be one of: percentage, flat, flat_per_seat. Got: " ++ value)⟩
    else resp

end DiscountTypeValidator

namespace CurrencyCodeValidator

/-- The parsed pattern `^[A-Z]{3}$`. -/
def pattern : Regexp :=
  .cat .beginText (.cat (.rep 3 (.charRange 'A' 'Z')) .endText)

def ValidateString (req : StringRequest) (resp : StringResponse) : StringResponse :=
  if req.ConfigValue.IsNull || req.ConfigValue.IsUnknown then resp
  else
    let value := req.ConfigValue.ValueString
    let matched := Regexp.MatchString pattern value
    if !matched then
      ⟨resp.Diagnostics.AddAttributeError req.Path "Invalid Currency Code"
        ("Currency code must be a three-letter uppercase ISO 4217 code (e.g., USD, EUR, GBP). Got: " ++ value)⟩
    else resp

end CurrencyCodeValidator

namespace CountryCodeValidator

/-- The parsed pattern `^[A-Z]{2}$`. -/
def pattern : Regexp :=
  .cat .beginText (.cat (.rep 2 (.charRange 'A' 'Z')) .endText)

def ValidateString (req : StringRequest) (resp : StringResponse) : StringResponse :=
  if req.ConfigValue.IsNull || req.ConfigValue.IsUnknown then resp
  else
    let value := req.ConfigValue.ValueString
    let matched := Regexp.MatchString pattern value
    if !matched then
      ⟨resp.Diagnostics.AddAttributeError req.Path "Invalid Country Code"
        ("Country code must be a two-letter uppercase ISO 3166-1 alpha-2 code (e.g., US, GB, FR). Got: " ++ value)⟩
    else resp

end CountryCodeValidator

namespace TaxModeValidator

def validModes : GoMap Bool :=
  GoMap.lit [("account_setting", true), ("internal", true), ("external", true)]

def ValidateString (req : StringRequest) (resp : StringResponse) : StringResponse :=
  if req.ConfigValue.IsNull || req.ConfigValue.IsUnknown then resp
  else
    let value := req.ConfigValue.ValueString
    if !validModes.getD value false then
      ⟨resp.Diagnostics.AddAttributeError req.Path "Invalid Tax Mode"
        ("Tax mode must be one of: account_setting, internal, external. Got: " ++ value)⟩
    else resp

end TaxModeValidator

namespace IntervalValidator

def validIntervals : GoMap Bool :=
  GoMap.lit [("day", true), ("week", true), ("month", true), ("year", true)]

def ValidateString (req : StringRequest) (resp : StringResponse) : StringResponse :=
  if req.ConfigValue.IsNull || req.ConfigValue.IsUnknown then resp
  else
    let value := req.ConfigValue.ValueString
    if !validIntervals.getD value false then
      ⟨resp.Diagnostics.AddAttributeError req.Path "Invalid Interval"
        ("Interval must be one of: day, week, month, year. Got: " ++ value)⟩
    else resp

end IntervalValidator

/-! ## Go values and their text forms -/

/-- An IEEE-754 double, by its three bit fields. -/
structure Float64 where
  sign : Bool
  expBits : Fin 2048
  fracBits : Fin 4503599627370496
  deriving DecidableEq

namespace Float64

def IsNaN (f : Float64) : Bool := f.expBits.val == 2047 && f.fracBits.val != 0

def IsInf (f : Float64) : Bool := f.expBits.val == 2047 && f.fracBits.val == 0

/-- The significand with its implicit bit, as `strconv` extracts it. -/
def mant (f : Float64) : Nat :=
  if f.expBits.val = 0 then f.fracBits.val else f.fracBits.val + 4503599627370496

/-- The binary exponent of the unit of the significand: the value of a finite
double is `mant * 2 ^ exp2`. -/
def exp2 (f : Float64) : Int :=
  (if f.expBits.val = 0 then 1 else (f.expBits.val : Int)) - 1075

/-- The bit pattern of the absolute value, which orders the non-negative
doubles as their values do. -/
def absBits (f : Float64) : Nat := f.expBits.val * 4503599627370496 + f.fracBits.val

/-- The position of the leading bit of a positive number. -/
def log2Aux : Nat → Nat → Nat
  | 0, _ => 0
  | fuel + 1, n => if n < 2 then 0 else log2Aux fuel (n / 2) + 1

/-- The conversion `float64(n)` of a natural number below `2 ^ 53`, which is exact. -/
def ofNat (n : Nat) : Float64 :=
  if n = 0 then ⟨false, 0, 0⟩
  else
    let e := log2Aux 64 n
    ⟨false, Fin.ofNat (1023 + e), Fin.ofNat (n * 2 ^ (52 - e) - 4503599627370496)⟩

end Float64

/-- The decimal digits that `strconv` works on: the value is `0.d₁d₂… × 10 ^ dp`. -/
structure DecimalSlice where
  d : List Nat
  dp : Int

namespace DecimalSlice

def nd (s : DecimalSlice) : Int := s.d.length

end DecimalSlice

namespace strconv

/-- The character of a digit. -/
def digitChar (d : Nat) : Char := Char.ofNat (48 + d % 10)

/-- The digits of a natural number, most significant first; none for zero. -/
def digitsAux : Nat → Nat → List Nat → List Nat
  | 0, _, acc => acc
  | fuel + 1, n, acc => if n = 0 then acc else digitsAux fuel (n / 10) (n % 10 :: acc)

def digits (n : Nat) : List Nat := digitsAux (n + 1) n []

/-- The function `strconv.FormatUint` in base 10. -/
def FormatUint (n : Nat) : String :=
  if n = 0 then "0" else String.mk ((digits n).map digitChar)

/-- The function `strconv.FormatInt` in base 10, which is also how `%v` prints
an `int` or an `int64`. -/
def FormatInt (i : Int) : String :=
  if i < 0 then "-" ++ FormatUint (-i).toNat else FormatUint i.toNat

/-- The number that a text of decimal digits denotes. -/
def decimalValue (cs : List Char) : Nat :=
  cs.foldl (fun acc c => 10 * acc + (c.toNat - 48)) 0

/-- The integer that a decimal text with an optional minus sign denotes. -/
def intValue (s : String) : Int :=
  match s.data with
  | '-' :: cs => -(decimalValue cs : Int)
  | cs => (decimalValue cs : Int)

/-- Removal of the trailing zeros of a digit list. -/
def trimZeros (ds : List Nat) : List Nat :=
  (ds.reverse.dropWhile (fun d => d == 0)).reverse

/-- The least `k ≥ k₀` with `num < 10 ^ k * den`. -/
def decExpUp : Nat → Nat → Nat → Nat → Nat
  | 0, k, _, _ => k
  | fuel + 1, k, num, den =>
    if num < 10 ^ k * den then k else decExpUp fuel (k + 1) num den

/-- The greatest `j ≥ j₀` with `num * 10 ^ j < den`, for `num * 10 ^ j₀ < den`. -/
def decExpDown : Nat → Nat → Nat → Nat → Nat
  | 0, j, _, _ => j
  | fuel + 1, j, num, den =>
    if num * 10 ^ (j + 1) < den then decExpDown fuel (j + 1) num den else j

/-- The decimal exponent `k` of a positive rational: `10 ^ (k-1) ≤ num / den < 10 ^ k`. -/
def decimalExponent (num den : Nat) : Int :=
  if den ≤ num then (decExpUp 400 1 num den : Int) else -(decExpDown 400 0 num den : Int)

/-- The decimal of `n` significant digits nearest to `numV / den` among those
strictly between (or, when `inclusive`, not outside) `numLo / den` and
`numHi / den`, as the integer of its digits; none when no such decimal exists. -/
def roundTo (numV numLo numHi den : Nat) (inclusive : Bool) (k : Int) (n : Nat) :
    Option Nat :=
  let p := 10 ^ ((n : Int) - k).toNat
  let q := 10 ^ (k - (n : Int)).toNat
  let dd := den * q
  let nv := numV * p
  let a := nv / dd
  let b := a + 1
  let okA := if inclusive then decide (numLo * p ≤ a * dd) else decide (numLo * p < a * dd)
  let okB := if inclusive then decide (b * dd ≤ numHi * p) else decide (b * dd < numHi * p)
  if okA && okB then
    if nv - a * dd < b * dd - nv then some a
    else if b * dd - nv < nv - a * dd then some b
    else if a % 2 = 0 then some a else some b
  else if okA then some a
  else if okB then some b
  else none

/-- The search for the least number of digits that identifies the double. -/
def shortestAux (numV numLo numHi den : Nat) (inclusive : Bool) (k : Int) :
    Nat → Nat → DecimalSlice
  | 0, n => ⟨trimZeros (digits (numV * 10 ^ ((n : Int) - k).toNat / (den * 10 ^ (k - (n : Int)).toNat))), k⟩
  | fuel + 1, n =>
    match roundTo numV numLo numHi den inclusive k n with
    | some m => ⟨trimZeros (digits m), k - (n : Int) + ((digits m).length : Int)⟩
    | none => shortestAux numV numLo numHi den inclusive k fuel (n + 1)

/-- The shortest decimal that rounds to the finite double `f` and, among the
shortest, the one nearest to it: the digits `strconv` produces for precision -1. -/
def shortest (f : Float64) : DecimalSlice :=
  let m := f.mant
  if m = 0 then ⟨[], 0⟩
  else
    let s := f.exp2 - 2
    let lo := if m = 4503599627370496 ∧ 1 < f.expBits.val then 4 * m - 1 else 4 * m - 2
    let up := 2 ^ s.toNat
    let den := 2 ^ (-s).toNat
    let k := decimalExponent (4 * m * up) den
    shortestAux (4 * m * up) (lo * up) ((4 * m + 2) * up) den (m % 2 == 0) k 17 1

/-- The digit at an index, `'0'` outside the slice. -/
def digitAt (ds : List Nat) (j : Int) : Char :=
  if 0 ≤ j then digitChar (ds.getD j.toNat 0) else '0'

/-- The function `fmtE`: `d.dddde±dd`, with `prec` digits after the point. -/
def fmtE (neg : Bool) (d : DecimalSlice) (prec : Int) : List Char :=
  let first := (if neg then ['-'] else []) ++ [digitAt d.d 0]
  let more :=
    if 0 < prec then '.' :: (List.range prec.toNat).map (fun (i : Nat) => digitAt d.d ((i : Int) + 1))
    else []
  let exp : Int := if d.d.length = 0 then 0 else d.dp - 1
  let sign := if exp < 0 then '-' else '+'
  let e := exp.natAbs
  let expDigits :=
    if e < 10 then ['0', digitChar e]
    else if e < 100 then [digitChar (e / 10), digitChar e]
    else [digitChar (e / 100), digitChar (e / 10), digitChar e]
  first ++ more ++ ['e', sign] ++ expDigits

/-- The function `fmtF`: `ddd.ddd`, with `prec` digits after the point. -/
def fmtF (neg : Bool) (d : DecimalSlice) (prec : Int) : List Char :=
  let sign := if neg then ['-'] else []
  let integer :=
    if 0 < d.dp then (List.range d.dp.toNat).map (fun (i : Nat) => digitAt d.d (i : Int))
    else ['0']
  let fraction :=
    if 0 < prec then '.' :: (List.range prec.toNat).map (fun (i : Nat) => digitAt d.d (d.dp + (i : Int)))
    else []
  sign ++ integer ++ fraction

/-- The formats of `strconv.FormatFloat` with precision -1 that the program reaches. -/
inductive Fmt where
  | e
  | f
  | g

/-- The function `strconv.FormatFloat(f, fmt, -1, 64)`. -/
def FormatFloat (f : Float64) (fmt : Fmt) : String :=
  if f.IsNaN then "NaN"
  else if f.IsInf then (if f.sign then "-Inf" else "+Inf")
  else
    let digs := shortest f
    match fmt with
    | .e => String.mk (fmtE f.sign digs (max (digs.nd - 1) 0))
    | .f => String.mk (fmtF f.sign digs (max (digs.nd - digs.dp) 0))
    | .g =>
      let exp := digs.dp - 1
      if exp < -4 ∨ 6 ≤ exp then String.mk (fmtE f.sign digs (digs.nd - 1))
      else String.mk (fmtF f.sign digs (max (digs.nd - digs.dp) 0))

end strconv

/-- A Go value held in an `any`: the dynamic types that `CustomDataToMap`
tells apart, the containers of decoded JSON, and a value of any type that
`encoding/json` cannot encode (a channel, a function, a complex number), given
by the name of its type. -/
inductive GoValue where
  | nil
  | string (s : String)
  | bool (b : Bool)
  | int (i : Int)
  | int64 (i : Int)
  | float64 (f : Float64)
  | slice (xs : List GoValue)
  | map (kvs : List (String × GoValue))
  | unsupported (typeName : String)

namespace GoValue

/-- Whether the dynamic type is `string`. -/
def isString : GoValue → Bool
  | string _ => true
  | _ => false

end GoValue

namespace fmt

/-- The text `fmt.Sprintf("%v", v)` for a `float64`: format `g` with the
shortest precision. -/
def sprintFloat (f : Float64) : String := strconv.FormatFloat f .g

/-- The text `fmt.Sprintf("%v", v)` for a `bool`. -/
def sprintBool (b : Bool) : String := if b then "true" else "false"

end fmt

namespace json

/-- A hexadecimal digit, lower case. -/
def hexDigit (n : Nat) : Char :=
  if n % 16 < 10 then Char.ofNat (48 + n % 16) else Char.ofNat (87 + n % 16)

/-- The escape `\u00XX` of a byte. -/
def escapeByte (n : Nat) : List Char :=
  ['\\', 'u', '0', '0', hexDigit (n / 16), hexDigit n]

/-- The encoding of one character inside a JSON string, with HTML escaping on,
as `json.Marshal` does it. -/
def encodeChar (c : Char) : List Char :=
  if c = '\\' ∨ c = '"' then ['\\', c]
  else if c = '\x08' then ['\\', 'b']
  else if c = '\x0c' then ['\\', 'f']
  else if c = '\n' then ['\\', 'n']
  else if c = '\r' then ['\\', 'r']
  else if c = '\t' then ['\\', 't']
  else if c.toNat < 32 ∨ c = '<' ∨ c = '>' ∨ c = '&' then escapeByte c.toNat
  else if c.toNat = 8232 then ['\\', 'u', '2', '0', '2', '8']
  else if c.toNat = 8233 then ['\\', 'u', '2', '0', '2', '9']
  else [c]

/-- A JSON string literal. -/
def encodeString (s : String) : String :=
  String.mk ('"' :: s.data.flatMap encodeChar ++ ['"'])

/-- The encoder of a `float64`: an error for NaN and the infinities, else the
shortest digits in format `f`, or in format `e` (with a one-digit exponent
written without its leading zero) below `1e-6` and from `1e21` on. -/
def encodeFloat (f : Float64) : Except String String :=
  if f.IsInf || f.IsNaN then
    .error ("json: unsupported value: " ++ strconv.FormatFloat f .g)
  else if f.absBits != 0 && (f.absBits < 4517329193108106637 || 4921056587992461136 ≤ f.absBits) then
    let b := (strconv.FormatFloat f .e).data
    let n := b.length
    if 4 ≤ n ∧ b.getD (n - 4) '0' = 'e' ∧ (b.getD (n - 3) '0' = '-' ∨ b.getD (n - 3) '0' = '+')
        ∧ b.getD (n - 2) '1' = '0' then
      .ok (String.mk (b.take (n - 2) ++ [b.getD (n - 1) '0']))
    else .ok (String.mk b)
  else .ok (strconv.FormatFloat f .f)

/-- Insertion of an encoded member in a list sorted by key. -/
def insertMember (kv : String × Except String String) :
    List (String × Except String String) → List (String × Except String String)
  | [] => [kv]
  | kv' :: rest => if kv.1 < kv'.1 then kv :: kv' :: rest else kv' :: insertMember kv rest

/-- The members of an object in the order of their keys. -/
def sortMembers (l : List (String × Except String String)) :
    List (String × Except String String) :=
  l.foldr insertMember []

/-- The texts of the elements of an array with commas between them, or the
first error. -/
def joinElements : List (Except String String) → Except String String
  | [] => .ok ""
  | [x] => x
  | x :: rest =>
    match x with
    | .error e => .error e
    | .ok s =>
      match joinElements rest with
      | .error e => .error e
      | .ok t => .ok (s ++ "," ++ t)

/-- One member of an object, `"key":value`. -/
def member (kv : String × Except String String) : Except String String :=
  match kv.2 with
  | .error e => .error e
  | .ok s => .ok (encodeString kv.1 ++ ":" ++ s)

mutual

/-- The function `json.Marshal` on a value, with the text of the error when
the value cannot be encoded. -/
def Marshal : GoValue → Except String String
  | .nil => .ok "null"
  | .string s => .ok (encodeString s)
  | .bool b => .ok (if b then "true" else "false")
  | .int i => .ok (strconv.FormatInt i)
  | .int64 i => .ok (strconv.FormatInt i)
  | .float64 f => encodeFloat f
  | .slice xs =>
    match joinElements (marshalElements xs) with
    | .error e => .error e
    | .ok s => .ok ("[" ++ s ++ "]")
  | .map kvs =>
    match joinElements ((sortMembers (marshalMembers kvs)).map member) with
    | .error e => .error e
    | .ok s => .ok ("\x7b" ++ s ++ "\x7d")
  | .unsupported typeName => .error ("json: unsupported type: " ++ typeName)

/-- The encodings of the elements of an array. -/
def marshalElements : List GoValue → List (Except String String)
  | [] => []
  | x :: xs => Marshal x :: marshalElements xs

/-- The encodings of the values of an object, each with its key. -/
def marshalMembers : List (String × GoValue) → List (String × Except String String)
  | [] => []
  | (k, v) :: rest => (k, Marshal v) :: marshalMembers rest

end

end json

/-! ## `internal/helpers/custom_data.go` -/

/-- The type `paddle.CustomData`, a `map[string]any` that may be nil. -/
abbrev CustomData := Option (GoMap GoValue)

/-- The values of the `map[string]attr.Value` that `CustomDataToMap` builds:
they are all `types.String`. -/
abbrev AttrValue := TfString

/-- The body of the loop of `CustomDataToMap`: the string for one value, or
the error of `json.Marshal`. -/
def strValue : GoValue → Except String String
  | .string v => .ok v
  | .float64 v => .ok (fmt.sprintFloat v)
  | .int v => .ok (strconv.FormatInt v)
  | .int64 v => .ok (strconv.FormatInt v)
  | .bool v => .ok (fmt.sprintBool v)
  | v => json.Marshal v

/-- The loop `for key, value := range customData` of `CustomDataToMap`, on the
entries still to visit and the result built so far.  The outcome is the pair
that the Go function returns: the map (nil when absent) and the error (nil
when absent). -/
def customDataLoop : List (String × GoValue) → GoMap AttrValue →
    Option (GoMap AttrValue) × Option String
  | [], result => (some result, none)
  | (key, value) :: rest, result =>
    match strValue value with
    | .error err =>
      (none, some ("failed to marshal custom_data value for key " ++ key ++ ": " ++ err))
    | .ok s => customDataLoop rest (result.set key (TfString.StringValue s))

/-- The function `CustomDataToMap`. -/
def CustomDataToMap (customData : CustomData) : Option (GoMap AttrValue) × Option String :=
  match customData with
  | none => (none, none)
  | some m => customDataLoop m.entries GoMap.empty

/-- The function `MapToCustomData`. -/
def MapToCustomData (tfMap : Option (GoMap String)) : CustomData :=
  match tfMap with
  | none => none
  | some m =>
    some (m.entries.foldl (fun customData kv => customData.set kv.1 (GoValue.string kv.2))
      GoMap.empty)

/-- The strings of a map of attribute values, as the framework's `ElementsAs`
reads a map of known strings into a `map[string]string`. -/
def elementStrings (m : Option (GoMap AttrValue)) : Option (GoMap String) :=
  match m with
  | none => none
  | some m =>
    some (m.entries.foldl (fun out kv => out.set kv.1 kv.2.ValueString) GoMap.empty)

/-- The string that the loop of `CustomDataToMap` stores for a value, with the
empty string standing in where the conversion fails. -/
def storedString (v : GoValue) : String :=
  match strValue v with
  | .ok s => s
  | .error _ => ""

/-- The insignificant whitespace of JSON: space, line feed, carriage return, tab. -/
def isWhitespace (c : Char) : Bool :=
  c == ' ' || c == '\n' || c == '\r' || c == '\t'

mutual

/-- Whether a string inside the value, a key included, holds a space. -/
def GoValue.hasSpace : GoValue → Bool
  | .string s => s.data.contains ' '
  | .slice xs => hasSpaceElements xs
  | .map kvs => hasSpaceMembers kvs
  | _ => false

def hasSpaceElements : List GoValue → Bool
  | [] => false
  | x :: xs => x.hasSpace || hasSpaceElements xs

def hasSpaceMembers : List (String × GoValue) → Bool
  | [] => false
  | (k, v) :: rest => k.data.contains ' ' || v.hasSpace || hasSpaceMembers rest

end

/-- Every whitespace character of the text is a space, and there is one only
when `b` holds. -/
def SpacesOnlyIf (b : Bool) (cs : List Char) : Prop :=
  ∀ c ∈ cs, isWhitespace c = true → c = ' ' ∧ b = true

/-- The keys of a map that may be nil; a nil map has none. -/
def keysOf {α : Type} (m : Option (GoMap α)) : List String :=
  match m with
  | none => []
  | some m => m.keys

/-- The two-valued read `v, ok := m[k]` on a map that may be nil. -/
def lookupOf {α : Type} (m : Option (GoMap α)) (k : String) : Option α :=
  match m with
  | none => none
  | some m => m.get? k

/-! ## `PercentageAmountValidator` -/

namespace Float64

/-- The double with a given 64-bit pattern. -/
def ofBits (bits : Nat) : Float64 :=
  ⟨decide (bits / 9223372036854775808 % 2 = 1), Fin.ofNat (bits / 4503599627370496 % 2048),
    Fin.ofNat (bits % 4503599627370496)⟩

/-- The place of a double that is not NaN in the order of the reals: the bit
pattern of the absolute value, negated for a negative double, so that the two
zeros share a place. -/
def orderKey (f : Float64) : Int :=
  if f.sign then -(f.absBits : Int) else (f.absBits : Int)

/-- The comparison `a < b` of Go, false when either side is NaN. -/
def lt (a b : Float64) : Bool :=
  !a.IsNaN && !b.IsNaN && decide (a.orderKey < b.orderKey)

/-- The comparison `a > b` of Go. -/
def gt (a b : Float64) : Bool := lt b a

end Float64

namespace PercentageAmountValidator

/-- The constant `0.01` as a `float64`. -/
def lowerBound : Float64 := Float64.ofBits 0x3F847AE147AE147B

/-- The constant `100` as a `float64`. -/
def upperBound : Float64 := Float64.ofNat 100

/-- The validator, with the function `strconv.ParseFloat(value, 64)` of the Go
library taken as a parameter: the parsed double, or the text of the error. -/
def ValidateString (ParseFloat : String → Except String Float64) (req : StringRequest)
    (resp : StringResponse) : StringResponse :=
  if req.ConfigValue.IsNull || req.ConfigValue.IsUnknown then resp
  else
    let value := req.ConfigValue.ValueString
    match ParseFloat value with
    | .error _ =>
      ⟨resp.Diagnostics.AddAttributeError req.Path "Invalid Percentage Amount"
        ("Percentage amount must be a valid number. Got: " ++ value)⟩
    | .ok amount =>
      if amount.lt lowerBound || amount.gt upperBound then
        ⟨resp.Diagnostics.AddAttributeError req.Path "Invalid Percentage Amount"
          ("Percentage amount must be between 0.01 and 100. Got: " ++ value)⟩
      else resp

end PercentageAmountValidator

/-! ## `internal/provider/provider.go` -/

namespace Diagnostics

/-- The method `Append` for a list of diagnostics, `Append(diags...)`. -/
def AppendAll (diags : Diagnostics) (more : Diagnostics) : Diagnostics :=
  more.items.foldl Append diags

/-- The method `AddError`: an error that belongs to no attribute. -/
def AddError (diags : Diagnostics) (summary detail : String) : Diagnostics :=
  Append diags ⟨Severity.error, summary, detail, none⟩

end Diagnostics

/-- Modelled from the spec: the client handle `*paddle.SDK` of the vendor SDK,
an external collaborator whose code is not part of the repository.  What is
kept of it is the environment it talks to and the key it authenticates with. -/
structure SDK where
  sandbox : Bool
  apiKey : String
  deriving DecidableEq, Repr

/-- A call of one of the two constructors of the SDK, with the key it is given. -/
inductive SDKCall where
  | New (apiKey : String)
  | NewSandbox (apiKey : String)
  deriving DecidableEq, Repr

/-- The constructors `paddle.New` and `paddle.NewSandbox`, taken as parameters:
each returns a client or the text of an error. -/
structure SDKConstructors where
  New : String → Except String SDK
  NewSandbox : String → Except String SDK

namespace paddleProvider

/-- The type `paddleProviderModel`. -/
structure paddleProviderModel where
  ApiKey : TfString
  Environment : TfString

/-- The request of `Configure`: the configuration, as `req.Config.Get` decodes
it, and the diagnostics of that call. -/
structure ConfigureRequest where
  Config : paddleProviderModel
  ConfigDiags : Diagnostics

/-- The response of `Configure`. -/
structure ConfigureResponse where
  Diagnostics : Diagnostics
  DataSourceData : Option SDK
  ResourceData : Option SDK

/-- The method `Configure`, with the constructors of the SDK and the function
`os.Getenv` as parameters.  The outcome is the response and the constructor
calls made, in order. -/
def Configure (sdk : SDKConstructors) (Getenv : String → String) (req : ConfigureRequest)
    (resp : ConfigureResponse) : ConfigureResponse × List SDKCall :=
  let config := req.Config
  let diags₀ := resp.Diagnostics.AppendAll req.ConfigDiags
  if diags₀.HasError then ({ resp with Diagnostics := diags₀ }, [])
  else
    let diags₁ :=
      if config.ApiKey.IsUnknown then
        diags₀.AddAttributeError (Path.Root "api_key") "Unknown Paddle API Key"
          ("The provider cannot create the Paddle API client as there is an unknown configuration value for the Paddle API key. " ++
            "Either target apply the source of the value first, set the value statically in the configuration, or use the PADDLE_API_KEY environment variable.")
      else diags₀
    let diags₂ :=
      if config.Environment.IsUnknown then
        diags₁.AddAttributeError (Path.Root "environment") "Unknown Paddle Environment"
          ("The provider cannot create the Paddle API client as there is an unknown configuration value for the Paddle environment. " ++
            "Either target apply the source of the value first, set the value statically in the configuration, or use the PADDLE_ENVIRONMENT environment variable.")
      else diags₁
    if diags₂.HasError then ({ resp with Diagnostics := diags₂ }, [])
    else
      let apiKey₀ := Getenv "PADDLE_API_KEY"
      let environment₀ := Getenv "PADDLE_ENVIRONMENT"
      let apiKey := if !config.ApiKey.IsNull then config.ApiKey.ValueString else apiKey₀
      let environment₁ :=
        if !config.Environment.IsNull then config.Environment.ValueString else environment₀
      let diags₃ :=
        if apiKey = "" then
          diags₂.AddAttributeError (Path.Root "api_key") "Missing Paddle API Key"
            ("The provider cannot create the Paddle API client as there is a missing or empty value for the Paddle API key. " ++
              "Set the api_key value in the configuration or use the PADDLE_API_KEY environment variable. " ++
              "If either is already set, ensure the value is not empty.")
        else diags₂
      let environment := if environment₁ = "" then "sandbox" else environment₁
      let diags₄ :=
        if environment ≠ "sandbox" ∧ environment ≠ "production" then
          diags₃.AddAttributeError (Path.Root "environment") "Invalid Paddle Environment"
            ("The environment must be either 'sandbox' or 'production', got: " ++ environment)
        else diags₃
      if diags₄.HasError then ({ resp with Diagnostics := diags₄ }, [])
      else
        let call := if environment = "sandbox" then SDKCall.NewSandbox apiKey else SDKCall.New apiKey
        let result := if environment = "sandbox" then sdk.NewSandbox apiKey else sdk.New apiKey
        match result with
        | .error err =>
          ({ resp with
              Diagnostics := diags₄.AddError "Unable to Create Paddle API Client"
                ("An unexpected error occurred when creating the Paddle API client. " ++
                  "Paddle Client Error: " ++ err) }, [call])
        | .ok client =>
          ({ Diagnostics := diags₄, DataSourceData := some client, ResourceData := some client },
            [call])

/-- The API key that `Configure` resolves: the configured value when it is not
null, the environment variable `PADDLE_API_KEY` otherwise. -/
def resolvedApiKey (Getenv : String → String) (config : paddleProviderModel) : String :=
  match config.ApiKey with
  | .null => Getenv "PADDLE_API_KEY"
  | v => v.ValueString

/-- The environment that `Configure` resolves, before the default is applied:
the configured value when it is not null, the variable `PADDLE_ENVIRONMENT`
otherwise. -/
def resolvedEnvironment (Getenv : String → String) (config : paddleProviderModel) : String :=
  match config.Environment with
  | .null => Getenv "PADDLE_ENVIRONMENT"
  | v => v.ValueString

/-- The diagnostic for a missing API key. -/
def missingApiKey : Diagnostic :=
  ⟨.error, "Missing Paddle API Key",
    "The provider cannot create the Paddle API client as there is a missing or empty value for the Paddle API key. " ++
      "Set the api_key value in the configuration or use the PADDLE_API_KEY environment variable. " ++
      "If either is already set, ensure the value is not empty.",
    some (Path.Root "api_key")⟩

/-- The diagnostic for an environment that is neither `sandbox` nor `production`. -/
def invalidEnvironment (environment : String) : Diagnostic :=
  ⟨.error, "Invalid Paddle Environment",
    "The environment must be either 'sandbox' or 'production', got: " ++ environment,
    some (Path.Root "environment")⟩

/-- The constructors of an SDK that never fails. -/
def plainSDK : SDKConstructors :=
  ⟨fun apiKey => .ok ⟨false, apiKey⟩, fun apiKey => .ok ⟨true, apiKey⟩⟩

end paddleProvider

/-! ## The framework values of the resource models -/

/-- A value of one of the framework types `types.Bool`, `types.Int64`,
`types.Object`, `types.List` and `types.Map`: null, unknown, or known. -/
inductive Tf (α : Type) where
  | null
  | unknown
  | known (a : α)
  deriving DecidableEq, Repr

namespace Tf

variable {α : Type}

def IsNull : Tf α → Bool
  | null => true
  | _ => false

def IsUnknown : Tf α → Bool
  | unknown => true
  | _ => false

/-- The method `Equal`: the same state and, when known, the same value. -/
def Equal [DecidableEq α] (a b : Tf α) : Bool := decide (a = b)

/-- The methods `ValueBool`, `ValueInt64`: the known value, or the zero value. -/
def Value (zero : α) : Tf α → α
  | known a => a
  | _ => zero

/-- The method `As` of an object with the options `ObjectAsOptions{}`, into a
Go struct: the struct for a known object, and an error diagnostic for a null
or an unknown one, which a struct cannot hold. -/
def As : Tf α → Option α × Diagnostics
  | known a => (some a, ⟨[]⟩)
  | null =>
    (none, ⟨[⟨.error, "Value Conversion Error",
      "Received null value, however the target type cannot handle null values.", none⟩]⟩)
  | unknown =>
    (none, ⟨[⟨.error, "Value Conversion Error",
      "Received unknown value, however the target type cannot handle unknown values.",
      none⟩]⟩)

end Tf

namespace TfString

/-- The method `Equal` of `types.String`. -/
def Equal (a b : TfString) : Bool := decide (a = b)

end TfString

/-- Whether two maps hold the same keys with the same values, in any order. -/
def GoMap.Equal {α : Type} [DecidableEq α] (a b : GoMap α) : Bool :=
  a.len == b.len && a.entries.all (fun kv => decide (b.get? kv.1 = some kv.2))

/-- A value of `types.Map` with string elements. -/
abbrev TfMap := Tf (GoMap TfString)

namespace TfMap

/-- The method `Equal` of `types.Map`: the same state and, when known, the same
elements under the same keys. -/
def Equal : TfMap → TfMap → Bool
  | .null, .null => true
  | .unknown, .unknown => true
  | .known a, .known b => a.Equal b
  | _, _ => false

/-- The method `ElementsAs` into a `map[string]string`: the strings of the
elements, and an error diagnostic when an element is null or unknown, which a
Go string cannot hold. -/
def ElementsAs (elems : GoMap TfString) : Option (GoMap String) × Diagnostics :=
  if elems.entries.all (fun kv => !kv.2.IsNull && !kv.2.IsUnknown) then
    (some (elems.entries.foldl (fun out kv => out.set kv.1 kv.2.ValueString) GoMap.empty),
      ⟨[]⟩)
  else
    (none, ⟨[⟨.error, "Value Conversion Error",
      "Received null or unknown value, however the target type cannot handle it.", none⟩]⟩)

end TfMap

/-! ## The SDK types that the resources use -/

/-- Modelled from the spec: the SDK wrapper `paddle.PatchField`, whose
declaration is not part of the repository.  A request field of type
`*PatchField[T]` is an `Option (PatchField T)`: `none` leaves the field out of
the request, and `some` sends the value, which for a pointer type may be the
explicit null. -/
structure PatchField (α : Type) where
  value : α
  deriving DecidableEq, Repr

/-- The constructor `paddle.NewPatchField`. -/
def NewPatchField {α : Type} (v : α) : PatchField α := ⟨v⟩

/-- Modelled from the spec: an error that a call of the SDK returns.  What is
kept of it is whether it reports that the entity does not exist remotely, and
the text of its method `Error`. -/
structure ApiError where
  notFound : Bool
  text : String
  deriving DecidableEq, Repr

/-- Modelled from the spec: the SDK constants `paddle.StatusArchived` and
`paddle.DiscountStatusArchived`, the status `archived` of the specification. -/
def StatusArchived : String := "archived"

/-- Modelled from the spec: the SDK constant `paddle.TaxModeAccountSetting`,
the default `account_setting` that the schema of the price documents. -/
def TaxModeAccountSetting : String := "account_setting"

/-- The SDK type `paddle.Money`. -/
structure Money where
  Amount : String
  CurrencyCode : String
  deriving DecidableEq, Repr

/-- The SDK type `paddle.Duration`. -/
structure Duration where
  Interval : String
  Frequency : Int
  deriving DecidableEq, Repr

/-- The SDK type `paddle.PriceQuantity`. -/
structure PriceQuantity where
  Minimum : Int
  Maximum : Int
  deriving DecidableEq, Repr

/-- The SDK type `paddle.UnitPriceOverride`. -/
structure UnitPriceOverride where
  CountryCodes : List String
  UnitPrice : Money
  deriving DecidableEq, Repr

/-- Modelled from the spec: the SDK entity `paddle.Price`, with the fields that
the repository reads. -/
structure Price where
  ID : String
  ProductID : String
  Description : String
  Name : Option String
  TaxMode : String
  UnitPrice : Money
  UnitPriceOverrides : List UnitPriceOverride
  BillingCycle : Option Duration
  TrialPeriod : Option Duration
  Quantity : PriceQuantity
  CustomData : CustomData
  Status : String
  CreatedAt : String
  UpdatedAt : String

/-- Modelled from the spec: the SDK type `paddle.UpdatePriceRequest`, whose
declaration is not part of the repository: the path parameter and one patch
field for each property of a price that the specification names.  The product
linkage has a field too, so that its absence from a request can be stated. -/
structure UpdatePriceRequest where
  PriceID : String
  Description : Option (PatchField String) := none
  Name : Option (PatchField (Option String)) := none
  TaxMode : Option (PatchField String) := none
  Quantity : Option (PatchField PriceQuantity) := none
  CustomData : Option (PatchField CustomData) := none
  Status : Option (PatchField String) := none
  ProductID : Option (PatchField String) := none
  UnitPrice : Option (PatchField Money) := none
  UnitPriceOverrides : Option (PatchField (List UnitPriceOverride)) := none
  BillingCycle : Option (PatchField (Option Duration)) := none
  TrialPeriod : Option (PatchField (Option Duration)) := none

/-- Modelled from the spec: the SDK type `paddle.UpdateProductRequest`, with the
fields that the repository sets. -/
structure UpdateProductRequest where
  ProductID : String
  Name : Option (PatchField String) := none
  TaxCategory : Option (PatchField String) := none
  Description : Option (PatchField (Option String)) := none
  ImageURL : Option (PatchField (Option String)) := none
  CustomData : Option (PatchField CustomData) := none
  Status : Option (PatchField String) := none

/-- Modelled from the spec: the SDK type `paddle.UpdateDiscountRequest`, with
the fields that the repository sets.  The mode, the currency and the maximum
of recurring intervals, which the repository never sets in an update, have a
field too, so that their absence from a request can be stated. -/
structure UpdateDiscountRequest where
  DiscountID : String
  Description : Option (PatchField String) := none
  EnabledForCheckout : Option (PatchField Bool) := none
  Code : Option (PatchField (Option String)) := none
  Amount : Option (PatchField String) := none
  Type_ : Option (PatchField String) := none
  Recur : Option (PatchField Bool) := none
  UsageLimit : Option (PatchField (Option Int)) := none
  RestrictTo : Option (PatchField (Option (List String))) := none
  ExpiresAt : Option (PatchField (Option String)) := none
  CustomData : Option (PatchField CustomData) := none
  DiscountGroupID : Option (PatchField (Option String)) := none
  Status : Option (PatchField String) := none
  Mode : Option (PatchField String) := none
  CurrencyCode : Option (PatchField (Option String)) := none
  MaximumRecurringIntervals : Option (PatchField (Option Int)) := none

/-- Modelled from the spec: the SDK type `paddle.UpdateCustomerRequest`, with
the fields that the repository sets. -/
structure UpdateCustomerRequest where
  CustomerID : String
  Email : Option (PatchField String) := none
  Name : Option (PatchField (Option String)) := none
  Locale : Option (PatchField String) := none
  CustomData : Option (PatchField CustomData) := none
  Status : Option (PatchField String) := none

/-- The SDK type `paddle.DeleteNotificationSettingRequest`. -/
structure DeleteNotificationSettingRequest where
  NotificationSettingID : String

/-! ## The requests and responses of the resource operations -/

/-- The request of `Delete`: the state, as `req.State.Get` decodes it into the
model of the resource, and the diagnostics of that call. -/
structure DeleteRequest (M : Type) where
  State : M
  StateDiags : Diagnostics

/-- The response of `Delete`. -/
structure DeleteResponse where
  Diagnostics : Diagnostics

/-- The request of `Update`: the plan and the state, as `req.Plan.Get` and
`req.State.Get` decode them, and the diagnostics of the two calls. -/
structure UpdateRequest (M : Type) where
  Plan : M
  PlanDiags : Diagnostics
  State : M
  StateDiags : Diagnostics

/-- The response of `Update`: the diagnostics, and the state that the
operation leaves. -/
structure UpdateResponse (M : Type) where
  Diagnostics : Diagnostics
  State : M

/-! ## The models of the resources -/

structure productResourceModel where
  ID : TfString
  Name : TfString
  Description : TfString
  TaxCategory : TfString
  ImageURL : TfString
  CustomData : TfMap
  Status : TfString
  CreatedAt : TfString
  UpdatedAt : TfString

structure discountResourceModel where
  ID : TfString
  Status : TfString
  Description : TfString
  EnabledForCheckout : Tf Bool
  Code : TfString
  Type_ : TfString
  Mode : TfString
  Amount : TfString
  CurrencyCode : TfString
  Recur : Tf Bool
  MaximumRecurringIntervals : Tf Int
  UsageLimit : Tf Int
  RestrictTo : Tf (List TfString)
  ExpiresAt : TfString
  CustomData : TfMap
  TimesUsed : Tf Int
  DiscountGroupID : TfString
  CreatedAt : TfString
  UpdatedAt : TfString

structure customerResourceModel where
  ID : TfString
  Name : TfString
  Email : TfString
  MarketingConsent : Tf Bool
  Status : TfString
  CustomData : TfMap
  Locale : TfString
  CreatedAt : TfString
  UpdatedAt : TfString

structure notificationSettingResourceModel where
  ID : TfString
  Description : TfString
  Type_ : TfString
  Destination : TfString
  Active : Tf Bool
  SubscribedEvents : Tf (List TfString)
  EndpointSecretKey : TfString
  APIVersion : Tf Int
  IncludeSensitiveFields : Tf Bool
  TrafficSource : TfString

structure unitPriceModel where
  Amount : TfString
  CurrencyCode : TfString
  deriving DecidableEq, Repr

structure billingCycleModel where
  Frequency : Tf Int
  Interval : TfString
  deriving DecidableEq, Repr

structure trialPeriodModel where
  Frequency : Tf Int
  Interval : TfString
  deriving DecidableEq, Repr

structure quantityModel where
  Minimum : Tf Int
  Maximum : Tf Int
  deriving DecidableEq, Repr

structure unitPriceOverrideModel where
  CountryCodes : Tf (List TfString)
  UnitPrice : Tf unitPriceModel
  deriving DecidableEq, Repr

structure priceResourceModel where
  ID : TfString
  ProductID : TfString
  Description : TfString
  Name : TfString
  TaxMode : TfString
  UnitPrice : Tf unitPriceModel
  UnitPriceOverrides : Tf (List unitPriceOverrideModel)
  BillingCycle : Tf billingCycleModel
  TrialPeriod : Tf trialPeriodModel
  Quantity : Tf quantityModel
  CustomData : TfMap
  Status : TfString
  CreatedAt : TfString
  UpdatedAt : TfString

/-! ## The `Delete` operations -/

/-- The method `ProductResource.Delete`, with the client method
`UpdateProduct` as a parameter.  The outcome is the response and the requests
sent to the remote API, in order. -/
def ProductResource.Delete {Product : Type}
    (UpdateProduct : UpdateProductRequest → Except ApiError Product)
    (req : DeleteRequest productResourceModel) (resp : DeleteResponse) :
    DeleteResponse × List UpdateProductRequest :=
  let data := req.State
  let diags₀ := resp.Diagnostics.AppendAll req.StateDiags
  if diags₀.HasError then (⟨diags₀⟩, [])
  else
    let updateReq : UpdateProductRequest :=
      { ProductID := data.ID.ValueString, Status := some (NewPatchField StatusArchived) }
    match UpdateProduct updateReq with
    | .error err =>
      (⟨diags₀.AddError "Error archiving product"
        ("Could not archive product ID " ++ data.ID.ValueString ++ ": " ++ err.text)⟩,
        [updateReq])
    | .ok _ => (⟨diags₀⟩, [updateReq])

/-- The method `PriceResource.Delete`, with the client method `UpdatePrice` as
a parameter. -/
def PriceResource.Delete (UpdatePrice : UpdatePriceRequest → Except ApiError Price)
    (req : DeleteRequest priceResourceModel) (resp : DeleteResponse) :
    DeleteResponse × List UpdatePriceRequest :=
  let data := req.State
  let diags₀ := resp.Diagnostics.AppendAll req.StateDiags
  if diags₀.HasError then (⟨diags₀⟩, [])
  else
    let updateReq : UpdatePriceRequest :=
      { PriceID := data.ID.ValueString, Status := some (NewPatchField StatusArchived) }
    match UpdatePrice updateReq with
    | .error err =>
      (⟨diags₀.AddError "Error archiving price"
        ("Could not archive price ID " ++ data.ID.ValueString ++ ": " ++ err.text)⟩,
        [updateReq])
    | .ok _ => (⟨diags₀⟩, [updateReq])

/-- The method `DiscountResource.Delete`, with the client method
`UpdateDiscount` as a parameter. -/
def DiscountResource.Delete {Discount : Type}
    (UpdateDiscount : UpdateDiscountRequest → Except ApiError Discount)
    (req : DeleteRequest discountResourceModel) (resp : DeleteResponse) :
    DeleteResponse × List UpdateDiscountRequest :=
  let data := req.State
  let diags₀ := resp.Diagnostics.AppendAll req.StateDiags
  if diags₀.HasError then (⟨diags₀⟩, [])
  else
    let updateReq : UpdateDiscountRequest :=
      { DiscountID := data.ID.ValueString, Status := some (NewPatchField StatusArchived) }
    match UpdateDiscount updateReq with
    | .error err =>
      (⟨diags₀.AddError "Error archiving discount"
        ("Could not archive discount ID " ++ data.ID.ValueString ++ ": " ++ err.text)⟩,
        [updateReq])
    | .ok _ => (⟨diags₀⟩, [updateReq])

/-- The method `CustomerResource.Delete`, with the client method
`UpdateCustomer` as a parameter. -/
def CustomerResource.Delete {Customer : Type}
    (UpdateCustomer : UpdateCustomerRequest → Except ApiError Customer)
    (req : DeleteRequest customerResourceModel) (resp : DeleteResponse) :
    DeleteResponse × List UpdateCustomerRequest :=
  let data := req.State
  let diags₀ := resp.Diagnostics.AppendAll req.StateDiags
  if diags₀.HasError then (⟨diags₀⟩, [])
  else
    let updateReq : UpdateCustomerRequest :=
      { CustomerID := data.ID.ValueString, Status := some (NewPatchField StatusArchived) }
    match UpdateCustomer updateReq with
    | .error err =>
      (⟨diags₀.AddError "Error archiving customer"
        ("Could not archive customer ID " ++ data.ID.ValueString ++ ": " ++ err.text)⟩,
        [updateReq])
    | .ok _ => (⟨diags₀⟩, [updateReq])

/-- The method `NotificationSettingResource.Delete`, with the client method
`DeleteNotificationSetting` as a parameter: it returns the error, if any. -/
def NotificationSettingResource.Delete
    (DeleteNotificationSetting : DeleteNotificationSettingRequest → Option ApiError)
    (req : DeleteRequest notificationSettingResourceModel) (resp : DeleteResponse) :
    DeleteResponse × List DeleteNotificationSettingRequest :=
  let data := req.State
  let diags₀ := resp.Diagnostics.AppendAll req.StateDiags
  if diags₀.HasError then (⟨diags₀⟩, [])
  else
    let deleteReq : DeleteNotificationSettingRequest :=
      { NotificationSettingID := data.ID.ValueString }
    match DeleteNotificationSetting deleteReq with
    | some err =>
      (⟨diags₀.AddError "Error deleting notification setting"
        ("Could not delete notification setting ID " ++ data.ID.ValueString ++ ": " ++
          err.text)⟩,
        [deleteReq])
    | none => (⟨diags₀⟩, [deleteReq])

/-! ## `PriceResource`: schema and update -/

/-- The plan modifiers that the schemas attach to attributes. -/
inductive PlanModifier where
  | UseStateForUnknown
  | RequiresReplace
  deriving DecidableEq, Repr

/-- The properties of a schema attribute that the resources declare. -/
structure Attribute where
  Required : Bool := false
  Optional : Bool := false
  Computed : Bool := false
  MarkdownDescription : String := ""
  Validators : List String := []
  PlanModifiers : List PlanModifier := []

namespace PriceResource

/-- The attributes of `PriceResource.Schema`.  A nested attribute stands under
the path of its parent, as in `unit_price.amount`. -/
def Schema : List (String × Attribute) := [
  ("id",
    { Computed := true,
      MarkdownDescription := "Paddle price ID (format: pri_...)",
      PlanModifiers := [.UseStateForUnknown] }),
  ("product_id",
    { Required := true,
      MarkdownDescription := "Paddle product ID that this price is for. Cannot be changed after creation.",
      PlanModifiers := [.RequiresReplace] }),
  ("description",
    { Required := true,
      MarkdownDescription := "Internal description for the price, not shown to customers." }),
  ("name",
    { Optional := true,
      MarkdownDescription := "Name of this price, shown to customers. Typically describes the billing frequency." }),
  ("tax_mode",
    { Optional := true, Computed := true,
      MarkdownDescription := "How tax is calculated for this price. One of: `account_setting` (use account default), `internal` (tax included in price), `external` (tax added on top of price). Defaults to `account_setting`.",
      Validators := ["TaxModeValidator"],
      PlanModifiers := [.UseStateForUnknown] }),
  ("unit_price",
    { Required := true,
      MarkdownDescription := "Base price. Prices are denominated in cents. Cannot be changed after creation - changing this will force a new resource.",
      PlanModifiers := [.RequiresReplace] }),
  ("unit_price.amount",
    { Required := true,
      MarkdownDescription := "Amount in cents as a string (e.g., '2900' for $29.00)." }),
  ("unit_price.currency_code",
    { Required := true,
      MarkdownDescription := "Three-letter ISO 4217 currency code in uppercase (e.g., 'USD', 'EUR').",
      Validators := ["CurrencyCodeValidator"] }),
  ("unit_price_overrides",
    { Optional := true,
      MarkdownDescription := "Country-specific price overrides for regional pricing strategies. Useful for purchasing power parity or local market pricing. Cannot be changed after creation - changing this will force a new resource." }),
  ("unit_price_overrides.country_codes",
    { Required := true,
      MarkdownDescription := "List of two-letter ISO 3166-1 alpha-2 country codes (e.g., ['GB', 'FR', 'DE'])." }),
  ("unit_price_overrides.unit_price",
    { Required := true,
      MarkdownDescription := "Overridden price for these countries." }),
  ("unit_price_overrides.unit_price.amount",
    { Required := true,
      MarkdownDescription := "Amount in cents as a string." }),
  ("unit_price_overrides.unit_price.currency_code",
    { Required := true,
      MarkdownDescription := "Three-letter ISO 4217 currency code." }),
  ("billing_cycle",
    { Optional := true,
      MarkdownDescription := "How often this price should be charged. null for one-time prices. Cannot be changed after creation - changing this will force a new resource.",
      PlanModifiers := [.RequiresReplace] }),
  ("billing_cycle.frequency",
    { Required := true,
      MarkdownDescription := "Billing frequency (e.g., 1 for monthly, 3 for quarterly)." }),
  ("billing_cycle.interval",
    { Required := true,
      MarkdownDescription := "Billing interval unit. One of: day, week, month, year." }),
  ("trial_period",
    { Optional := true,
      MarkdownDescription := "Trial period for the price. Customers will not be charged during trial. Cannot be changed after creation - changing this will force a new resource.",
      PlanModifiers := [.RequiresReplace] }),
  ("trial_period.frequency",
    { Required := true,
      MarkdownDescription := "Trial period length (e.g., 7 for 7 days, 1 for 1 month)." }),
  ("trial_period.interval",
    { Required := true,
      MarkdownDescription := "Trial period unit. One of: day, week, month, year." }),
  ("quantity",
    { Optional := true, Computed := true,
      MarkdownDescription := "Limits on purchase quantity. Defaults to minimum=1, maximum=100 if omitted. Useful for discount campaigns and limiting quantities.",
      PlanModifiers := [.UseStateForUnknown] }),
  ("quantity.minimum",
    { Required := true,
      MarkdownDescription := "Minimum quantity that can be purchased. Must be at least 1." }),
  ("quantity.maximum",
    { Required := true,
      MarkdownDescription := "Maximum quantity that can be purchased. Must be greater than or equal to minimum." }),
  ("custom_data",
    { Optional := true,
      MarkdownDescription := "Custom data for this price. Max 10 keys, 1KB total." }),
  ("status",
    { Computed := true,
      MarkdownDescription := "Status of the price. Either 'active' or 'archived'.",
      PlanModifiers := [.UseStateForUnknown] }),
  ("created_at",
    { Computed := true,
      MarkdownDescription := "RFC 3339 timestamp when the price was created.",
      PlanModifiers := [.UseStateForUnknown] }),
  ("updated_at",
    { Computed := true,
      MarkdownDescription := "RFC 3339 timestamp when the price was last updated." })]

/-- The modifiers of an attribute of the schema; none for a name it lacks. -/
def planModifiers (name : String) : List PlanModifier :=
  match lookupEntries name Schema with
  | some a => a.PlanModifiers
  | none => []

/-- Whether plan and state agree on a top-level attribute, by the method `Equal`
of the field that carries the attribute in its `tfsdk` tag. -/
def attributeEqual (name : String) (plan state : priceResourceModel) : Bool :=
  if name = "id" then plan.ID.Equal state.ID
  else if name = "product_id" then plan.ProductID.Equal state.ProductID
  else if name = "description" then plan.Description.Equal state.Description
  else if name = "name" then plan.Name.Equal state.Name
  else if name = "tax_mode" then plan.TaxMode.Equal state.TaxMode
  else if name = "unit_price" then plan.UnitPrice.Equal state.UnitPrice
  else if name = "unit_price_overrides" then
    plan.UnitPriceOverrides.Equal state.UnitPriceOverrides
  else if name = "billing_cycle" then plan.BillingCycle.Equal state.BillingCycle
  else if name = "trial_period" then plan.TrialPeriod.Equal state.TrialPeriod
  else if name = "quantity" then plan.Quantity.Equal state.Quantity
  else if name = "custom_data" then TfMap.Equal plan.CustomData state.CustomData
  else if name = "status" then plan.Status.Equal state.Status
  else if name = "created_at" then plan.CreatedAt.Equal state.CreatedAt
  else if name = "updated_at" then plan.UpdatedAt.Equal state.UpdatedAt
  else true

/-- The top-level attributes of the model. -/
def topLevel : List String :=
  ["id", "product_id", "description", "name", "tax_mode", "unit_price",
    "unit_price_overrides", "billing_cycle", "trial_period", "quantity", "custom_data",
    "status", "created_at", "updated_at"]

/-- Modelled from the spec: the plan modifier `RequiresReplace` of the
framework, whose code is not part of the repository.  When a resource that
exists is planned to stay, an attribute with this modifier requires the
replacement of the resource if its planned value is not `Equal` to its value in
state.  The outcome is the list of the attributes that require replacement. -/
def RequiresReplace (plan state : priceResourceModel) : List String :=
  topLevel.filter (fun name =>
    (planModifiers name).contains PlanModifier.RequiresReplace &&
      !attributeEqual name plan state)

end PriceResource

/-- What Terraform does with a planned change of a resource that exists. -/
inductive PlannedAction where
  | Replace
  | Update
  deriving DecidableEq, Repr

namespace PriceResource

/-- Modelled from the spec: the choice of Terraform between an in-place update,
which calls `Update`, and a replacement, which destroys and creates: it
replaces when an attribute requires replacement. -/
def plannedAction (plan state : priceResourceModel) : PlannedAction :=
  if (RequiresReplace plan state).isEmpty then .Update else .Replace

/-- The assignment `updateReq.Name = v`. -/
def setName (r : UpdatePriceRequest) (v : PatchField (Option String)) : UpdatePriceRequest :=
  { r with Name := some v }

/-- The assignment `updateReq.TaxMode = v`. -/
def setTaxMode (r : UpdatePriceRequest) (v : PatchField String) : UpdatePriceRequest :=
  { r with TaxMode := some v }

/-- The assignment `updateReq.Quantity = v`. -/
def setQuantity (r : UpdatePriceRequest) (v : PatchField PriceQuantity) :
    UpdatePriceRequest :=
  { r with Quantity := some v }

/-- The assignment `updateReq.CustomData = v`. -/
def setCustomData (r : UpdatePriceRequest) (v : PatchField CustomData) : UpdatePriceRequest :=
  { r with CustomData := some v }

/-- The end of `Update`: the remote call and, when it succeeds, the state
written from the plan and the price returned.  The calls `types.ObjectValue`
and `resp.State.Set`, on values of the types of the schema, are taken to return
no diagnostics. -/
def sendUpdate (UpdatePrice : UpdatePriceRequest → Except ApiError Price)
    (plan : priceResourceModel) (resp : UpdateResponse priceResourceModel)
    (diags : Diagnostics) (updateReq : UpdatePriceRequest) :
    UpdateResponse priceResourceModel × List UpdatePriceRequest :=
  match UpdatePrice updateReq with
  | .error err =>
    ({ resp with
        Diagnostics := diags.AddError "Error updating price"
          ("Could not update price ID " ++ plan.ID.ValueString ++ " (product: " ++
            plan.ProductID.ValueString ++ ", description: " ++ plan.Description.ValueString ++
            "): " ++ err.text) }, [updateReq])
  | .ok price =>
    let plan₁ : priceResourceModel :=
      { plan with
          Status := TfString.StringValue price.Status,
          TaxMode := TfString.StringValue price.TaxMode,
          UpdatedAt := TfString.StringValue price.UpdatedAt }
    let plan₂ : priceResourceModel :=
      if price.Quantity.Minimum > 0 ∨ price.Quantity.Maximum > 0 then
        { plan₁ with
            Quantity := .known ⟨.known price.Quantity.Minimum, .known price.Quantity.Maximum⟩ }
      else { plan₁ with Quantity := .null }
    ({ Diagnostics := diags, State := plan₂ }, [updateReq])

/-- The method `PriceResource.Update`, with the client method `UpdatePrice` as
a parameter.  The outcome is the response and the requests sent to the remote
API, in order. -/
def Update (UpdatePrice : UpdatePriceRequest → Except ApiError Price)
    (req : UpdateRequest priceResourceModel) (resp : UpdateResponse priceResourceModel) :
    UpdateResponse priceResourceModel × List UpdatePriceRequest :=
  let plan := req.Plan
  let state := req.State
  let diags₀ := (resp.Diagnostics.AppendAll req.PlanDiags).AppendAll req.StateDiags
  if diags₀.HasError then ({ resp with Diagnostics := diags₀ }, [])
  else
    let hasChanges := !plan.Description.Equal state.Description ||
      !plan.Name.Equal state.Name ||
      !plan.TaxMode.Equal state.TaxMode ||
      !plan.Quantity.Equal state.Quantity ||
      !TfMap.Equal plan.CustomData state.CustomData
    if !hasChanges then
      ({ Diagnostics := diags₀,
         State := { plan with UpdatedAt := state.UpdatedAt, Status := state.Status } }, [])
    else
      let diags₁ := diags₀.AppendAll plan.UnitPrice.As.2
      if diags₁.HasError then ({ resp with Diagnostics := diags₁ }, [])
      else
        let updateReq₀ : UpdatePriceRequest :=
          { PriceID := plan.ID.ValueString,
            Description := some (NewPatchField plan.Description.ValueString) }
        let updateReq₁ : UpdatePriceRequest :=
          if !plan.Name.IsNull then
            setName updateReq₀ (NewPatchField (some plan.Name.ValueString))
          else setName updateReq₀ (NewPatchField none)
        let updateReq₂ : UpdatePriceRequest :=
          if !plan.TaxMode.IsNull && !plan.TaxMode.IsUnknown then
            setTaxMode updateReq₁ (NewPatchField plan.TaxMode.ValueString)
          else if plan.TaxMode.IsNull then
            setTaxMode updateReq₁ (NewPatchField TaxModeAccountSetting)
          else updateReq₁
        let diags₂ :=
          if !plan.Quantity.IsNull && !plan.Quantity.IsUnknown then
            diags₁.AppendAll plan.Quantity.As.2
          else diags₁
        if diags₂.HasError then ({ resp with Diagnostics := diags₂ }, [])
        else
          let updateReq₃ : UpdatePriceRequest :=
            match plan.Quantity with
            | .known quantity =>
              setQuantity updateReq₂
                (NewPatchField ⟨quantity.Minimum.Value 0, quantity.Maximum.Value 0⟩)
            | _ => updateReq₂
          match plan.CustomData with
          | .known elems =>
            let diags₃ := diags₂.AppendAll (TfMap.ElementsAs elems).2
            if diags₃.HasError then ({ resp with Diagnostics := diags₃ }, [])
            else
              sendUpdate UpdatePrice plan resp diags₃
                (setCustomData updateReq₃
                  (NewPatchField (MapToCustomData (TfMap.ElementsAs elems).1)))
          | _ =>
            sendUpdate UpdatePrice plan resp diags₂
              (setCustomData updateReq₃ (NewPatchField none))

/-- A request that `Update` can send: the identifier and the description of
the plan, and none of the immutable fields. -/
def MutableOnly (plan : priceResourceModel) (r : UpdatePriceRequest) : Prop :=
  r.PriceID = plan.ID.ValueString ∧
  r.Description = some (NewPatchField plan.Description.ValueString) ∧
  r.ProductID = none ∧ r.UnitPrice = none ∧ r.UnitPriceOverrides = none ∧
  r.BillingCycle = none ∧ r.TrialPeriod = none ∧ r.Status = none

/-- An outcome of `Update` that sent nothing, or one request with mutable
fields only. -/
def SendsMutableOnly (plan : priceResourceModel)
    (out : UpdateResponse priceResourceModel × List UpdatePriceRequest) : Prop :=
  out.2 = [] ∨ ∃ r, out.2 = [r] ∧ MutableOnly plan r

end PriceResource

/-! ## Sample values -/

/-- A price in state: 29.00 USD a month, without overrides. -/
def PriceResource.sampleState : priceResourceModel :=
  { ID := .known "pri_01", ProductID := .known "pro_01", Description := .known "Monthly",
    Name := .null, TaxMode := .known "account_setting",
    UnitPrice := .known ⟨.known "2900", .known "USD"⟩,
    UnitPriceOverrides := .null,
    BillingCycle := .known ⟨.known 1, .known "month"⟩,
    TrialPeriod := .null,
    Quantity := .known ⟨.known 1, .known 100⟩,
    CustomData := .null, Status := .known "active",
    CreatedAt := .known "2024-01-01T00:00:00Z", UpdatedAt := .known "2024-01-01T00:00:00Z" }

/-- The price that the sample client returns. -/
def PriceResource.samplePrice : Price :=
  { ID := "pri_01", ProductID := "pro_01", Description := "Monthly plan", Name := none,
    TaxMode := "account_setting", UnitPrice := ⟨"2900", "USD"⟩, UnitPriceOverrides := [],
    BillingCycle := some ⟨"month", 1⟩, TrialPeriod := none, Quantity := ⟨1, 100⟩,
    CustomData := none, Status := "active", CreatedAt := "2024-01-01T00:00:00Z",
    UpdatedAt := "2024-02-01T00:00:00Z" }

/-- A plan for the sample price that changes the description and, against the
schema, the unit price. -/
def PriceResource.samplePlan : priceResourceModel :=
  { PriceResource.sampleState with
      Description := .known "Monthly plan",
      UnitPrice := .known ⟨.known "3900", .known "USD"⟩ }

/-- The request that `Update` sends for the sample plan. -/
def PriceResource.sampleRequest : UpdatePriceRequest :=
  { PriceID := "pri_01", Description := some ⟨"Monthly plan"⟩, Name := some ⟨none⟩,
    TaxMode := some ⟨"account_setting"⟩, Quantity := some ⟨⟨1, 100⟩⟩,
    CustomData := some ⟨none⟩ }

/-- A plan for the sample price that changes only the currency of the unit
price. -/
def PriceResource.currencyPlan : priceResourceModel :=
  { PriceResource.sampleState with UnitPrice := .known ⟨.known "2900", .known "EUR"⟩ }

/-- A plan for the sample price that changes only the country overrides. -/
def PriceResource.overridesPlan : priceResourceModel :=
  { PriceResource.sampleState with
      UnitPriceOverrides :=
        .known [⟨.known [.known "GB"], .known ⟨.known "2500", .known "GBP"⟩⟩] }

/-- A product in state. -/
def ProductResource.sampleState : productResourceModel :=
  { ID := .known "pro_01", Name := .known "Plan", Description := .null,
    TaxCategory := .known "standard", ImageURL := .null, CustomData := .null,
    Status := .known "active", CreatedAt := .known "2024-01-01T00:00:00Z",
    UpdatedAt := .known "2024-01-01T00:00:00Z" }

/-- A notification setting in state. -/
def NotificationSettingResource.sampleState : notificationSettingResourceModel :=
  { ID := .known "ntfset_01", Description := .known "Webhook", Type_ := .known "url",
    Destination := .known "https://example.com/hook", Active := .known true,
    SubscribedEvents := .known [.known "transaction.completed"],
    EndpointSecretKey := .known "secret", APIVersion := .known 1,
    IncludeSensitiveFields := .known false, TrafficSource := .known "all" }

/-- The error of a remote call on an entity that does not exist remotely. -/
def notFoundError : ApiError := ⟨true, "not found"⟩

/-! ## Values decoded from JSON -/

mutual

/-- Whether a value is built only from what a JSON document holds: null,
booleans, numbers, strings, arrays and objects with string keys.  A number is
an integer or a finite `float64`, as JSON has no text for NaN or an infinity. -/
def GoValue.JSONShaped : GoValue → Bool
  | .nil => true
  | .string _ => true
  | .bool _ => true
  | .int _ => true
  | .int64 _ => true
  | .float64 f => !f.IsInf && !f.IsNaN
  | .slice xs => jsonShapedElements xs
  | .map kvs => jsonShapedMembers kvs
  | .unsupported _ => false

def jsonShapedElements : List GoValue → Bool
  | [] => true
  | x :: xs => x.JSONShaped && jsonShapedElements xs

def jsonShapedMembers : List (String × GoValue) → Bool
  | [] => true
  | (_, v) :: rest => v.JSONShaped && jsonShapedMembers rest

end

/-- Whether every value of a custom-data map is built only from what a JSON
document holds.  A nil map is. -/
def jsonShapedData (c : CustomData) : Bool :=
  match c with
  | none => true
  | some m => m.entries.all (fun kv => kv.2.JSONShaped)

/-! ## `strconv.ParseFloat` on the special values -/

namespace strconv

/-- The function `commonPrefixLenIgnoreCase` of the Go library: the length of
the longest prefix of `s` that equals a prefix of the lower-case text `prefix`
when the letters `A` to `Z` of `s` are lowered. -/
def commonPrefixLenIgnoreCase : List Char → List Char → Nat
  | c :: s, p :: pre =>
    if (if 'A' ≤ c ∧ c ≤ 'Z' then Char.ofNat (c.toNat + 32) else c) = p then
      commonPrefixLenIgnoreCase s pre + 1
    else 0
  | _, _ => 0

/-- The value `math.NaN()`. -/
def NaN : Float64 := Float64.ofBits 0x7FF8000000000001

/-- The value `math.Inf(sign)`. -/
def Inf (negative : Bool) : Float64 := ⟨negative, Fin.ofNat 2047, 0⟩

/-- The part of `special` after the sign: an infinity spelled `inf` or
`infinity`. -/
def specialInf (negative : Bool) (nsign : Nat) (s : List Char) : Option (Float64 × Nat) :=
  let n := commonPrefixLenIgnoreCase s "infinity".data
  let n := if 3 < n ∧ n < 8 then 3 else n
  if n = 3 ∨ n = 8 then some (Inf negative, nsign + n) else none

/-- The function `special` of the Go library, which reads the texts of the
infinities and of NaN whatever the case of their letters: the value and the
number of characters read, if there is one. -/
def special (s : List Char) : Option (Float64 × Nat) :=
  match s with
  | [] => none
  | c :: rest =>
    if c = '+' ∨ c = '-' then specialInf (c = '-') 1 rest
    else if c = 'i' ∨ c = 'I' then specialInf false 0 s
    else if c = 'n' ∨ c = 'N' then
      if commonPrefixLenIgnoreCase s "nan".data = 3 then some (NaN, 3) else none
    else none

/-- The function `strconv.ParseFloat(s, 64)` of the Go library.  The special
values are read by `special`, and a text that goes on after one is a syntax
error; the reading of every other text, a decimal or hexadecimal number, is the
parameter `readNumber`.  The special texts hold ASCII letters only, so the
count of characters read stands for the count of bytes. -/
def ParseFloat (readNumber : String → Except String Float64) (s : String) :
    Except String Float64 :=
  match special s.data with
  | some (f, n) =>
    if n ≠ s.data.length then
      .error ("strconv.ParseFloat: parsing " ++ s ++ ": invalid syntax")
    else .ok f
  | none => readNumber s

end strconv

/-! ## The decision of `PriceResource.Update` -/

namespace PriceResource

/-- The plan differs from the state in one of the five fields that `Update`
compares: description, name, tax mode, quantity, custom data. -/
def MutableFieldsDiffer (plan state : priceResourceModel) : Prop :=
  plan.Description ≠ state.Description ∨ plan.Name ≠ state.Name ∨
  plan.TaxMode ≠ state.TaxMode ∨ plan.Quantity ≠ state.Quantity ∨
  TfMap.Equal plan.CustomData state.CustomData = false

/-- The plan converts into a request: its unit price is a known object, and a
known map of custom data holds known strings only. -/
def Converts (plan : priceResourceModel) : Prop :=
  plan.UnitPrice.As.2.HasError = false ∧
  ∀ elems, plan.CustomData = .known elems → (TfMap.ElementsAs elems).2.HasError = false

/-- A plan for the sample price that changes the description and holds a null
element in its custom data. -/
def nullElementPlan : priceResourceModel :=
  { sampleState with
      Description := .known "Monthly plan",
      CustomData := .known (GoMap.lit [("tier", TfString.null)]) }

end PriceResource

/-! ## The entities and the requests of the SDK -/

/-- Modelled from the spec: the SDK entity `paddle.Product`, with the fields
that the repository reads. -/
structure Product where
  ID : String
  Name : String
  Description : Option String
  TaxCategory : String
  ImageURL : Option String
  Status : String
  CreatedAt : String
  UpdatedAt : String
  CustomData : CustomData

/-- Modelled from the spec: the SDK entity `paddle.Customer`. -/
structure Customer where
  ID : String
  Name : Option String
  Email : String
  MarketingConsent : Bool
  Status : String
  Locale : String
  CreatedAt : String
  UpdatedAt : String
  CustomData : CustomData

/-- Modelled from the spec: the SDK entity `paddle.Discount`. -/
structure Discount where
  ID : String
  Status : String
  Description : String
  EnabledForCheckout : Bool
  Code : Option String
  Type_ : String
  Mode : String
  Amount : String
  CurrencyCode : Option String
  Recur : Bool
  MaximumRecurringIntervals : Option Int
  UsageLimit : Option Int
  RestrictTo : List String
  ExpiresAt : Option String
  TimesUsed : Int
  DiscountGroupID : Option String
  CreatedAt : String
  UpdatedAt : String
  CustomData : CustomData

/-- The SDK type `paddle.Event` of a subscribed event, of which the repository
reads the name. -/
structure Event where
  Name : String
  deriving DecidableEq, Repr

/-- Modelled from the spec: the SDK entity `paddle.NotificationSetting`. -/
structure NotificationSetting where
  ID : String
  Description : String
  Type_ : String
  Destination : String
  Active : Bool
  SubscribedEvents : List Event
  EndpointSecretKey : String
  APIVersion : Int
  IncludeSensitiveFields : Bool
  TrafficSource : String
  deriving DecidableEq, Repr

/-- Modelled from the spec: the SDK constant `paddle.NotificationSettingTypeURL`. -/
def NotificationSettingTypeURL : String := "url"

structure GetProductRequest where
  ProductID : String
  deriving DecidableEq, Repr

structure GetPriceRequest where
  PriceID : String
  deriving DecidableEq, Repr

structure GetDiscountRequest where
  DiscountID : String
  deriving DecidableEq, Repr

structure GetCustomerRequest where
  CustomerID : String
  deriving DecidableEq, Repr

structure GetNotificationSettingRequest where
  NotificationSettingID : String
  deriving DecidableEq, Repr

/-- Modelled from the spec: the SDK type `paddle.CreateProductRequest`, with
the fields that the repository sets.  A pointer field left nil is `none`. -/
structure CreateProductRequest where
  Name : String
  TaxCategory : String
  Description : Option String := none
  ImageURL : Option String := none
  CustomData : CustomData := none

/-- Modelled from the spec: the SDK type `paddle.CreateCustomerRequest`. -/
structure CreateCustomerRequest where
  Email : String
  Name : Option String := none
  Locale : Option String := none
  CustomData : CustomData := none

/-- Modelled from the spec: the SDK type `paddle.CreateDiscountRequest`. -/
structure CreateDiscountRequest where
  Description : String
  Type_ : String
  Amount : String
  EnabledForCheckout : Option Bool := none
  Code : Option String := none
  Mode : Option String := none
  CurrencyCode : Option String := none
  Recur : Option Bool := none
  MaximumRecurringIntervals : Option Int := none
  UsageLimit : Option Int := none
  RestrictTo : Option (List String) := none
  ExpiresAt : Option String := none
  DiscountGroupID : Option String := none
  CustomData : CustomData := none

/-- Modelled from the spec: the SDK type
`paddle.CreateNotificationSettingRequest`. -/
structure CreateNotificationSettingRequest where
  Description : String
  Destination : String
  SubscribedEvents : List String
  Type_ : String
  IncludeSensitiveFields : Option Bool := none
  TrafficSource : Option String := none
  deriving DecidableEq, Repr

/-- Modelled from the spec: the SDK type
`paddle.UpdateNotificationSettingRequest`.  The type of the destination, which
the repository never sets in an update, has a field too, so that its absence
from a request can be stated. -/
structure UpdateNotificationSettingRequest where
  NotificationSettingID : String
  Description : Option (PatchField String) := none
  Destination : Option (PatchField String) := none
  SubscribedEvents : Option (PatchField (List String)) := none
  Active : Option (PatchField Bool) := none
  IncludeSensitiveFields : Option (PatchField Bool) := none
  TrafficSource : Option (PatchField String) := none
  Type_ : Option (PatchField String) := none
  deriving DecidableEq, Repr

/-- Modelled from the spec: the SDK type `paddle.CreatePriceRequest`. -/
structure CreatePriceRequest where
  ProductID : String
  Description : String
  UnitPrice : Money
  Name : Option String := none
  TaxMode : Option String := none
  UnitPriceOverrides : List UnitPriceOverride := []
  BillingCycle : Option Duration := none
  TrialPeriod : Option Duration := none
  Quantity : Option PriceQuantity := none
  CustomData : CustomData := none

/-! ## The requests and responses of `Create` and `Read` -/

/-- The request of `Create`: the plan, as `req.Plan.Get` decodes it into the
model of the resource, and the diagnostics of that call. -/
structure CreateRequest (M : Type) where
  Plan : M
  PlanDiags : Diagnostics

/-- The response of `Create`: the diagnostics and the state, which is absent
until the operation writes it. -/
structure CreateResponse (M : Type) where
  Diagnostics : Diagnostics
  State : Option M

/-- The request of `Read`, of a resource or of a data source: the state (for a
data source the configuration), as `Get` decodes it into the model, and the
diagnostics of that call. -/
structure ReadRequest (M : Type) where
  State : M
  StateDiags : Diagnostics

/-- The response of `Read`: the diagnostics and the state, which the framework
presets to the state of the request, and which is absent for a data source and
after `RemoveResource`. -/
structure ReadResponse (M : Type) where
  Diagnostics : Diagnostics
  State : Option M

/-- The field of a model for an optional string of the API: `types.StringValue`
of the string, or `types.StringNull()` for a nil pointer. -/
def stringOrNull : Option String → TfString
  | some s => TfString.StringValue s
  | none => TfString.null

/-- The field of a model for an optional integer of the API. -/
def int64OrNull : Option Int → Tf Int
  | some i => .known i
  | none => .null

/-- The pointer that `Create` and `Update` build for an optional string:
`if !v.IsNull() { s := v.ValueString(); p = &s }`. -/
def stringPointer (v : TfString) : Option String :=
  if !v.IsNull then some v.ValueString else none

/-- The method `ElementsAs` of a list of strings into a `[]string`: the
strings of the elements, a nil slice for a null list, and an error diagnostic
for an unknown list and for an element that is null or unknown. -/
def listElementsAs : Tf (List TfString) → Option (List String) × Diagnostics
  | .null => (some [], ⟨[]⟩)
  | .known elems =>
    if elems.all (fun v => !v.IsNull && !v.IsUnknown) then
      (some (elems.map TfString.ValueString), ⟨[]⟩)
    else
      (none, ⟨[⟨.error, "Value Conversion Error",
        "Received null or unknown value, however the target type cannot handle it.", none⟩]⟩)
  | .unknown =>
    (none, ⟨[⟨.error, "Value Conversion Error",
      "Received unknown value, however the target type cannot handle unknown values.",
      none⟩]⟩)

/-! ## `internal/resources/product.go`: `Create`, `Read`, `Update` -/

namespace ProductResource

/-- The request that `Create` builds from the plan and from the custom data
read out of it (nil when the plan holds none). -/
def createRequest (data : productResourceModel) (customData : Option (GoMap String)) :
    CreateProductRequest :=
  { Name := data.Name.ValueString,
    TaxCategory := data.TaxCategory.ValueString,
    Description := stringPointer data.Description,
    ImageURL := stringPointer data.ImageURL,
    CustomData := if customData.isSome then MapToCustomData customData else none }

/-- The detail of the error of `Create`:
`"Could not create product with name '%s': %s"`. -/
def createErrorDetail (data : productResourceModel) (err : ApiError) : String :=
  "Could not create product with name '" ++ data.Name.ValueString ++ "': " ++ err.text

/-- The model that `Create` writes to state. -/
def createdState (data : productResourceModel) (product : Product) : productResourceModel :=
  { data with
      ID := TfString.StringValue product.ID,
      Status := TfString.StringValue product.Status,
      CreatedAt := TfString.StringValue product.CreatedAt,
      UpdatedAt := TfString.StringValue product.UpdatedAt }

/-- The end of `Create`: the remote call, the error or the state.  The call
`resp.State.Set`, on a model of the schema, is taken to return no diagnostics. -/
def sendCreate (CreateProduct : CreateProductRequest → Except ApiError Product)
    (data : productResourceModel) (resp : CreateResponse productResourceModel)
    (diags : Diagnostics) (createReq : CreateProductRequest) :
    CreateResponse productResourceModel × List CreateProductRequest :=
  match CreateProduct createReq with
  | .error err =>
    ({ resp with
        Diagnostics := diags.AddError "Error creating product" (createErrorDetail data err) },
      [createReq])
  | .ok product => ({ Diagnostics := diags, State := some (createdState data product) },
      [createReq])

/-- The method `ProductResource.Create`, with the client method `CreateProduct`
as a parameter.  The outcome is the response and the requests sent to the
remote API, in order. -/
def Create (CreateProduct : CreateProductRequest → Except ApiError Product)
    (req : CreateRequest productResourceModel) (resp : CreateResponse productResourceModel) :
    CreateResponse productResourceModel × List CreateProductRequest :=
  let data := req.Plan
  let diags₀ := resp.Diagnostics.AppendAll req.PlanDiags
  if diags₀.HasError then ({ resp with Diagnostics := diags₀ }, [])
  else
    match data.CustomData with
    | .known elems =>
      let diags₁ := diags₀.AppendAll (TfMap.ElementsAs elems).2
      if diags₁.HasError then ({ resp with Diagnostics := diags₁ }, [])
      else sendCreate CreateProduct data resp diags₁
        (createRequest data (TfMap.ElementsAs elems).1)
    | _ => sendCreate CreateProduct data resp diags₀ (createRequest data none)

/-- The model that `Read` builds from the state and the product returned,
before the custom data. -/
def readFields (data : productResourceModel) (product : Product) : productResourceModel :=
  { data with
      Name := TfString.StringValue product.Name,
      TaxCategory := TfString.StringValue product.TaxCategory,
      Status := TfString.StringValue product.Status,
      CreatedAt := TfString.StringValue product.CreatedAt,
      UpdatedAt := TfString.StringValue product.UpdatedAt,
      Description := stringOrNull product.Description,
      ImageURL := stringOrNull product.ImageURL }

/-- The end of `Read`, on the product returned: the custom data, whose
conversion may fail, and the state.  The calls `types.MapValue` and
`resp.State.Set`, on values of the types of the schema, are taken to return no
diagnostics. -/
def readProduct (data : productResourceModel) (resp : ReadResponse productResourceModel)
    (diags : Diagnostics) (product : Product) : ReadResponse productResourceModel :=
  match product.CustomData with
  | some customData =>
    match CustomDataToMap (some customData) with
    | (_, some err) =>
      { resp with
          Diagnostics := diags.AddError "Error processing custom data"
            ("Could not convert custom_data for product " ++ data.ID.ValueString ++ ": " ++
              err) }
    | (customDataMap, none) =>
      { Diagnostics := diags,
        State := some { readFields data product with
          CustomData := .known (customDataMap.getD GoMap.empty) } }
  | none =>
    { Diagnostics := diags,
      State := some { readFields data product with CustomData := .null } }

/-- The method `ProductResource.Read`, with the client method `GetProduct` as
a parameter. -/
def Read (GetProduct : GetProductRequest → Except ApiError Product)
    (req : ReadRequest productResourceModel) (resp : ReadResponse productResourceModel) :
    ReadResponse productResourceModel × List GetProductRequest :=
  let data := req.State
  let diags₀ := resp.Diagnostics.AppendAll req.StateDiags
  if diags₀.HasError then ({ resp with Diagnostics := diags₀ }, [])
  else
    let getReq : GetProductRequest := { ProductID := data.ID.ValueString }
    match GetProduct getReq with
    | .error err =>
      ({ resp with
          Diagnostics := diags₀.AddError "Error reading product"
            ("Could not read product ID " ++ data.ID.ValueString ++ ": " ++ err.text) },
        [getReq])
    | .ok product => (readProduct data resp diags₀ product, [getReq])

/-- The request that `Update` builds from the plan and from the custom data
read out of it (nil when the plan holds none).  A null description, image or
custom data is sent as a patch to nil. -/
def updateRequest (data : productResourceModel) (customData : Option (GoMap String)) :
    UpdateProductRequest :=
  { ProductID := data.ID.ValueString,
    Name := some (NewPatchField data.Name.ValueString),
    TaxCategory := some (NewPatchField data.TaxCategory.ValueString),
    Description :=
      if !data.Description.IsNull then some (NewPatchField (some data.Description.ValueString))
      else some (NewPatchField none),
    ImageURL :=
      if !data.ImageURL.IsNull then some (NewPatchField (some data.ImageURL.ValueString))
      else some (NewPatchField none),
    CustomData :=
      if customData.isSome then some (NewPatchField (MapToCustomData customData))
      else if data.CustomData.IsNull then some (NewPatchField none)
      else none }

/-- The end of `Update`: the remote call, the error or the state. -/
def sendUpdate (UpdateProduct : UpdateProductRequest → Except ApiError Product)
    (data : productResourceModel) (resp : UpdateResponse productResourceModel)
    (diags : Diagnostics) (updateReq : UpdateProductRequest) :
    UpdateResponse productResourceModel × List UpdateProductRequest :=
  match UpdateProduct updateReq with
  | .error err =>
    ({ resp with
        Diagnostics := diags.AddError "Error updating product"
          ("Could not update product ID " ++ data.ID.ValueString ++ " (name: " ++
            data.Name.ValueString ++ "): " ++ err.text) }, [updateReq])
  | .ok product =>
    ({ Diagnostics := diags,
       State := { data with
         Status := TfString.StringValue product.Status,
         UpdatedAt := TfString.StringValue product.UpdatedAt } }, [updateReq])

/-- The method `ProductResource.Update`, with the client method `UpdateProduct`
as a parameter.  Of the request of the framework it reads the plan only. -/
def Update (UpdateProduct : UpdateProductRequest → Except ApiError Product)
    (req : UpdateRequest productResourceModel) (resp : UpdateResponse productResourceModel) :
    UpdateResponse productResourceModel × List UpdateProductRequest :=
  let data := req.Plan
  let diags₀ := resp.Diagnostics.AppendAll req.PlanDiags
  if diags₀.HasError then ({ resp with Diagnostics := diags₀ }, [])
  else
    match data.CustomData with
    | .known elems =>
      let diags₁ := diags₀.AppendAll (TfMap.ElementsAs elems).2
      if diags₁.HasError then ({ resp with Diagnostics := diags₁ }, [])
      else sendUpdate UpdateProduct data resp diags₁
        (updateRequest data (TfMap.ElementsAs elems).1)
    | _ => sendUpdate UpdateProduct data resp diags₀ (updateRequest data none)

end ProductResource

/-! ## What a failed remote call leaves -/

/-- The outcome of an operation that fails closed: if a request that it sent
was answered with an error, the response holds an error diagnostic and the
state is the one the response held before the operation. -/
def FailsClosed {Req Ent S : Type} (client : Req → Except ApiError Ent) (sent : List Req)
    (diags : Diagnostics) (before after : S) : Prop :=
  ∀ r ∈ sent, ∀ err, client r = .error err → diags.HasError = true ∧ after = before

/-! ## `internal/resources/customer.go`: `Create`, `Read`, `Update` -/

namespace CustomerResource

/-- The request that `Create` builds from the plan and from the custom data
read out of it (nil when the plan holds none). -/
def createRequest (data : customerResourceModel) (customData : Option (GoMap String)) :
    CreateCustomerRequest :=
  { Email := data.Email.ValueString,
    Name := stringPointer data.Name,
    Locale := stringPointer data.Locale,
    CustomData := if customData.isSome then MapToCustomData customData else none }

/-- The detail of the error of `Create`:
`"Could not create customer with email '%s': %s"`. -/
def createErrorDetail (data : customerResourceModel) (err : ApiError) : String :=
  "Could not create customer with email '" ++ data.Email.ValueString ++ "': " ++ err.text

/-- The model that `Create` writes to state. -/
def createdState (data : customerResourceModel) (customer : Customer) :
    customerResourceModel :=
  { data with
      ID := TfString.StringValue customer.ID,
      MarketingConsent := .known customer.MarketingConsent,
      Status := TfString.StringValue customer.Status,
      CreatedAt := TfString.StringValue customer.CreatedAt,
      UpdatedAt := TfString.StringValue customer.UpdatedAt,
      Locale := if customer.Locale ≠ "" then TfString.StringValue customer.Locale
        else data.Locale }

/-- The end of `Create`: the remote call, the error or the state. -/
def sendCreate (CreateCustomer : CreateCustomerRequest → Except ApiError Customer)
    (data : customerResourceModel) (resp : CreateResponse customerResourceModel)
    (diags : Diagnostics) (createReq : CreateCustomerRequest) :
    CreateResponse customerResourceModel × List CreateCustomerRequest :=
  match CreateCustomer createReq with
  | .error err =>
    ({ resp with
        Diagnostics := diags.AddError "Error creating customer" (createErrorDetail data err) },
      [createReq])
  | .ok customer => ({ Diagnostics := diags, State := some (createdState data customer) },
      [createReq])

/-- The method `CustomerResource.Create`, with the client method
`CreateCustomer` as a parameter. -/
def Create (CreateCustomer : CreateCustomerRequest → Except ApiError Customer)
    (req : CreateRequest customerResourceModel) (resp : CreateResponse customerResourceModel) :
    CreateResponse customerResourceModel × List CreateCustomerRequest :=
  let data := req.Plan
  let diags₀ := resp.Diagnostics.AppendAll req.PlanDiags
  if diags₀.HasError then ({ resp with Diagnostics := diags₀ }, [])
  else
    match data.CustomData with
    | .known elems =>
      let diags₁ := diags₀.AppendAll (TfMap.ElementsAs elems).2
      if diags₁.HasError then ({ resp with Diagnostics := diags₁ }, [])
      else sendCreate CreateCustomer data resp diags₁
        (createRequest data (TfMap.ElementsAs elems).1)
    | _ => sendCreate CreateCustomer data resp diags₀ (createRequest data none)

/-- The model that `Read` builds from the state and the customer returned,
before the custom data. -/
def readFields (data : customerResourceModel) (customer : Customer) : customerResourceModel :=
  { data with
      Email := TfString.StringValue customer.Email,
      MarketingConsent := .known customer.MarketingConsent,
      Status := TfString.StringValue customer.Status,
      Locale := TfString.StringValue customer.Locale,
      CreatedAt := TfString.StringValue customer.CreatedAt,
      UpdatedAt := TfString.StringValue customer.UpdatedAt,
      Name := stringOrNull customer.Name }

/-- The end of `Read`, on the customer returned: the custom data, whose
conversion may fail, and the state. -/
def readCustomer (data : customerResourceModel) (resp : ReadResponse customerResourceModel)
    (diags : Diagnostics) (customer : Customer) : ReadResponse customerResourceModel :=
  match customer.CustomData with
  | some customData =>
    match CustomDataToMap (some customData) with
    | (_, some err) =>
      { resp with
          Diagnostics := diags.AddError "Error processing custom data"
            ("Could not convert custom_data for customer " ++ data.ID.ValueString ++ ": " ++
              err) }
    | (customDataMap, none) =>
      { Diagnostics := diags,
        State := some { readFields data customer with
          CustomData := .known (customDataMap.getD GoMap.empty) } }
  | none =>
    { Diagnostics := diags,
      State := some { readFields data customer with CustomData := .null } }

/-- The method `CustomerResource.Read`, with the client method `GetCustomer` as
a parameter. -/
def Read (GetCustomer : GetCustomerRequest → Except ApiError Customer)
    (req : ReadRequest customerResourceModel) (resp : ReadResponse customerResourceModel) :
    ReadResponse customerResourceModel × List GetCustomerRequest :=
  let data := req.State
  let diags₀ := resp.Diagnostics.AppendAll req.StateDiags
  if diags₀.HasError then ({ resp with Diagnostics := diags₀ }, [])
  else
    let getReq : GetCustomerRequest := { CustomerID := data.ID.ValueString }
    match GetCustomer getReq with
    | .error err =>
      ({ resp with
          Diagnostics := diags₀.AddError "Error reading customer"
            ("Could not read customer ID " ++ data.ID.ValueString ++ ": " ++ err.text) },
        [getReq])
    | .ok customer => (readCustomer data resp diags₀ customer, [getReq])

/-- The request that `Update` builds from the plan and from the custom data
read out of it (nil when the plan holds none).  A null name or custom data is
sent as a patch to nil; a null locale is left out. -/
def updateRequest (data : customerResourceModel) (customData : Option (GoMap String)) :
    UpdateCustomerRequest :=
  { CustomerID := data.ID.ValueString,
    Email := some (NewPatchField data.Email.ValueString),
    Name :=
      if !data.Name.IsNull then some (NewPatchField (some data.Name.ValueString))
      else some (NewPatchField none),
    Locale := if !data.Locale.IsNull then some (NewPatchField data.Locale.ValueString) else none,
    CustomData :=
      if customData.isSome then some (NewPatchField (MapToCustomData customData))
      else some (NewPatchField none) }

/-- The end of `Update`: the remote call, the error or the state. -/
def sendUpdate (UpdateCustomer : UpdateCustomerRequest → Except ApiError Customer)
    (data : customerResourceModel) (resp : UpdateResponse customerResourceModel)
    (diags : Diagnostics) (updateReq : UpdateCustomerRequest) :
    UpdateResponse customerResourceModel × List UpdateCustomerRequest :=
  match UpdateCustomer updateReq with
  | .error err =>
    ({ resp with
        Diagnostics := diags.AddError "Error updating customer"
          ("Could not update customer ID " ++ data.ID.ValueString ++ " (email: " ++
            data.Email.ValueString ++ "): " ++ err.text) }, [updateReq])
  | .ok customer =>
    ({ Diagnostics := diags,
       State := { data with
         MarketingConsent := .known customer.MarketingConsent,
         Status := TfString.StringValue customer.Status,
         UpdatedAt := TfString.StringValue customer.UpdatedAt } }, [updateReq])

/-- The method `CustomerResource.Update`, with the client method
`UpdateCustomer` as a parameter.  Of the request of the framework it reads the
plan only. -/
def Update (UpdateCustomer : UpdateCustomerRequest → Except ApiError Customer)
    (req : UpdateRequest customerResourceModel) (resp : UpdateResponse customerResourceModel) :
    UpdateResponse customerResourceModel × List UpdateCustomerRequest :=
  let data := req.Plan
  let diags₀ := resp.Diagnostics.AppendAll req.PlanDiags
  if diags₀.HasError then ({ resp with Diagnostics := diags₀ }, [])
  else
    match data.CustomData with
    | .known elems =>
      let diags₁ := diags₀.AppendAll (TfMap.ElementsAs elems).2
      if diags₁.HasError then ({ resp with Diagnostics := diags₁ }, [])
      else sendUpdate UpdateCustomer data resp diags₁
        (updateRequest data (TfMap.ElementsAs elems).1)
    | _ => sendUpdate UpdateCustomer data resp diags₀ (updateRequest data none)

end CustomerResource

/-! ## `internal/resources/discount.go`: `Create`, `Read`, `Update` -/

namespace DiscountResource

/-- The slice that `Create` and `Update` read out of `restrict_to` when the
list is known, nil otherwise. -/
def restrictTo (data : discountResourceModel) : Option (List String) :=
  match data.RestrictTo with
  | .known _ => (listElementsAs data.RestrictTo).1
  | _ => none

/-- The diagnostics after `restrict_to` was read, which happens when the list
is known. -/
def restrictToDiags (data : discountResourceModel) (diags : Diagnostics) : Diagnostics :=
  if !data.RestrictTo.IsNull && !data.RestrictTo.IsUnknown then
    diags.AppendAll (listElementsAs data.RestrictTo).2
  else diags

/-- The request that `Create` builds from the plan and from the custom data
read out of it (nil when the plan holds none). -/
def createRequest (data : discountResourceModel) (customData : Option (GoMap String)) :
    CreateDiscountRequest :=
  { Description := data.Description.ValueString,
    Type_ := data.Type_.ValueString,
    Amount := data.Amount.ValueString,
    EnabledForCheckout :=
      if !data.EnabledForCheckout.IsNull then some (data.EnabledForCheckout.Value false)
      else none,
    Code := stringPointer data.Code,
    Mode := stringPointer data.Mode,
    CurrencyCode := stringPointer data.CurrencyCode,
    Recur := if !data.Recur.IsNull then some (data.Recur.Value false) else none,
    MaximumRecurringIntervals :=
      if !data.MaximumRecurringIntervals.IsNull then
        some (data.MaximumRecurringIntervals.Value 0)
      else none,
    UsageLimit := if !data.UsageLimit.IsNull then some (data.UsageLimit.Value 0) else none,
    RestrictTo := restrictTo data,
    ExpiresAt := stringPointer data.ExpiresAt,
    CustomData := if customData.isSome then MapToCustomData customData else none,
    DiscountGroupID := stringPointer data.DiscountGroupID }

/-- The detail of the error of `Create`:
`"Could not create discount with code '%s' (type: %s): %s"`. -/
def createErrorDetail (data : discountResourceModel) (err : ApiError) : String :=
  "Could not create discount with code '" ++ data.Code.ValueString ++ "' (type: " ++
    data.Type_.ValueString ++ "): " ++ err.text

/-- The model that `Create` writes to state. -/
def createdState (data : discountResourceModel) (discount : Discount) :
    discountResourceModel :=
  { data with
      ID := TfString.StringValue discount.ID,
      Status := TfString.StringValue discount.Status,
      EnabledForCheckout := .known discount.EnabledForCheckout,
      Recur := .known discount.Recur,
      TimesUsed := .known discount.TimesUsed,
      CreatedAt := TfString.StringValue discount.CreatedAt,
      UpdatedAt := TfString.StringValue discount.UpdatedAt }

/-- The end of `Create`: the remote call, the error or the state. -/
def sendCreate (CreateDiscount : CreateDiscountRequest → Except ApiError Discount)
    (data : discountResourceModel) (resp : CreateResponse discountResourceModel)
    (diags : Diagnostics) (createReq : CreateDiscountRequest) :
    CreateResponse discountResourceModel × List CreateDiscountRequest :=
  match CreateDiscount createReq with
  | .error err =>
    ({ resp with
        Diagnostics := diags.AddError "Error creating discount" (createErrorDetail data err) },
      [createReq])
  | .ok discount => ({ Diagnostics := diags, State := some (createdState data discount) },
      [createReq])

/-- The method `DiscountResource.Create`, with the client method
`CreateDiscount` as a parameter. -/
def Create (CreateDiscount : CreateDiscountRequest → Except ApiError Discount)
    (req : CreateRequest discountResourceModel) (resp : CreateResponse discountResourceModel) :
    CreateResponse discountResourceModel × List CreateDiscountRequest :=
  let data := req.Plan
  let diags₀ := resp.Diagnostics.AppendAll req.PlanDiags
  if diags₀.HasError then ({ resp with Diagnostics := diags₀ }, [])
  else
    let diags₁ := restrictToDiags data diags₀
    if diags₁.HasError then ({ resp with Diagnostics := diags₁ }, [])
    else
      match data.CustomData with
      | .known elems =>
        let diags₂ := diags₁.AppendAll (TfMap.ElementsAs elems).2
        if diags₂.HasError then ({ resp with Diagnostics := diags₂ }, [])
        else sendCreate CreateDiscount data resp diags₂
          (createRequest data (TfMap.ElementsAs elems).1)
      | _ => sendCreate CreateDiscount data resp diags₁ (createRequest data none)

/-- The model that `Read` builds from the state and the discount returned,
before the custom data.  The call `types.ListValueFrom`, on a slice of
strings, is taken to return no diagnostics. -/
def readFields (data : discountResourceModel) (discount : Discount) : discountResourceModel :=
  { data with
      Status := TfString.StringValue discount.Status,
      Description := TfString.StringValue discount.Description,
      EnabledForCheckout := .known discount.EnabledForCheckout,
      Type_ := TfString.StringValue discount.Type_,
      Mode := TfString.StringValue discount.Mode,
      Amount := TfString.StringValue discount.Amount,
      Recur := .known discount.Recur,
      TimesUsed := .known discount.TimesUsed,
      CreatedAt := TfString.StringValue discount.CreatedAt,
      UpdatedAt := TfString.StringValue discount.UpdatedAt,
      Code := stringOrNull discount.Code,
      CurrencyCode := stringOrNull discount.CurrencyCode,
      MaximumRecurringIntervals := int64OrNull discount.MaximumRecurringIntervals,
      UsageLimit := int64OrNull discount.UsageLimit,
      RestrictTo :=
        if discount.RestrictTo.length > 0 then
          .known (discount.RestrictTo.map TfString.StringValue)
        else .null,
      ExpiresAt := stringOrNull discount.ExpiresAt }

/-- The end of `Read`, on the discount returned: the custom data, whose
conversion may fail, then the discount group, and the state. -/
def readDiscount (data : discountResourceModel) (resp : ReadResponse discountResourceModel)
    (diags : Diagnostics) (discount : Discount) : ReadResponse discountResourceModel :=
  match discount.CustomData with
  | some customData =>
    match CustomDataToMap (some customData) with
    | (_, some err) =>
      { resp with
          Diagnostics := diags.AddError "Error processing custom data"
            ("Could not convert custom_data for discount " ++ data.ID.ValueString ++ ": " ++
              err) }
    | (customDataMap, none) =>
      { Diagnostics := diags,
        State := some { readFields data discount with
          CustomData := .known (customDataMap.getD GoMap.empty),
          DiscountGroupID := stringOrNull discount.DiscountGroupID } }
  | none =>
    { Diagnostics := diags,
      State := some { readFields data discount with
        CustomData := .null,
        DiscountGroupID := stringOrNull discount.DiscountGroupID } }

/-- The method `DiscountResource.Read`, with the client method `GetDiscount` as
a parameter. -/
def Read (GetDiscount : GetDiscountRequest → Except ApiError Discount)
    (req : ReadRequest discountResourceModel) (resp : ReadResponse discountResourceModel) :
    ReadResponse discountResourceModel × List GetDiscountRequest :=
  let data := req.State
  let diags₀ := resp.Diagnostics.AppendAll req.StateDiags
  if diags₀.HasError then ({ resp with Diagnostics := diags₀ }, [])
  else
    let getReq : GetDiscountRequest := { DiscountID := data.ID.ValueString }
    match GetDiscount getReq with
    | .error err =>
      ({ resp with
          Diagnostics := diags₀.AddError "Error reading discount"
            ("Could not read discount ID " ++ data.ID.ValueString ++ ": " ++ err.text) },
        [getReq])
    | .ok discount => (readDiscount data resp diags₀ discount, [getReq])

/-- The request that `Update` builds from the plan and from the custom data
read out of it (nil when the plan holds none).  A null code, usage limit,
restriction list, expiry, custom data or discount group is sent as a patch to
nil; a null `enabled_for_checkout` or `recur` is left out. -/
def updateRequest (data : discountResourceModel) (customData : Option (GoMap String)) :
    UpdateDiscountRequest :=
  { DiscountID := data.ID.ValueString,
    Description := some (NewPatchField data.Description.ValueString),
    EnabledForCheckout :=
      if !data.EnabledForCheckout.IsNull then
        some (NewPatchField (data.EnabledForCheckout.Value false))
      else none,
    Code :=
      if !data.Code.IsNull then some (NewPatchField (some data.Code.ValueString))
      else some (NewPatchField none),
    Amount := some (NewPatchField data.Amount.ValueString),
    Type_ := some (NewPatchField data.Type_.ValueString),
    Recur := if !data.Recur.IsNull then some (NewPatchField (data.Recur.Value false)) else none,
    UsageLimit :=
      if !data.UsageLimit.IsNull then some (NewPatchField (some (data.UsageLimit.Value 0)))
      else some (NewPatchField none),
    RestrictTo :=
      if !data.RestrictTo.IsNull && !data.RestrictTo.IsUnknown then
        some (NewPatchField (restrictTo data))
      else if data.RestrictTo.IsNull then some (NewPatchField none)
      else none,
    ExpiresAt :=
      if !data.ExpiresAt.IsNull then some (NewPatchField (some data.ExpiresAt.ValueString))
      else some (NewPatchField none),
    CustomData :=
      if customData.isSome then some (NewPatchField (MapToCustomData customData))
      else some (NewPatchField none),
    DiscountGroupID :=
      if !data.DiscountGroupID.IsNull then
        some (NewPatchField (some data.DiscountGroupID.ValueString))
      else some (NewPatchField none) }

/-- The end of `Update`: the remote call, the error or the state. -/
def sendUpdate (UpdateDiscount : UpdateDiscountRequest → Except ApiError Discount)
    (data : discountResourceModel) (resp : UpdateResponse discountResourceModel)
    (diags : Diagnostics) (updateReq : UpdateDiscountRequest) :
    UpdateResponse discountResourceModel × List UpdateDiscountRequest :=
  match UpdateDiscount updateReq with
  | .error err =>
    ({ resp with
        Diagnostics := diags.AddError "Error updating discount"
          ("Could not update discount ID " ++ data.ID.ValueString ++ ": " ++ err.text) },
      [updateReq])
  | .ok discount =>
    ({ Diagnostics := diags,
       State := { data with
         Status := TfString.StringValue discount.Status,
         EnabledForCheckout := .known discount.EnabledForCheckout,
         Recur := .known discount.Recur,
         TimesUsed := .known discount.TimesUsed,
         UpdatedAt := TfString.StringValue discount.UpdatedAt } }, [updateReq])

/-- The method `DiscountResource.Update`, with the client method
`UpdateDiscount` as a parameter.  Of the request of the framework it reads the
plan only. -/
def Update (UpdateDiscount : UpdateDiscountRequest → Except ApiError Discount)
    (req : UpdateRequest discountResourceModel) (resp : UpdateResponse discountResourceModel) :
    UpdateResponse discountResourceModel × List UpdateDiscountRequest :=
  let data := req.Plan
  let diags₀ := resp.Diagnostics.AppendAll req.PlanDiags
  if diags₀.HasError then ({ resp with Diagnostics := diags₀ }, [])
  else
    let diags₁ := restrictToDiags data diags₀
    if diags₁.HasError then ({ resp with Diagnostics := diags₁ }, [])
    else
      match data.CustomData with
      | .known elems =>
        let diags₂ := diags₁.AppendAll (TfMap.ElementsAs elems).2
        if diags₂.HasError then ({ resp with Diagnostics := diags₂ }, [])
        else sendUpdate UpdateDiscount data resp diags₂
          (updateRequest data (TfMap.ElementsAs elems).1)
      | _ => sendUpdate UpdateDiscount data resp diags₁ (updateRequest data none)

end DiscountResource

/-! ## `internal/resources/notification_setting.go`: `Create`, `Read`, `Update` -/

namespace NotificationSettingResource

/-- The field `traffic_source` of the model for the value of the API: null for
the empty string. -/
def trafficSourceValue (trafficSource : String) : TfString :=
  if trafficSource ≠ "" then TfString.StringValue trafficSource else TfString.null

/-- The request that `Create` builds from the plan and from the events read
out of it. -/
def createRequest (data : notificationSettingResourceModel) (subscribedEvents : List String) :
    CreateNotificationSettingRequest :=
  { Description := data.Description.ValueString,
    Destination := data.Destination.ValueString,
    SubscribedEvents := subscribedEvents,
    Type_ :=
      if !data.Type_.IsNull && !data.Type_.IsUnknown then data.Type_.ValueString
      else NotificationSettingTypeURL,
    IncludeSensitiveFields :=
      if !data.IncludeSensitiveFields.IsNull then
        some (data.IncludeSensitiveFields.Value false)
      else none,
    TrafficSource :=
      if !data.TrafficSource.IsNull && !data.TrafficSource.IsUnknown then
        some data.TrafficSource.ValueString
      else none }

/-- The detail of the error of `Create`:
`"Could not create notification setting: %s"`. -/
def createErrorDetail (err : ApiError) : String :=
  "Could not create notification setting: " ++ err.text

/-- The model that `Create` writes to state. -/
def createdState (data : notificationSettingResourceModel)
    (notifSetting : NotificationSetting) : notificationSettingResourceModel :=
  { data with
      ID := TfString.StringValue notifSetting.ID,
      Type_ := TfString.StringValue notifSetting.Type_,
      Active := .known notifSetting.Active,
      EndpointSecretKey := TfString.StringValue notifSetting.EndpointSecretKey,
      APIVersion := .known notifSetting.APIVersion,
      IncludeSensitiveFields := .known notifSetting.IncludeSensitiveFields,
      TrafficSource := trafficSourceValue notifSetting.TrafficSource }

/-- The method `NotificationSettingResource.Create`, with the client method
`CreateNotificationSetting` as a parameter. -/
def Create
    (CreateNotificationSetting :
      CreateNotificationSettingRequest → Except ApiError NotificationSetting)
    (req : CreateRequest notificationSettingResourceModel)
    (resp : CreateResponse notificationSettingResourceModel) :
    CreateResponse notificationSettingResourceModel × List CreateNotificationSettingRequest :=
  let data := req.Plan
  let diags₀ := resp.Diagnostics.AppendAll req.PlanDiags
  if diags₀.HasError then ({ resp with Diagnostics := diags₀ }, [])
  else
    let diags₁ := diags₀.AppendAll (listElementsAs data.SubscribedEvents).2
    if diags₁.HasError then ({ resp with Diagnostics := diags₁ }, [])
    else
      let createReq :=
        createRequest data ((listElementsAs data.SubscribedEvents).1.getD [])
      match CreateNotificationSetting createReq with
      | .error err =>
        ({ resp with
            Diagnostics := diags₁.AddError "Error creating notification setting"
              (createErrorDetail err) }, [createReq])
      | .ok notifSetting =>
        ({ Diagnostics := diags₁, State := some (createdState data notifSetting) },
          [createReq])

/-- The model that `Read` builds from the state and the notification setting
returned, before the subscribed events. -/
def readFields (data : notificationSettingResourceModel)
    (notifSetting : NotificationSetting) : notificationSettingResourceModel :=
  { data with
      Description := TfString.StringValue notifSetting.Description,
      Type_ := TfString.StringValue notifSetting.Type_,
      Destination := TfString.StringValue notifSetting.Destination,
      Active := .known notifSetting.Active,
      EndpointSecretKey := TfString.StringValue notifSetting.EndpointSecretKey,
      APIVersion := .known notifSetting.APIVersion,
      IncludeSensitiveFields := .known notifSetting.IncludeSensitiveFields,
      TrafficSource := trafficSourceValue notifSetting.TrafficSource }

/-- The end of `Read`, on the notification setting returned: the events of the
state are read, merged with the events returned, and the state is written.
The calls `types.ListValueFrom` and `resp.State.Set` are taken to return no
diagnostics. -/
def readNotificationSetting (data : notificationSettingResourceModel)
    (resp : ReadResponse notificationSettingResourceModel) (diags : Diagnostics)
    (notifSetting : NotificationSetting) : ReadResponse notificationSettingResourceModel :=
  let diags₁ := diags.AppendAll (listElementsAs data.SubscribedEvents).2
  if diags₁.HasError then { resp with Diagnostics := diags₁ }
  else
    let stateEvents := (listElementsAs data.SubscribedEvents).1.getD []
    let orderedEvents :=
      readSubscribedEvents stateEvents (notifSetting.SubscribedEvents.map Event.Name)
    { Diagnostics := diags₁,
      State := some { readFields data notifSetting with
        SubscribedEvents := .known (orderedEvents.map TfString.StringValue) } }

/-- The method `NotificationSettingResource.Read`, with the client method
`GetNotificationSetting` as a parameter. -/
def Read
    (GetNotificationSetting :
      GetNotificationSettingRequest → Except ApiError NotificationSetting)
    (req : ReadRequest notificationSettingResourceModel)
    (resp : ReadResponse notificationSettingResourceModel) :
    ReadResponse notificationSettingResourceModel × List GetNotificationSettingRequest :=
  let data := req.State
  let diags₀ := resp.Diagnostics.AppendAll req.StateDiags
  if diags₀.HasError then ({ resp with Diagnostics := diags₀ }, [])
  else
    let getReq : GetNotificationSettingRequest :=
      { NotificationSettingID := data.ID.ValueString }
    match GetNotificationSetting getReq with
    | .error err =>
      ({ resp with
          Diagnostics := diags₀.AddError "Error reading notification setting"
            ("Could not read notification setting ID " ++ data.ID.ValueString ++ ": " ++
              err.text) }, [getReq])
    | .ok notifSetting => (readNotificationSetting data resp diags₀ notifSetting, [getReq])

/-- The request that `Update` builds from the plan and from the events read
out of it.  A null `active` or `include_sensitive_fields` is left out; a null
`traffic_source` is sent as the empty traffic source. -/
def updateRequest (data : notificationSettingResourceModel) (subscribedEvents : List String) :
    UpdateNotificationSettingRequest :=
  { NotificationSettingID := data.ID.ValueString,
    Description := some (NewPatchField data.Description.ValueString),
    Destination := some (NewPatchField data.Destination.ValueString),
    SubscribedEvents := some (NewPatchField subscribedEvents),
    Active :=
      if !data.Active.IsNull && !data.Active.IsUnknown then
        some (NewPatchField (data.Active.Value false))
      else none,
    IncludeSensitiveFields :=
      if !data.IncludeSensitiveFields.IsNull && !data.IncludeSensitiveFields.IsUnknown then
        some (NewPatchField (data.IncludeSensitiveFields.Value false))
      else none,
    TrafficSource :=
      if !data.TrafficSource.IsNull && !data.TrafficSource.IsUnknown then
        some (NewPatchField data.TrafficSource.ValueString)
      else if data.TrafficSource.IsNull then some (NewPatchField "")
      else none }

/-- The method `NotificationSettingResource.Update`, with the client method
`UpdateNotificationSetting` as a parameter.  Of the request of the framework
it reads the plan only. -/
def Update
    (UpdateNotificationSetting :
      UpdateNotificationSettingRequest → Except ApiError NotificationSetting)
    (req : UpdateRequest notificationSettingResourceModel)
    (resp : UpdateResponse notificationSettingResourceModel) :
    UpdateResponse notificationSettingResourceModel × List UpdateNotificationSettingRequest :=
  let data := req.Plan
  let diags₀ := resp.Diagnostics.AppendAll req.PlanDiags
  if diags₀.HasError then ({ resp with Diagnostics := diags₀ }, [])
  else
    let diags₁ := diags₀.AppendAll (listElementsAs data.SubscribedEvents).2
    if diags₁.HasError then ({ resp with Diagnostics := diags₁ }, [])
    else
      let updateReq :=
        updateRequest data ((listElementsAs data.SubscribedEvents).1.getD [])
      match UpdateNotificationSetting updateReq with
      | .error err =>
        ({ resp with
            Diagnostics := diags₁.AddError "Error updating notification setting"
              ("Could not update notification setting ID " ++ data.ID.ValueString ++ ": " ++
                err.text) }, [updateReq])
      | .ok notifSetting =>
        ({ Diagnostics := diags₁,
           State := { data with
             Type_ := TfString.StringValue notifSetting.Type_,
             Active := .known notifSetting.Active,
             APIVersion := .known notifSetting.APIVersion,
             IncludeSensitiveFields := .known notifSetting.IncludeSensitiveFields,
             TrafficSource := trafficSourceValue notifSetting.TrafficSource } }, [updateReq])

end NotificationSettingResource

/-! ## `internal/resources/price.go`: `Create`, `Read` -/

namespace PriceResource

/-- The amount of the SDK for a unit price of the model. -/
def money (unitPrice : unitPriceModel) : Money :=
  { Amount := unitPrice.Amount.ValueString,
    CurrencyCode := unitPrice.CurrencyCode.ValueString }

/-- The loop of `Create` over the country overrides of the plan: the
diagnostics, and the overrides converted so far.  It stops at the first
override whose country codes or unit price cannot be read.  The elements of
the list are objects of the model, so reading the list itself into a slice
raises no diagnostic. -/
def overridesLoop : List unitPriceOverrideModel → Diagnostics → List UnitPriceOverride →
    Diagnostics × List UnitPriceOverride
  | [], diags, paddleOverrides => (diags, paddleOverrides)
  | override :: rest, diags, paddleOverrides =>
    let diags₁ := diags.AppendAll (listElementsAs override.CountryCodes).2
    if diags₁.HasError then (diags₁, paddleOverrides)
    else
      let diags₂ := diags₁.AppendAll override.UnitPrice.As.2
      if diags₂.HasError then (diags₂, paddleOverrides)
      else
        overridesLoop rest diags₂
          (paddleOverrides ++
            [{ CountryCodes := (listElementsAs override.CountryCodes).1.getD [],
               UnitPrice := money (override.UnitPrice.As.1.getD ⟨.null, .null⟩) }])

/-- The request that `Create` builds once every part of the plan is read. -/
def createRequest (data : priceResourceModel) (paddleOverrides : List UnitPriceOverride) :
    CreatePriceRequest :=
  { ProductID := data.ProductID.ValueString,
    Description := data.Description.ValueString,
    UnitPrice := money (data.UnitPrice.As.1.getD ⟨.null, .null⟩),
    Name := stringPointer data.Name,
    TaxMode :=
      if !data.TaxMode.IsNull && !data.TaxMode.IsUnknown then some data.TaxMode.ValueString
      else none,
    UnitPriceOverrides := paddleOverrides,
    BillingCycle :=
      if !data.BillingCycle.IsNull then
        data.BillingCycle.As.1.map
          (fun billingCycle =>
            ⟨billingCycle.Interval.ValueString, billingCycle.Frequency.Value 0⟩)
      else none,
    TrialPeriod :=
      if !data.TrialPeriod.IsNull then
        data.TrialPeriod.As.1.map
          (fun trialPeriod => ⟨trialPeriod.Interval.ValueString, trialPeriod.Frequency.Value 0⟩)
      else none,
    Quantity :=
      if !data.Quantity.IsNull && !data.Quantity.IsUnknown then
        data.Quantity.As.1.map
          (fun quantity => ⟨quantity.Minimum.Value 0, quantity.Maximum.Value 0⟩)
      else none,
    CustomData :=
      match data.CustomData with
      | .known elems => MapToCustomData (TfMap.ElementsAs elems).1
      | _ => none }

/-- The part of `Create` before the remote call: the plan is read part by
part, and the first part that cannot be read ends the operation.  The result
is the diagnostics and, when every part was read, the request. -/
def buildCreateRequest (data : priceResourceModel) (diags₀ : Diagnostics) :
    Diagnostics × Option CreatePriceRequest :=
  let diags₁ := diags₀.AppendAll data.UnitPrice.As.2
  if diags₁.HasError then (diags₁, none)
  else
    let overrides :=
      match data.UnitPriceOverrides with
      | .known overrides => overridesLoop overrides diags₁ []
      | _ => (diags₁, [])
    if overrides.1.HasError then (overrides.1, none)
    else
      let diags₃ :=
        if !data.BillingCycle.IsNull then overrides.1.AppendAll data.BillingCycle.As.2
        else overrides.1
      if diags₃.HasError then (diags₃, none)
      else
        let diags₄ :=
          if !data.TrialPeriod.IsNull then diags₃.AppendAll data.TrialPeriod.As.2 else diags₃
        if diags₄.HasError then (diags₄, none)
        else
          let diags₅ :=
            if !data.Quantity.IsNull && !data.Quantity.IsUnknown then
              diags₄.AppendAll data.Quantity.As.2
            else diags₄
          if diags₅.HasError then (diags₅, none)
          else
            let diags₆ :=
              match data.CustomData with
              | .known elems => diags₅.AppendAll (TfMap.ElementsAs elems).2
              | _ => diags₅
            if diags₆.HasError then (diags₆, none)
            else (diags₆, some (createRequest data overrides.2))

/-- The detail of the error of `Create`:
`"Could not create price for product %s (description: %s): %s"`. -/
def createErrorDetail (data : priceResourceModel) (err : ApiError) : String :=
  "Could not create price for product " ++ data.ProductID.ValueString ++ " (description: " ++
    data.Description.ValueString ++ "): " ++ err.text

/-- The field `quantity` of the model for the quantity of the API: an object
when a bound is positive, null otherwise. -/
def quantityValue (quantity : PriceQuantity) : Tf quantityModel :=
  if quantity.Minimum > 0 ∨ quantity.Maximum > 0 then
    .known ⟨.known quantity.Minimum, .known quantity.Maximum⟩
  else .null

/-- The model that `Create` writes to state. -/
def createdState (data : priceResourceModel) (price : Price) : priceResourceModel :=
  { data with
      ID := TfString.StringValue price.ID,
      Status := TfString.StringValue price.Status,
      TaxMode := TfString.StringValue price.TaxMode,
      CreatedAt := TfString.StringValue price.CreatedAt,
      UpdatedAt := TfString.StringValue price.UpdatedAt,
      Quantity := quantityValue price.Quantity }

/-- The method `PriceResource.Create`, with the client method `CreatePrice` as
a parameter.  The calls `types.ObjectValue` and `resp.State.Set`, on values of
the types of the schema, are taken to return no diagnostics. -/
def Create (CreatePrice : CreatePriceRequest → Except ApiError Price)
    (req : CreateRequest priceResourceModel) (resp : CreateResponse priceResourceModel) :
    CreateResponse priceResourceModel × List CreatePriceRequest :=
  let data := req.Plan
  let diags₀ := resp.Diagnostics.AppendAll req.PlanDiags
  if diags₀.HasError then ({ resp with Diagnostics := diags₀ }, [])
  else
    match buildCreateRequest data diags₀ with
    | (diags, none) => ({ resp with Diagnostics := diags }, [])
    | (diags, some createReq) =>
      match CreatePrice createReq with
      | .error err =>
        ({ resp with
            Diagnostics := diags.AddError "Error creating price" (createErrorDetail data err) },
          [createReq])
      | .ok price =>
        ({ Diagnostics := diags, State := some (createdState data price) }, [createReq])

/-- The object of the model for a duration of the API. -/
def billingCycleValue : Option Duration → Tf billingCycleModel
  | some d => .known ⟨.known d.Frequency, TfString.StringValue d.Interval⟩
  | none => .null

/-- The object of the model for a trial period of the API. -/
def trialPeriodValue : Option Duration → Tf trialPeriodModel
  | some d => .known ⟨.known d.Frequency, TfString.StringValue d.Interval⟩
  | none => .null

/-- The list of the model for the country overrides of the API: null when
there is none. -/
def overridesValue (overrides : List UnitPriceOverride) : Tf (List unitPriceOverrideModel) :=
  if overrides.length > 0 then
    .known (overrides.map (fun override =>
      ⟨.known (override.CountryCodes.map TfString.StringValue),
        .known ⟨TfString.StringValue override.UnitPrice.Amount,
          TfString.StringValue override.UnitPrice.CurrencyCode⟩⟩))
  else .null

/-- The model that `Read` builds from the state and the price returned,
before the custom data. -/
def readFields (data : priceResourceModel) (price : Price) : priceResourceModel :=
  { data with
      ProductID := TfString.StringValue price.ProductID,
      Description := TfString.StringValue price.Description,
      Status := TfString.StringValue price.Status,
      CreatedAt := TfString.StringValue price.CreatedAt,
      UpdatedAt := TfString.StringValue price.UpdatedAt,
      Name := stringOrNull price.Name,
      TaxMode := TfString.StringValue price.TaxMode,
      UnitPrice := .known ⟨TfString.StringValue price.UnitPrice.Amount,
        TfString.StringValue price.UnitPrice.CurrencyCode⟩,
      UnitPriceOverrides := overridesValue price.UnitPriceOverrides,
      BillingCycle := billingCycleValue price.BillingCycle,
      TrialPeriod := trialPeriodValue price.TrialPeriod,
      Quantity := quantityValue price.Quantity }

/-- The end of `Read`, on the price returned: the custom data, whose
conversion may fail, and the state.  The calls `types.ObjectValue`,
`types.ListValue`, `types.MapValue` and `resp.State.Set`, on values of the
types of the schema, are taken to return no diagnostics. -/
def readPrice (data : priceResourceModel) (resp : ReadResponse priceResourceModel)
    (diags : Diagnostics) (price : Price) : ReadResponse priceResourceModel :=
  match price.CustomData with
  | some customData =>
    match CustomDataToMap (some customData) with
    | (_, some err) =>
      { resp with
          Diagnostics := diags.AddError "Error processing custom data"
            ("Could not convert custom_data for price " ++ data.ID.ValueString ++ ": " ++ err) }
    | (customDataMap, none) =>
      { Diagnostics := diags,
        State := some { readFields data price with
          CustomData := .known (customDataMap.getD GoMap.empty) } }
  | none =>
    { Diagnostics := diags,
      State := some { readFields data price with CustomData := .null } }

/-- The method `PriceResource.Read`, with the client method `GetPrice` as a
parameter. -/
def Read (GetPrice : GetPriceRequest → Except ApiError Price)
    (req : ReadRequest priceResourceModel) (resp : ReadResponse priceResourceModel) :
    ReadResponse priceResourceModel × List GetPriceRequest :=
  let data := req.State
  let diags₀ := resp.Diagnostics.AppendAll req.StateDiags
  if diags₀.HasError then ({ resp with Diagnostics := diags₀ }, [])
  else
    let getReq : GetPriceRequest := { PriceID := data.ID.ValueString }
    match GetPrice getReq with
    | .error err =>
      ({ resp with
          Diagnostics := diags₀.AddError "Error reading price"
            ("Could not read price ID " ++ data.ID.ValueString ++ ": " ++ err.text) },
        [getReq])
    | .ok price => (readPrice data resp diags₀ price, [getReq])

end PriceResource

/-! ## `internal/datasources`: the `Read` of the four data sources -/

/-- The request of the `Read` of a data source: the configuration, as
`req.Config.Get` decodes it into the model, and the diagnostics of that call. -/
structure DataSourceReadRequest (M : Type) where
  Config : M
  ConfigDiags : Diagnostics

/-- The model of the product data source, which has the fields of the model of
the product resource, with the same types and names. -/
abbrev productDataSourceModel := productResourceModel

/-- The model of the price data source, which has the fields of the model of
the price resource. -/
abbrev priceDataSourceModel := priceResourceModel

/-- The model of the discount data source, which has the fields of the model
of the discount resource. -/
abbrev discountDataSourceModel := discountResourceModel

/-- The model of the customer data source, which has the fields of the model
of the customer resource. -/
abbrev customerDataSourceModel := customerResourceModel

namespace ProductDataSource

/-- The end of `Read`, on the product returned: the fields, the custom data,
whose conversion may fail, and the state. -/
def readProduct (data : productDataSourceModel) (resp : ReadResponse productDataSourceModel)
    (diags : Diagnostics) (product : Product) : ReadResponse productDataSourceModel :=
  let data₁ : productDataSourceModel :=
    { data with
        Name := TfString.StringValue product.Name,
        TaxCategory := TfString.StringValue product.TaxCategory,
        Status := TfString.StringValue product.Status,
        CreatedAt := TfString.StringValue product.CreatedAt,
        UpdatedAt := TfString.StringValue product.UpdatedAt,
        Description := stringOrNull product.Description,
        ImageURL := stringOrNull product.ImageURL }
  match product.CustomData with
  | some customData =>
    match CustomDataToMap (some customData) with
    | (_, some err) =>
      { resp with
          Diagnostics := diags.AddError "Error processing custom data"
            ("Could not convert custom_data for product " ++ data.ID.ValueString ++ ": " ++
              err) }
    | (customDataMap, none) =>
      { Diagnostics := diags,
        State := some { data₁ with CustomData := .known (customDataMap.getD GoMap.empty) } }
  | none => { Diagnostics := diags, State := some { data₁ with CustomData := .null } }

/-- The method `ProductDataSource.Read`, with the client method `GetProduct` as
a parameter. -/
def Read (GetProduct : GetProductRequest → Except ApiError Product)
    (req : DataSourceReadRequest productDataSourceModel)
    (resp : ReadResponse productDataSourceModel) :
    ReadResponse productDataSourceModel × List GetProductRequest :=
  let data := req.Config
  let diags₀ := resp.Diagnostics.AppendAll req.ConfigDiags
  if diags₀.HasError then ({ resp with Diagnostics := diags₀ }, [])
  else
    let getReq : GetProductRequest := { ProductID := data.ID.ValueString }
    match GetProduct getReq with
    | .error err =>
      ({ resp with
          Diagnostics := diags₀.AddError "Error reading product"
            ("Could not read product ID " ++ data.ID.ValueString ++ ": " ++ err.text) },
        [getReq])
    | .ok product => (readProduct data resp diags₀ product, [getReq])

end ProductDataSource

namespace CustomerDataSource

/-- The end of `Read`, on the customer returned. -/
def readCustomer (data : customerDataSourceModel)
    (resp : ReadResponse customerDataSourceModel) (diags : Diagnostics)
    (customer : Customer) : ReadResponse customerDataSourceModel :=
  let data₁ : customerDataSourceModel :=
    { data with
        Email := TfString.StringValue customer.Email,
        MarketingConsent := .known customer.MarketingConsent,
        Status := TfString.StringValue customer.Status,
        Locale := TfString.StringValue customer.Locale,
        CreatedAt := TfString.StringValue customer.CreatedAt,
        UpdatedAt := TfString.StringValue customer.UpdatedAt,
        Name := stringOrNull customer.Name }
  match customer.CustomData with
  | some customData =>
    match CustomDataToMap (some customData) with
    | (_, some err) =>
      { resp with
          Diagnostics := diags.AddError "Error processing custom data"
            ("Could not convert custom_data for customer " ++ data.ID.ValueString ++ ": " ++
              err) }
    | (customDataMap, none) =>
      { Diagnostics := diags,
        State := some { data₁ with CustomData := .known (customDataMap.getD GoMap.empty) } }
  | none => { Diagnostics := diags, State := some { data₁ with CustomData := .null } }

/-- The method `CustomerDataSource.Read`, with the client method `GetCustomer`
as a parameter. -/
def Read (GetCustomer : GetCustomerRequest → Except ApiError Customer)
    (req : DataSourceReadRequest customerDataSourceModel)
    (resp : ReadResponse customerDataSourceModel) :
    ReadResponse customerDataSourceModel × List GetCustomerRequest :=
  let data := req.Config
  let diags₀ := resp.Diagnostics.AppendAll req.ConfigDiags
  if diags₀.HasError then ({ resp with Diagnostics := diags₀ }, [])
  else
    let getReq : GetCustomerRequest := { CustomerID := data.ID.ValueString }
    match GetCustomer getReq with
    | .error err =>
      ({ resp with
          Diagnostics := diags₀.AddError "Error reading customer"
            ("Could not read customer ID " ++ data.ID.ValueString ++ ": " ++ err.text) },
        [getReq])
    | .ok customer => (readCustomer data resp diags₀ customer, [getReq])

end CustomerDataSource

namespace DiscountDataSource

/-- The end of `Read`, on the discount returned. -/
def readDiscount (data : discountDataSourceModel)
    (resp : ReadResponse discountDataSourceModel) (diags : Diagnostics)
    (discount : Discount) : ReadResponse discountDataSourceModel :=
  let data₁ : discountDataSourceModel :=
    { data with
        Status := TfString.StringValue discount.Status,
        Description := TfString.StringValue discount.Description,
        EnabledForCheckout := .known discount.EnabledForCheckout,
        Type_ := TfString.StringValue discount.Type_,
        Mode := TfString.StringValue discount.Mode,
        Amount := TfString.StringValue discount.Amount,
        Recur := .known discount.Recur,
        TimesUsed := .known discount.TimesUsed,
        CreatedAt := TfString.StringValue discount.CreatedAt,
        UpdatedAt := TfString.StringValue discount.UpdatedAt,
        Code := stringOrNull discount.Code,
        CurrencyCode := stringOrNull discount.CurrencyCode,
        MaximumRecurringIntervals := int64OrNull discount.MaximumRecurringIntervals,
        UsageLimit := int64OrNull discount.UsageLimit,
        RestrictTo :=
          if discount.RestrictTo.length > 0 then
            .known (discount.RestrictTo.map TfString.StringValue)
          else .null,
        ExpiresAt := stringOrNull discount.ExpiresAt }
  match discount.CustomData with
  | some customData =>
    match CustomDataToMap (some customData) with
    | (_, some err) =>
      { resp with
          Diagnostics := diags.AddError "Error processing custom data"
            ("Could not convert custom_data for discount " ++ data.ID.ValueString ++ ": " ++
              err) }
    | (customDataMap, none) =>
      { Diagnostics := diags,
        State := some { data₁ with
          CustomData := .known (customDataMap.getD GoMap.empty),
          DiscountGroupID := stringOrNull discount.DiscountGroupID } }
  | none =>
    { Diagnostics := diags,
      State := some { data₁ with
        CustomData := .null,
        DiscountGroupID := stringOrNull discount.DiscountGroupID } }

/-- The method `DiscountDataSource.Read`, with the client method `GetDiscount`
as a parameter. -/
def Read (GetDiscount : GetDiscountRequest → Except ApiError Discount)
    (req : DataSourceReadRequest discountDataSourceModel)
    (resp : ReadResponse discountDataSourceModel) :
    ReadResponse discountDataSourceModel × List GetDiscountRequest :=
  let data := req.Config
  let diags₀ := resp.Diagnostics.AppendAll req.ConfigDiags
  if diags₀.HasError then ({ resp with Diagnostics := diags₀ }, [])
  else
    let getReq : GetDiscountRequest := { DiscountID := data.ID.ValueString }
    match GetDiscount getReq with
    | .error err =>
      ({ resp with
          Diagnostics := diags₀.AddError "Error reading discount"
            ("Could not read discount ID " ++ data.ID.ValueString ++ ": " ++ err.text) },
        [getReq])
    | .ok discount => (readDiscount data resp diags₀ discount, [getReq])

end DiscountDataSource

namespace PriceDataSource

/-- The end of `Read`, on the price returned. -/
def readPrice (data : priceDataSourceModel) (resp : ReadResponse priceDataSourceModel)
    (diags : Diagnostics) (price : Price) : ReadResponse priceDataSourceModel :=
  let data₁ : priceDataSourceModel :=
    { data with
        ProductID := TfString.StringValue price.ProductID,
        Description := TfString.StringValue price.Description,
        Status := TfString.StringValue price.Status,
        CreatedAt := TfString.StringValue price.CreatedAt,
        UpdatedAt := TfString.StringValue price.UpdatedAt,
        Name := stringOrNull price.Name,
        TaxMode := TfString.StringValue price.TaxMode,
        UnitPrice := .known ⟨TfString.StringValue price.UnitPrice.Amount,
          TfString.StringValue price.UnitPrice.CurrencyCode⟩,
        UnitPriceOverrides := PriceResource.overridesValue price.UnitPriceOverrides,
        Quantity := PriceResource.quantityValue price.Quantity,
        BillingCycle := PriceResource.billingCycleValue price.BillingCycle,
        TrialPeriod := PriceResource.trialPeriodValue price.TrialPeriod }
  match price.CustomData with
  | some customData =>
    match CustomDataToMap (some customData) with
    | (_, some err) =>
      { resp with
          Diagnostics := diags.AddError "Error processing custom data"
            ("Could not convert custom_data for price " ++ data.ID.ValueString ++ ": " ++ err) }
    | (customDataMap, none) =>
      { Diagnostics := diags,
        State := some { data₁ with CustomData := .known (customDataMap.getD GoMap.empty) } }
  | none => { Diagnostics := diags, State := some { data₁ with CustomData := .null } }

/-- The method `PriceDataSource.Read`, with the client method `GetPrice` as a
parameter. -/
def Read (GetPrice : GetPriceRequest → Except ApiError Price)
    (req : DataSourceReadRequest priceDataSourceModel)
    (resp : ReadResponse priceDataSourceModel) :
    ReadResponse priceDataSourceModel × List GetPriceRequest :=
  let data := req.Config
  let diags₀ := resp.Diagnostics.AppendAll req.ConfigDiags
  if diags₀.HasError then ({ resp with Diagnostics := diags₀ }, [])
  else
    let getReq : GetPriceRequest := { PriceID := data.ID.ValueString }
    match GetPrice getReq with
    | .error err =>
      ({ resp with
          Diagnostics := diags₀.AddError "Error reading price"
            ("Could not read price ID " ++ data.ID.ValueString ++ ": " ++ err.text) },
        [getReq])
    | .ok price => (readPrice data resp diags₀ price, [getReq])

end PriceDataSource

/-! ## More sample values -/

/-- A plan for a new customer: an email and a name, no locale, no custom
data. -/
def CustomerResource.samplePlan : customerResourceModel :=
  { ID := .unknown, Name := .known "Ada", Email := .known "ada@example.com",
    MarketingConsent := .unknown, Status := .unknown, CustomData := .null, Locale := .null,
    CreatedAt := .unknown, UpdatedAt := .unknown }

/-- A plan for a new notification setting. -/
def NotificationSettingResource.samplePlan : notificationSettingResourceModel :=
  { ID := .unknown, Description := .known "Webhook", Type_ := .known "url",
    Destination := .known "https://example.com/hook", Active := .known true,
    SubscribedEvents := .known [.known "transaction.completed"],
    EndpointSecretKey := .unknown, APIVersion := .unknown,
    IncludeSensitiveFields := .known false, TrafficSource := .null }

/-- An error of a remote call that is not about a missing entity. -/
def timeoutError : ApiError := ⟨false, "request timed out"⟩

/-- A plan for the sample product whose custom data holds a null element. -/
def ProductResource.nullElementPlan : productResourceModel :=
  { ProductResource.sampleState with
      CustomData := .known (GoMap.lit [("tier", TfString.null)]) }

/-! ## What `Read` leaves when the remote read fails -/

/-- The outcome of a `Read` whose remote call failed: the state is the one
the response held, the response holds an error and, when reading the recorded
state raised no error, the outcome is the response with one error diagnostic
added, of the given summary and detail, after the one request was sent. -/
def ReadFailure {Req M : Type} (out : ReadResponse M × List Req) (resp : ReadResponse M)
    (diags₀ : Diagnostics) (getReq : Req) (summary detail : String) : Prop :=
  out.1.State = resp.State ∧ out.1.Diagnostics.HasError = true ∧
  (diags₀.HasError = false →
    out = ({ resp with Diagnostics := diags₀.AddError summary detail }, [getReq]))

/-- The outcome of a `Create` that reports a failed remote call with its
cause and with fields of the plan: if a request that it sent was answered with
an error, the diagnostics hold an error whose detail contains the text of that
error and each of the given fields. -/
def ReportsCause {Req Ent : Type} (client : Req → Except ApiError Ent) (sent : List Req)
    (diags : Diagnostics) (fields : List String) : Prop :=
  ∀ r ∈ sent, ∀ err, client r = .error err →
    ∃ d ∈ diags.items, d.severity = Severity.error ∧ err.text.data <:+: d.detail.data ∧
      ∀ f ∈ fields, f.data <:+: d.detail.data

/-- A product update request that clears what the plan leaves null:
description, image and custom data are sent as patches to nil. -/
def ProductResource.ClearsAbsent (plan : productResourceModel) (r : UpdateProductRequest) :
    Prop :=
  (plan.Description.IsNull = true → r.Description = some (NewPatchField none)) ∧
  (plan.ImageURL.IsNull = true → r.ImageURL = some (NewPatchField none)) ∧
  (plan.CustomData.IsNull = true → r.CustomData = some (NewPatchField none))

/-- A price update request for what the plan leaves null: name and custom data
are sent as patches to nil, the tax mode as the account setting, and the
quantity is left out. -/
def PriceResource.ClearsAbsent (plan : priceResourceModel) (r : UpdatePriceRequest) : Prop :=
  (plan.Name.IsNull = true → r.Name = some (NewPatchField none)) ∧
  (plan.CustomData.IsNull = true → r.CustomData = some (NewPatchField none)) ∧
  (plan.TaxMode.IsNull = true → r.TaxMode = some (NewPatchField TaxModeAccountSetting)) ∧
  (plan.Quantity.IsNull = true → r.Quantity = none)

/-- A discount update request for what the plan leaves null: code, usage
limit, restriction list, expiry, custom data and discount group are sent as
patches to nil; `enabled_for_checkout` and `recur` are left out. -/
def DiscountResource.ClearsAbsent (plan : discountResourceModel) (r : UpdateDiscountRequest) :
    Prop :=
  (plan.Code.IsNull = true → r.Code = some (NewPatchField none)) ∧
  (plan.UsageLimit.IsNull = true → r.UsageLimit = some (NewPatchField none)) ∧
  (plan.RestrictTo.IsNull = true → r.RestrictTo = some (NewPatchField none)) ∧
  (plan.ExpiresAt.IsNull = true → r.ExpiresAt = some (NewPatchField none)) ∧
  (plan.CustomData.IsNull = true → r.CustomData = some (NewPatchField none)) ∧
  (plan.DiscountGroupID.IsNull = true → r.DiscountGroupID = some (NewPatchField none)) ∧
  (plan.EnabledForCheckout.IsNull = true → r.EnabledForCheckout = none) ∧
  (plan.Recur.IsNull = true → r.Recur = none)

/-- A customer update request for what the plan leaves null: name and custom
data are sent as patches to nil; the locale is left out. -/
def CustomerResource.ClearsAbsent (plan : customerResourceModel) (r : UpdateCustomerRequest) :
    Prop :=
  (plan.Name.IsNull = true → r.Name = some (NewPatchField none)) ∧
  (plan.CustomData.IsNull = true → r.CustomData = some (NewPatchField none)) ∧
  (plan.Locale.IsNull = true → r.Locale = none)

/-- A notification setting update request for what the plan leaves null:
`active` and `include_sensitive_fields` are left out, and the traffic source
is sent as the empty traffic source. -/
def NotificationSettingResource.ClearsAbsent (plan : notificationSettingResourceModel)
    (r : UpdateNotificationSettingRequest) : Prop :=
  (plan.Active.IsNull = true → r.Active = none) ∧
  (plan.IncludeSensitiveFields.IsNull = true → r.IncludeSensitiveFields = none) ∧
  (plan.TrafficSource.IsNull = true → r.TrafficSource = some (NewPatchField ""))

/-- A plan for the sample customer that changes the name and leaves the locale
null. -/
def CustomerResource.localePlan : customerResourceModel :=
  { ID := .known "ctm_01", Name := .known "Ada L.", Email := .known "ada@example.com",
    MarketingConsent := .known false, Status := .known "active", CustomData := .null,
    Locale := .null, CreatedAt := .known "2024-01-01T00:00:00Z", UpdatedAt := .unknown }

/-- The customer that the sample client returns. -/
def CustomerResource.sampleCustomer : Customer :=
  { ID := "ctm_01", Name := some "Ada L.", Email := "ada@example.com",
    MarketingConsent := false, Status := "active", Locale := "en",
    CreatedAt := "2024-01-01T00:00:00Z", UpdatedAt := "2024-02-01T00:00:00Z",
    CustomData := none }

/-- An outcome of `PriceResource.Update` in which every request sent treats
the null fields of the plan as `ClearsAbsent` says. -/
def PriceResource.SendsClearing (plan : priceResourceModel)
    (out : UpdateResponse priceResourceModel × List UpdatePriceRequest) : Prop :=
  ∀ r ∈ out.2, PriceResource.ClearsAbsent plan r

/-! # Theorems -/

/-! ## Theorems: the subscribed-event reconciliation -/

namespace NotificationSettingResource

theorem get?_foldl_set_true (l : List String) (m : GoMap Bool) (e : String) :
    (l.foldl (fun m event => m.set event true) m).get? e =
      if e ∈ l then some true else m.get? e := by
  induction l generalizing m with
  | nil => simp
  | cons a rest ih =>
    rw [List.foldl_cons, ih, GoMap.get?_set]
    by_cases h1 : e ∈ rest
    · simp [h1]
    · by_cases h2 : a = e
      · subst h2; simp
      · have h3 : ¬ e = a := fun h => h2 h.symm
        simp [h1, h2, h3]

theorem apiEventsMap_getD (apiEvents : List String) (e : String) :
    (apiEventsMap apiEvents).getD e false = decide (e ∈ apiEvents) := by
  unfold apiEventsMap GoMap.getD
  rw [get?_foldl_set_true]
  by_cases h : e ∈ apiEvents <;> simp [h, GoMap.get?_empty]

theorem foldl_keep (p : String → Bool) (l acc : List String) :
    l.foldl (fun orderedEvents event => if p event then orderedEvents ++ [event] else orderedEvents)
      acc = acc ++ l.filter p := by
  induction l generalizing acc with
  | nil => simp
  | cons a rest ih =>
    rw [List.foldl_cons, ih]
    by_cases h : p a <;> simp [h, List.filter_cons]

theorem found_eq (event : String) (stateEvents : List String) :
    found event stateEvents = decide (event ∈ stateEvents) := by
  induction stateEvents with
  | nil => simp [found]
  | cons a rest ih =>
    by_cases h : event = a <;> simp [found, h, ih]

theorem readSubscribedEvents_eq (stateEvents apiEvents : List String) :
    readSubscribedEvents stateEvents apiEvents = mergeReference stateEvents apiEvents := by
  unfold readSubscribedEvents addNewEvents keepStateEvents mergeReference
  simp only []
  rw [foldl_keep (fun e => (apiEventsMap apiEvents).getD e false),
    foldl_keep (fun e => !found e stateEvents), List.nil_append]
  congr 1
  · apply List.filter_congr
    intro x _
    exact apiEventsMap_getD apiEvents x
  · apply List.filter_congr
    intro x _
    simp [found_eq]

/-- C1: the subscribed-event merge of `NotificationSettingResource.Read` equals
the reference definition for every recorded list and every remote list: the
recorded events that the remote list holds, in recorded order, followed by the
remote events that the recorded list lacks, in remote order.  The recorded list
`[A,B,C]` and the remote list `[D,C,B]` give `[B,C,D]`. -/
theorem read_merge_refines_reference :
    (∀ old remote : List String,
      readSubscribedEvents old remote =
        old.filter (fun e => decide (e ∈ remote)) ++
          remote.filter (fun e => decide (e ∉ old))) ∧
    readSubscribedEvents ["A", "B", "C"] ["D", "C", "B"] = ["B", "C", "D"] := by
  refine ⟨fun old remote => readSubscribedEvents_eq old remote, ?_⟩
  decide

/-- C2: when the recorded list and the remote list hold the same events (each
element of one occurs in the other), in any order and with any repetition, the
merge returns the recorded list unchanged. -/
theorem read_merge_same_events (old remote : List String)
    (h₁ : ∀ e, e ∈ old → e ∈ remote) (h₂ : ∀ e, e ∈ remote → e ∈ old) :
    readSubscribedEvents old remote = old := by
  rw [readSubscribedEvents_eq, mergeReference]
  have e₁ : old.filter (fun e => decide (e ∈ remote)) = old := by
    rw [List.filter_eq_self]
    intro a ha
    simpa using h₁ a ha
  have e₂ : remote.filter (fun e => decide (e ∉ old)) = [] := by
    rw [List.filter_eq_nil_iff]
    intro a ha
    simpa using h₂ a ha
  rw [e₁, e₂, List.append_nil]

/-- Witness of C2: the recorded order `[A,B,C]` survives the remote order `[C,A,B]`. -/
theorem read_merge_same_events_witness :
    readSubscribedEvents ["A", "B", "C"] ["C", "A", "B"] = ["A", "B", "C"] :=
  read_merge_same_events ["A", "B", "C"] ["C", "A", "B"] (by decide) (by decide)

end NotificationSettingResource

/-! ## Theorems: the validators -/

theorem get?_foldl_lit_true (ks : List String) (m : GoMap Bool) (s : String) :
    ((ks.map (fun k => (k, true))).foldl (fun m kv => m.set kv.1 kv.2) m).get? s =
      if s ∈ ks then some true else m.get? s := by
  induction ks generalizing m with
  | nil => simp
  | cons a rest ih =>
    rw [List.map_cons, List.foldl_cons, ih, GoMap.get?_set]
    by_cases h1 : s ∈ rest
    · simp [h1]
    · by_cases h2 : a = s
      · subst h2; simp
      · have h3 : ¬ s = a := fun h => h2 h.symm
        simp [h1, h2, h3]

theorem getD_lit_true (ks : List String) (s : String) :
    (GoMap.lit (ks.map (fun k => (k, true)))).getD s false = decide (s ∈ ks) := by
  unfold GoMap.lit GoMap.getD
  rw [get?_foldl_lit_true]
  by_cases h : s ∈ ks <;> simp [h, GoMap.get?_empty]

theorem hasError_addAttributeError (diags : Diagnostics) (p : Path)
    (summary detail : String) :
    (diags.AddAttributeError p summary detail).HasError = true := by
  unfold Diagnostics.AddAttributeError Diagnostics.Append
  split
  · rename_i h
    simp only [Diagnostics.HasError, List.any_eq_true]
    exact ⟨⟨Severity.error, summary, detail, some p⟩, by simpa using h, by simp⟩
  · simp [Diagnostics.HasError]

/-- C9: on a known value, each enumeration validator leaves the response
free of errors exactly when the response held none before and the value is,
letter for letter, one of its fixed set: eight tax categories, three discount
types, three tax modes, four intervals.  So every allowed value passes; the
empty string and a value in another letter case fail. -/
theorem enum_validators_accept_iff (p : Path) (s : String) (resp : StringResponse) :
    ((TaxCategoryValidator.ValidateString ⟨p, .known s⟩ resp).Diagnostics.HasError = false ↔
      resp.Diagnostics.HasError = false ∧
      s ∈ ["standard", "digital-goods", "ebooks", "implementation-services",
        "professional-services", "saas", "software-programming-services",
        "training-services"]) ∧
    ((DiscountTypeValidator.ValidateString ⟨p, .known s⟩ resp).Diagnostics.HasError = false ↔
      resp.Diagnostics.HasError = false ∧ s ∈ ["percentage", "flat", "flat_per_seat"]) ∧
    ((TaxModeValidator.ValidateString ⟨p, .known s⟩ resp).Diagnostics.HasError = false ↔
      resp.Diagnostics.HasError = false ∧ s ∈ ["account_setting", "internal", "external"]) ∧
    ((IntervalValidator.ValidateString ⟨p, .known s⟩ resp).Diagnostics.HasError = false ↔
      resp.Diagnostics.HasError = false ∧ s ∈ ["day", "week", "month", "year"]) ∧
    (TaxCategoryValidator.ValidateString ⟨p, .known ""⟩ resp).Diagnostics.HasError = true ∧
    (DiscountTypeValidator.ValidateString ⟨p, .known ""⟩ resp).Diagnostics.HasError = true ∧
    (TaxModeValidator.ValidateString ⟨p, .known ""⟩ resp).Diagnostics.HasError = true ∧
    (IntervalValidator.ValidateString ⟨p, .known ""⟩ resp).Diagnostics.HasError = true ∧
    (TaxCategoryValidator.ValidateString ⟨p, .known "Standard"⟩ resp).Diagnostics.HasError
      = true := by
  have tax : ∀ v : String,
      (TaxCategoryValidator.ValidateString ⟨p, .known v⟩ resp).Diagnostics.HasError =
        (resp.Diagnostics.HasError ||
          !decide (v ∈ ["standard", "digital-goods", "ebooks", "implementation-services",
            "professional-services", "saas", "software-programming-services",
            "training-services"])) := by
    intro v
    have h := getD_lit_true ["standard", "digital-goods", "ebooks", "implementation-services",
      "professional-services", "saas", "software-programming-services", "training-services"] v
    simp only [List.map] at h
    simp only [TaxCategoryValidator.ValidateString, TaxCategoryValidator.validCategories,
      TfString.IsNull, TfString.IsUnknown, TfString.ValueString, h]
    by_cases hv : v ∈ ["standard", "digital-goods", "ebooks", "implementation-services",
      "professional-services", "saas", "software-programming-services", "training-services"]
    · simp [hv]
    · simp [hv, hasError_addAttributeError]
  have disc : ∀ v : String,
      (DiscountTypeValidator.ValidateString ⟨p, .known v⟩ resp).Diagnostics.HasError =
        (resp.Diagnostics.HasError ||
          !decide (v ∈ ["percentage", "flat", "flat_per_seat"])) := by
    intro v
    have h := getD_lit_true ["percentage", "flat", "flat_per_seat"] v
    simp only [List.map] at h
    simp only [DiscountTypeValidator.ValidateString, DiscountTypeValidator.validTypes,
      TfString.IsNull, TfString.IsUnknown, TfString.ValueString, h]
    by_cases hv : v ∈ ["percentage", "flat", "flat_per_seat"]
    · simp [hv]
    · simp [hv, hasError_addAttributeError]
  have mode : ∀ v : String,
      (TaxModeValidator.ValidateString ⟨p, .known v⟩ resp).Diagnostics.HasError =
        (resp.Diagnostics.HasError ||
          !decide (v ∈ ["account_setting", "internal", "external"])) := by
    intro v
    have h := getD_lit_true ["account_setting", "internal", "external"] v
    simp only [List.map] at h
    simp only [TaxModeValidator.ValidateString, TaxModeValidator.validModes,
      TfString.IsNull, TfString.IsUnknown, TfString.ValueString, h]
    by_cases hv : v ∈ ["account_setting", "internal", "external"]
    · simp [hv]
    · simp [hv, hasError_addAttributeError]
  have intv : ∀ v : String,
      (IntervalValidator.ValidateString ⟨p, .known v⟩ resp).Diagnostics.HasError =
        (resp.Diagnostics.HasError ||
          !decide (v ∈ ["day", "week", "month", "year"])) := by
    intro v
    have h := getD_lit_true ["day", "week", "month", "year"] v
    simp only [List.map] at h
    simp only [IntervalValidator.ValidateString, IntervalValidator.validIntervals,
      TfString.IsNull, TfString.IsUnknown, TfString.ValueString, h]
    by_cases hv : v ∈ ["day", "week", "month", "year"]
    · simp [hv]
    · simp [hv, hasError_addAttributeError]
  have bad : ∀ (b : Bool), (resp.Diagnostics.HasError || !b) = true ↔
      resp.Diagnostics.HasError = true ∨ b = false := by
    intro b; cases b <;> simp
  refine ⟨?_, ?_, ?_, ?_, ?_, ?_, ?_, ?_, ?_⟩
  · rw [tax, Bool.or_eq_false_iff, Bool.not_eq_false', decide_eq_true_eq]
  · rw [disc, Bool.or_eq_false_iff, Bool.not_eq_false', decide_eq_true_eq]
  · rw [mode, Bool.or_eq_false_iff, Bool.not_eq_false', decide_eq_true_eq]
  · rw [intv, Bool.or_eq_false_iff, Bool.not_eq_false', decide_eq_true_eq]
  · rw [tax, bad]; exact Or.inr (by decide)
  · rw [disc, bad]; exact Or.inr (by decide)
  · rw [mode, bad]; exact Or.inr (by decide)
  · rw [intv, bad]; exact Or.inr (by decide)
  · rw [tax, bad]; exact Or.inr (by decide)

theorem currency_step_not_start (s : List Char) :
    CurrencyCodeValidator.pattern.step (false, s) = [] := by
  simp [CurrencyCodeValidator.pattern, Regexp.step]

theorem currency_matchFrom_false (s : List Char) :
    Regexp.matchFrom CurrencyCodeValidator.pattern false s = false := by
  induction s with
  | nil => simp [Regexp.matchFrom, currency_step_not_start]
  | cons c rest ih => simp [Regexp.matchFrom, currency_step_not_start, ih]

theorem currency_matchFrom_start (s : List Char) :
    Regexp.matchFrom CurrencyCodeValidator.pattern true s =
      !(CurrencyCodeValidator.pattern.step (true, s)).isEmpty := by
  cases s <;> simp [Regexp.matchFrom, currency_matchFrom_false]

theorem currency_matchFrom_true (s : List Char) :
    Regexp.matchFrom CurrencyCodeValidator.pattern true s = true ↔
      s.length = 3 ∧ ∀ c ∈ s, 'A' ≤ c ∧ c ≤ 'Z' := by
  rw [currency_matchFrom_start]
  match s with
  | [] => simp [CurrencyCodeValidator.pattern, Regexp.step, Regexp.iter]
  | [a] =>
    by_cases ha : 'A' ≤ a ∧ a ≤ 'Z' <;>
      simp [CurrencyCodeValidator.pattern, Regexp.step, Regexp.iter, ha]
  | [a, b] =>
    by_cases ha : 'A' ≤ a ∧ a ≤ 'Z' <;> by_cases hb : 'A' ≤ b ∧ b ≤ 'Z' <;>
      simp [CurrencyCodeValidator.pattern, Regexp.step, Regexp.iter, ha, hb]
  | [a, b, c] =>
    by_cases ha : 'A' ≤ a ∧ a ≤ 'Z' <;> by_cases hb : 'A' ≤ b ∧ b ≤ 'Z' <;>
      by_cases hc : 'A' ≤ c ∧ c ≤ 'Z' <;>
      simp [CurrencyCodeValidator.pattern, Regexp.step, Regexp.iter, ha, hb, hc]
  | a :: b :: c :: d :: rest =>
    by_cases ha : 'A' ≤ a ∧ a ≤ 'Z' <;> by_cases hb : 'A' ≤ b ∧ b ≤ 'Z' <;>
      by_cases hc : 'A' ≤ c ∧ c ≤ 'Z' <;>
      simp [CurrencyCodeValidator.pattern, Regexp.step, Regexp.iter, ha, hb, hc]

/-- C10: on a known value, `CurrencyCodeValidator` leaves the response free of
errors exactly when the response held none before and the value has three
characters, each an upper-case ASCII letter.  `USD` passes; `usd`, `US`,
`USDD`, `US1`, the empty string and `USD` followed by a newline are rejected. -/
theorem currency_validator_accept_iff (p : Path) (s : String) (resp : StringResponse) :
    ((CurrencyCodeValidator.ValidateString ⟨p, .known s⟩ resp).Diagnostics.HasError = false ↔
      resp.Diagnostics.HasError = false ∧
      s.length = 3 ∧ ∀ c ∈ s.data, 'A' ≤ c ∧ c ≤ 'Z') ∧
    (CurrencyCodeValidator.ValidateString ⟨p, .known "USD"⟩ ⟨⟨[]⟩⟩).Diagnostics.HasError
      = false ∧
    (∀ bad ∈ ["usd", "US", "USDD", "US1", "", "USD\n"],
      (CurrencyCodeValidator.ValidateString ⟨p, .known bad⟩ resp).Diagnostics.HasError
        = true) := by
  have key : ∀ (v : String) (r : StringResponse),
      (CurrencyCodeValidator.ValidateString ⟨p, .known v⟩ r).Diagnostics.HasError =
        (r.Diagnostics.HasError || !Regexp.MatchString CurrencyCodeValidator.pattern v) := by
    intro v r
    simp only [CurrencyCodeValidator.ValidateString, TfString.IsNull, TfString.IsUnknown,
      TfString.ValueString]
    cases h : Regexp.MatchString CurrencyCodeValidator.pattern v
    · simp [hasError_addAttributeError]
    · simp
  refine ⟨?_, ?_, ?_⟩
  · rw [key, Bool.or_eq_false_iff, Bool.not_eq_false', Regexp.MatchString,
      currency_matchFrom_true]
    rfl
  · rw [key]; decide
  · intro bad hbad
    rw [key]
    simp only [List.mem_cons, List.mem_singleton, List.not_mem_nil, or_false] at hbad
    have e : Regexp.MatchString CurrencyCodeValidator.pattern bad = false := by
      rcases hbad with h | h | h | h | h | h <;> subst h <;> decide
    rw [e]; simp

/-! ## Theorems: the custom-data codec -/

theorem setEntries_of_not_mem {α : Type} (k : String) (v : α) (l : List (String × α))
    (h : k ∉ l.map Prod.fst) : setEntries k v l = l ++ [(k, v)] := by
  induction l with
  | nil => rfl
  | cons p rest ih =>
    obtain ⟨k', v'⟩ := p
    simp only [List.map_cons, List.mem_cons, not_or] at h
    have h' : ¬ k' = k := fun e => h.1 e.symm
    simp [setEntries, h', ih h.2]

theorem entries_foldl_set {α β : Type} (f : String × α → β) (l : List (String × α))
    (acc : GoMap β) (h : (acc.entries.map Prod.fst ++ l.map Prod.fst).Nodup) :
    (l.foldl (fun a kv => a.set kv.1 (f kv)) acc).entries =
      acc.entries ++ l.map (fun kv => (kv.1, f kv)) := by
  induction l generalizing acc with
  | nil => simp
  | cons p rest ih =>
    have hp : p.1 ∉ acc.entries.map Prod.fst := by
      intro hmem
      rw [List.nodup_append] at h
      exact h.2.2 hmem (by simp)
    have e : (acc.set p.1 (f p)).entries = acc.entries ++ [(p.1, f p)] :=
      setEntries_of_not_mem p.1 (f p) acc.entries hp
    rw [List.foldl_cons, ih]
    · rw [e]; simp
    · rw [e]
      simpa using h

theorem entries_foldl_set_empty {α β : Type} (f : String × α → β) (m : GoMap α) :
    (m.entries.foldl (fun a kv => a.set kv.1 (f kv)) GoMap.empty).entries =
      m.entries.map (fun kv => (kv.1, f kv)) := by
  rw [entries_foldl_set]
  · simp [GoMap.empty]
  · simpa [GoMap.empty] using m.nodup

theorem GoMap.ext_entries {α : Type} {a b : GoMap α} (h : a.entries = b.entries) : a = b := by
  cases a; cases b; cases h; rfl

theorem lookupEntries_map {α β : Type} (f : α → β) (l : List (String × α)) (k : String) :
    lookupEntries k (l.map (fun kv => (kv.1, f kv.2))) = (lookupEntries k l).map f := by
  induction l with
  | nil => rfl
  | cons p rest ih =>
    obtain ⟨k', v'⟩ := p
    by_cases h : k' = k <;> simp [lookupEntries, h, ih]

theorem lookupEntries_mem {α : Type} (l : List (String × α)) (k : String) (v : α)
    (h : lookupEntries k l = some v) : (k, v) ∈ l := by
  induction l with
  | nil => simp [lookupEntries] at h
  | cons p rest ih =>
    obtain ⟨k', v'⟩ := p
    by_cases hk : k' = k
    · subst hk
      simp [lookupEntries] at h
      simp [h]
    · simp only [lookupEntries, hk, if_false] at h
      exact List.mem_cons_of_mem _ (ih h)

theorem customDataLoop_ok (l : List (String × GoValue)) (acc : GoMap AttrValue)
    (h : ∀ kv ∈ l, strValue kv.2 = .ok (storedString kv.2)) :
    customDataLoop l acc =
      (some (l.foldl (fun a kv => a.set kv.1 (TfString.known (storedString kv.2))) acc), none) := by
  induction l generalizing acc with
  | nil => rfl
  | cons p rest ih =>
    obtain ⟨k, v⟩ := p
    have hv := h (k, v) (by simp)
    simp only at hv
    rw [customDataLoop, hv]
    simp only [List.foldl_cons, TfString.StringValue]
    exact ih _ (fun kv hkv => h kv (List.mem_cons_of_mem _ hkv))

theorem customDataLoop_error (l : List (String × GoValue)) (acc : GoMap AttrValue)
    (r : Option (GoMap AttrValue)) (e : String) (h : customDataLoop l acc = (r, some e)) :
    r = none := by
  induction l generalizing acc with
  | nil => simp [customDataLoop] at h
  | cons p rest ih =>
    obtain ⟨k, v⟩ := p
    rw [customDataLoop] at h
    split at h
    · simp only [Prod.mk.injEq] at h
      exact h.1.symm
    · exact ih _ h

theorem customDataLoop_success (l : List (String × GoValue)) (acc : GoMap AttrValue)
    (r : Option (GoMap AttrValue)) (h : customDataLoop l acc = (r, none)) :
    ∀ kv ∈ l, strValue kv.2 = .ok (storedString kv.2) := by
  induction l generalizing acc with
  | nil => simp
  | cons p rest ih =>
    obtain ⟨k, v⟩ := p
    rw [customDataLoop] at h
    split at h
    · simp at h
    · rename_i s hs
      intro kv hkv
      rcases List.mem_cons.1 hkv with e | hmem
      · subst e
        simp only [storedString, hs]
      · exact ih _ h kv hmem

theorem storedString_string (s : String) : storedString (.string s) = s := rfl

theorem strValue_string (s : String) : strValue (.string s) = .ok s := rfl

/-- The outcome of `CustomDataToMap` on a map all of whose values convert. -/
theorem customDataToMap_entries (m : GoMap GoValue)
    (h : ∀ kv ∈ m.entries, strValue kv.2 = .ok (storedString kv.2)) :
    ∃ r, CustomDataToMap (some m) = (some r, none) ∧
      r.entries = m.entries.map (fun kv => (kv.1, TfString.known (storedString kv.2))) := by
  refine ⟨_, customDataLoop_ok m.entries GoMap.empty h, ?_⟩
  exact entries_foldl_set_empty (fun kv => TfString.known (storedString kv.2)) m

theorem mapToCustomData_entries (m : GoMap String) :
    ∃ c, MapToCustomData (some m) = some c ∧
      c.entries = m.entries.map (fun kv => (kv.1, GoValue.string kv.2)) :=
  ⟨_, rfl, entries_foldl_set_empty (fun kv => GoValue.string kv.2) m⟩

theorem elementStrings_entries (r : GoMap AttrValue) :
    ∃ t, elementStrings (some r) = some t ∧
      t.entries = r.entries.map (fun kv => (kv.1, kv.2.ValueString)) :=
  ⟨_, rfl, entries_foldl_set_empty (fun kv => kv.2.ValueString) r⟩

/-- The round trip `MapToCustomData ∘ elementStrings ∘ CustomDataToMap` on a map
whose values all convert: every value comes back as the string stored for it. -/
theorem round_trip_entries (m : GoMap GoValue)
    (h : ∀ kv ∈ m.entries, strValue kv.2 = .ok (storedString kv.2)) :
    ∃ c, MapToCustomData (elementStrings (CustomDataToMap (some m)).1) = some c ∧
      c.entries = m.entries.map (fun kv => (kv.1, GoValue.string (storedString kv.2))) := by
  obtain ⟨r, hr, er⟩ := customDataToMap_entries m h
  obtain ⟨t, ht, et⟩ := elementStrings_entries r
  obtain ⟨c, hc, ec⟩ := mapToCustomData_entries t
  refine ⟨c, ?_, ?_⟩
  · rw [hr]; simp only; rw [ht, hc]
  · rw [ec, et, er]
    simp [List.map_map, Function.comp_def, TfString.ValueString]

/-- C3: the codec round-trips on string-valued maps in both directions.  For
every string map (nil or not), `CustomDataToMap (MapToCustomData m)` returns no
error, is nil exactly when the input is, has the length of the input and holds
under each key the string value of the input; and for every custom-data map
whose values are all plain strings, `MapToCustomData` of the strings that
`CustomDataToMap` produces is the map itself. -/
theorem codec_round_trip_on_strings :
    (∀ tfMap : Option (GoMap String),
      (CustomDataToMap (MapToCustomData tfMap)).2 = none ∧
      ((CustomDataToMap (MapToCustomData tfMap)).1 = none ↔ tfMap = none) ∧
      (keysOf (CustomDataToMap (MapToCustomData tfMap)).1 = keysOf tfMap) ∧
      ∀ k, lookupOf (CustomDataToMap (MapToCustomData tfMap)).1 k =
        (lookupOf tfMap k).map TfString.StringValue) ∧
    (∀ c : CustomData,
      (∀ k v, lookupOf c k = some v → v.isString = true) →
      (CustomDataToMap c).2 = none ∧
      MapToCustomData (elementStrings (CustomDataToMap c).1) = c) := by
  constructor
  · intro tfMap
    cases tfMap with
    | none => exact ⟨rfl, by simp [MapToCustomData, CustomDataToMap], rfl, fun _ => rfl⟩
    | some m =>
      obtain ⟨c, hc, ec⟩ := mapToCustomData_entries m
      have hall : ∀ kv ∈ c.entries, strValue kv.2 = .ok (storedString kv.2) := by
        intro kv hkv
        rw [ec] at hkv
        obtain ⟨p, _, rfl⟩ := List.mem_map.1 hkv
        rfl
      obtain ⟨r, hr, er⟩ := customDataToMap_entries c hall
      have er' : r.entries = m.entries.map (fun kv => (kv.1, TfString.StringValue kv.2)) := by
        rw [er, ec]
        simp [List.map_map, Function.comp_def, storedString_string, TfString.StringValue]
      rw [hc, hr]
      refine ⟨rfl, by simp, ?_, ?_⟩
      · simp [keysOf, GoMap.keys, er', List.map_map, Function.comp_def]
      · intro k
        simp only [lookupOf, GoMap.get?, er']
        exact lookupEntries_map TfString.StringValue m.entries k
  · intro c hstr
    cases c with
    | none => exact ⟨rfl, rfl⟩
    | some m =>
      have hkey : ∀ kv ∈ m.entries, lookupEntries kv.1 m.entries = some kv.2 := by
        intro kv hkv
        have hnd := m.nodup
        revert hkv hnd
        generalize m.entries = l
        intro hkv hnd
        induction l with
        | nil => simp at hkv
        | cons p rest ih =>
          obtain ⟨k', v'⟩ := p
          rcases List.mem_cons.1 hkv with e | hmem
          · subst e; simp [lookupEntries]
          · simp only [List.map_cons, List.nodup_cons] at hnd
            have hne : ¬ k' = kv.1 := by
              intro e
              apply hnd.1
              rw [e]
              exact List.mem_map_of_mem Prod.fst hmem
            simp only [lookupEntries, hne, if_false]
            exact ih hmem hnd.2
      have hs : ∀ kv ∈ m.entries, ∃ s, kv.2 = GoValue.string s := by
        intro kv hkv
        have := hstr kv.1 kv.2 (hkey kv hkv)
        cases hv : kv.2 <;> simp [hv, GoValue.isString] at this
        exact ⟨_, rfl⟩
      have hall : ∀ kv ∈ m.entries, strValue kv.2 = .ok (storedString kv.2) := by
        intro kv hkv
        obtain ⟨s, hs'⟩ := hs kv hkv
        rw [hs']; rfl
      obtain ⟨c, hc, ec⟩ := round_trip_entries m hall
      obtain ⟨r, hr, _⟩ := customDataToMap_entries m hall
      refine ⟨by rw [hr], ?_⟩
      rw [hc]
      congr 1
      apply GoMap.ext_entries
      rw [ec]
      conv_rhs => rw [← List.map_id m.entries]
      apply List.map_congr_left
      intro kv hkv
      obtain ⟨s, hs'⟩ := hs kv hkv
      obtain ⟨k, v⟩ := kv
      simp only at hs'
      subst hs'
      rfl

/-- Witness of C3: a custom-data map of three plain strings comes back unchanged. -/
theorem codec_round_trip_on_strings_witness :
    (CustomDataToMap (some (GoMap.lit
      [("key1", .string "value1"), ("key2", .string "value2"), ("key3", .string "value3")]))).2
      = none ∧
    MapToCustomData (elementStrings (CustomDataToMap (some (GoMap.lit
      [("key1", .string "value1"), ("key2", .string "value2"), ("key3", .string "value3")]))).1)
      = some (GoMap.lit
      [("key1", .string "value1"), ("key2", .string "value2"), ("key3", .string "value3")]) :=
  codec_round_trip_on_strings.2 _ (by
    intro k v h
    have hmem := lookupEntries_mem _ k v h
    simp [GoMap.lit, GoMap.set, GoMap.empty, setEntries] at hmem
    rcases hmem with ⟨_, rfl⟩ | ⟨_, rfl⟩ | ⟨_, rfl⟩ <;> rfl)

theorem customDataToMap_pair (c : CustomData) (h : (CustomDataToMap c).2 = none) :
    CustomDataToMap c = ((CustomDataToMap c).1, none) :=
  Prod.ext rfl h

theorem customDataToMap_success (m : GoMap GoValue) (h : (CustomDataToMap (some m)).2 = none) :
    ∀ kv ∈ m.entries, strValue kv.2 = .ok (storedString kv.2) :=
  customDataLoop_success m.entries GoMap.empty _ (customDataToMap_pair (some m) h)

/-- What a successful `CustomDataToMap` holds: the keys of the input in the
same order, each with the string stored for its value. -/
theorem customDataToMap_lookup (c : CustomData) (h : (CustomDataToMap c).2 = none) :
    keysOf (CustomDataToMap c).1 = keysOf c ∧
    ∀ k, lookupOf (CustomDataToMap c).1 k =
      (lookupOf c k).map (fun v => TfString.StringValue (storedString v)) := by
  cases c with
  | none => exact ⟨rfl, fun _ => rfl⟩
  | some m =>
    obtain ⟨r, hr, er⟩ := customDataToMap_entries m (customDataToMap_success m h)
    rw [hr]
    refine ⟨?_, ?_⟩
    · simp [keysOf, GoMap.keys, er, List.map_map, Function.comp_def]
    · intro k
      simp only [lookupOf, GoMap.get?, er]
      exact lookupEntries_map (fun v => TfString.StringValue (storedString v)) m.entries k

/-- C4: absence is preserved by both converters.  A nil input gives a nil
output (and no error), an empty map gives an empty map, `MapToCustomData`
returns nil only for nil, and `CustomDataToMap` returns a nil map only for a
nil input or together with an error; both keep the keys of their input. -/
theorem codec_preserves_absence :
    CustomDataToMap none = (none, none) ∧
    MapToCustomData none = none ∧
    CustomDataToMap (some GoMap.empty) = (some GoMap.empty, none) ∧
    MapToCustomData (some GoMap.empty) = some GoMap.empty ∧
    (∀ tfMap : Option (GoMap String),
      (MapToCustomData tfMap = none ↔ tfMap = none) ∧
      keysOf (MapToCustomData tfMap) = keysOf tfMap) ∧
    (∀ c : CustomData,
      ((CustomDataToMap c).1 = none ↔ c = none ∨ (CustomDataToMap c).2 ≠ none) ∧
      ((CustomDataToMap c).2 = none → keysOf (CustomDataToMap c).1 = keysOf c)) := by
  refine ⟨rfl, rfl, rfl, rfl, ?_, ?_⟩
  · intro tfMap
    cases tfMap with
    | none => exact ⟨by simp [MapToCustomData], rfl⟩
    | some m =>
      obtain ⟨c, hc, ec⟩ := mapToCustomData_entries m
      rw [hc]
      refine ⟨by simp, ?_⟩
      simp [keysOf, GoMap.keys, ec, List.map_map, Function.comp_def]
  · intro c
    refine ⟨?_, fun h => (customDataToMap_lookup c h).1⟩
    cases c with
    | none => simp [CustomDataToMap]
    | some m =>
      constructor
      · intro h1
        right
        intro h2
        obtain ⟨r, hr, _⟩ := customDataToMap_entries m (customDataToMap_success m h2)
        rw [hr] at h1
        simp at h1
      · intro h1
        rcases h1 with h1 | h1
        · simp at h1
        · cases he : (CustomDataToMap (some m)).2 with
          | none => exact absurd he h1
          | some e =>
            exact customDataLoop_error m.entries GoMap.empty _ e (Prod.ext rfl he)

/-- Witness of C4: a map of one string keeps its one key. -/
theorem codec_preserves_absence_witness :
    keysOf (CustomDataToMap (some (GoMap.lit [("key1", .string "value1")]))).1 =
      keysOf (some (GoMap.lit [("key1", GoValue.string "value1")])) :=
  (codec_preserves_absence.2.2.2.2.2 (some (GoMap.lit [("key1", .string "value1")]))).2 rfl

/-- C8: the round trip holds only for string-valued maps.  When `CustomDataToMap`
succeeds on a map that holds under some key a value that is not a plain string,
the round trip gives under that key a string, the text stored for the value,
and so a map different from the original. -/
theorem round_trip_changes_non_strings (c : CustomData) (k : String) (v : GoValue)
    (hok : (CustomDataToMap c).2 = none) (hk : lookupOf c k = some v)
    (hv : v.isString = false) :
    lookupOf (MapToCustomData (elementStrings (CustomDataToMap c).1)) k =
      some (GoValue.string (storedString v)) ∧
    MapToCustomData (elementStrings (CustomDataToMap c).1) ≠ c := by
  cases c with
  | none => simp [lookupOf] at hk
  | some m =>
    obtain ⟨c', hc, ec⟩ := round_trip_entries m (customDataToMap_success m hok)
    have key : lookupOf (some c') k = some (GoValue.string (storedString v)) := by
      simp only [lookupOf, GoMap.get?, ec]
      rw [lookupEntries_map (fun v => GoValue.string (storedString v)) m.entries k]
      simp only [lookupOf, GoMap.get?] at hk
      rw [hk]; rfl
    rw [hc]
    refine ⟨key, ?_⟩
    intro heq
    rw [heq, hk] at key
    cases v <;> simp [GoValue.isString] at hv key

/-- Witness of C8: the number 42 comes back as the string `42`. -/
theorem round_trip_changes_non_strings_witness :
    lookupOf (MapToCustomData (elementStrings (CustomDataToMap
      (some (GoMap.lit [("count", .float64 (Float64.ofNat 42))]))).1)) "count" =
      some (GoValue.string "42") ∧
    MapToCustomData (elementStrings (CustomDataToMap
      (some (GoMap.lit [("count", .float64 (Float64.ofNat 42))]))).1) ≠
      some (GoMap.lit [("count", .float64 (Float64.ofNat 42))]) :=
  round_trip_changes_non_strings (some (GoMap.lit [("count", .float64 (Float64.ofNat 42))]))
    "count" (.float64 (Float64.ofNat 42)) (by decide) (by rfl) (by rfl)

/-! ### Decimal rendering of integers -/

theorem digitsAux_append (fuel n : Nat) (acc : List Nat) :
    strconv.digitsAux fuel n acc = strconv.digitsAux fuel n [] ++ acc := by
  induction fuel generalizing n acc with
  | zero => simp [strconv.digitsAux]
  | succ fuel ih =>
    simp only [strconv.digitsAux]
    split
    · simp
    · rw [ih (n / 10) (n % 10 :: acc), ih (n / 10) [n % 10]]
      simp

/-- The value of a list of digits, most significant first. -/
theorem digitsAux_value (fuel n : Nat) (h : n < fuel) :
    (strconv.digitsAux fuel n []).foldl (fun a d => 10 * a + d) 0 = n ∧
    ∀ d ∈ strconv.digitsAux fuel n [], d < 10 := by
  induction fuel generalizing n with
  | zero => omega
  | succ fuel ih =>
    simp only [strconv.digitsAux]
    split
    · rename_i h0; subst h0; simp
    · rename_i h0
      have hlt : n / 10 < fuel := by omega
      obtain ⟨hv, hd⟩ := ih (n / 10) hlt
      rw [digitsAux_append]
      refine ⟨?_, ?_⟩
      · rw [List.foldl_append, hv]
        simp only [List.foldl_cons, List.foldl_nil]
        omega
      · intro d hmem
        rcases List.mem_append.1 hmem with h1 | h1
        · exact hd d h1
        · have h2 : d = n % 10 := by simpa using h1
          omega

theorem digitChar_toNat (d : Nat) (h : d < 10) : (strconv.digitChar d).toNat = 48 + d := by
  interval_cases d <;> rfl

theorem decimalValue_map_digitChar (ds : List Nat) (h : ∀ d ∈ ds, d < 10) (init : Nat) :
    (ds.map strconv.digitChar).foldl (fun acc c => 10 * acc + (c.toNat - 48)) init =
      ds.foldl (fun a d => 10 * a + d) init := by
  induction ds generalizing init with
  | nil => rfl
  | cons d rest ih =>
    have hd := h d (by simp)
    simp only [List.map_cons, List.foldl_cons, digitChar_toNat d hd]
    rw [ih (fun x hx => h x (List.mem_cons_of_mem _ hx))]
    congr 1
    omega

theorem formatUint_value (n : Nat) :
    strconv.decimalValue (strconv.FormatUint n).data = n ∧
    ∀ c ∈ (strconv.FormatUint n).data, 48 ≤ c.toNat ∧ c.toNat ≤ 57 := by
  unfold strconv.FormatUint
  split
  · rename_i h; subst h
    refine ⟨rfl, ?_⟩
    intro c hc
    simp at hc
    subst hc
    decide
  · obtain ⟨hv, hd⟩ := digitsAux_value (n + 1) n (Nat.lt_succ_self n)
    refine ⟨?_, ?_⟩
    · simp only [strconv.decimalValue, strconv.digits]
      rw [decimalValue_map_digitChar _ hd, hv]
    · intro c hc
      simp only [strconv.digits, List.mem_map] at hc
      obtain ⟨d, hdm, rfl⟩ := hc
      have hlt := hd d hdm
      rw [digitChar_toNat d hlt]
      omega

/-- The text of `FormatInt` denotes the integer it was made from. -/
theorem formatInt_value (i : Int) : strconv.intValue (strconv.FormatInt i) = i := by
  unfold strconv.FormatInt
  split
  · rename_i hneg
    have e : ("-" ++ strconv.FormatUint (-i).toNat).data =
        '-' :: (strconv.FormatUint (-i).toNat).data := by
      simp [String.data_append]
    simp only [strconv.intValue, e, (formatUint_value (-i).toNat).1]
    omega
  · rename_i hpos
    obtain ⟨hv, hc⟩ := formatUint_value i.toNat
    have hne : ∀ cs, (strconv.FormatUint i.toNat).data ≠ '-' :: cs := by
      intro cs hcs
      have := hc '-' (by rw [hcs]; simp)
      revert this
      decide
    unfold strconv.intValue
    split
    · rename_i cs hcs
      exact absurd hcs (hne cs)
    · rw [hv]
      omega

/-- C5: when `CustomDataToMap` succeeds, the result has the keys of the input,
and under each key a string value is kept as it is, a boolean becomes `true`
or `false`, an `int` or `int64` becomes its decimal text (a text that denotes
the integer), and a `float64` becomes the text of format `%v`, which is `42`
for `float64(42)` and `123` for `float64(123)`. -/
theorem customDataToMap_renders_scalars (c : CustomData)
    (h : (CustomDataToMap c).2 = none) :
    keysOf (CustomDataToMap c).1 = keysOf c ∧
    (∀ k,
      (∀ s, lookupOf c k = some (.string s) →
        lookupOf (CustomDataToMap c).1 k = some (TfString.StringValue s)) ∧
      (∀ b, lookupOf c k = some (.bool b) →
        lookupOf (CustomDataToMap c).1 k =
          some (TfString.StringValue (if b then "true" else "false"))) ∧
      (∀ i, lookupOf c k = some (.int i) →
        lookupOf (CustomDataToMap c).1 k = some (TfString.StringValue (strconv.FormatInt i))) ∧
      (∀ i, lookupOf c k = some (.int64 i) →
        lookupOf (CustomDataToMap c).1 k = some (TfString.StringValue (strconv.FormatInt i))) ∧
      (∀ f, lookupOf c k = some (.float64 f) →
        lookupOf (CustomDataToMap c).1 k =
          some (TfString.StringValue (strconv.FormatFloat f .g)))) ∧
    (∀ i : Int, strconv.intValue (strconv.FormatInt i) = i) ∧
    strconv.FormatFloat (Float64.ofNat 42) .g = "42" ∧
    strconv.FormatFloat (Float64.ofNat 123) .g = "123" := by
  obtain ⟨hkeys, hlook⟩ := customDataToMap_lookup c h
  refine ⟨hkeys, ?_, formatInt_value, by decide, by decide⟩
  intro k
  refine ⟨?_, ?_, ?_, ?_, ?_⟩ <;> intro x hx <;> rw [hlook k, hx] <;> rfl

/-- Witness of C5: the map of the test `mixed types`. -/
theorem customDataToMap_renders_scalars_witness :
    CustomDataToMap (some (GoMap.lit
      [("string", .string "test"), ("number", .float64 (Float64.ofNat 123)),
        ("bool", .bool false)])) =
      (some (GoMap.lit
        [("string", TfString.StringValue "test"), ("number", TfString.StringValue "123"),
          ("bool", TfString.StringValue "false")]), none) ∧
    lookupOf (CustomDataToMap (some (GoMap.lit
      [("string", .string "test"), ("number", .float64 (Float64.ofNat 123)),
        ("bool", .bool false)]))).1 "bool" = some (TfString.StringValue "false") :=
  ⟨by rfl,
    ((customDataToMap_renders_scalars (some (GoMap.lit
      [("string", .string "test"), ("number", .float64 (Float64.ofNat 123)),
        ("bool", .bool false)])) (by decide)).2.1 "bool").2.1 false (by rfl)⟩

/-- The text of the error that `CustomDataToMap` returns for a key. -/
theorem marshalError_infix (key err : String) :
    key.data <:+:
      ("failed to marshal custom_data value for key " ++ key ++ ": " ++ err).data := by
  refine ⟨"failed to marshal custom_data value for key ".data, (": " ++ err).data, ?_⟩
  simp [String.data_append]

theorem strValue_error_marshal (v : GoValue) (err : String) (h : strValue v = .error err) :
    json.Marshal v = .error err := by
  cases v <;> simp [strValue] at h ⊢ <;> exact h

theorem customDataLoop_first_failure (pre post : List (String × GoValue)) (key : String)
    (value : GoValue) (err : String) (acc : GoMap AttrValue)
    (hpre : ∀ kv ∈ pre, ∃ s, strValue kv.2 = .ok s) (hval : strValue value = .error err) :
    customDataLoop (pre ++ (key, value) :: post) acc =
      (none, some ("failed to marshal custom_data value for key " ++ key ++ ": " ++ err)) := by
  induction pre generalizing acc with
  | nil => simp [customDataLoop, hval]
  | cons p rest ih =>
    obtain ⟨k, v⟩ := p
    obtain ⟨s, hs⟩ := hpre (k, v) (by simp)
    simp only at hs
    simp only [List.cons_append, customDataLoop, hs]
    exact ih _ (fun kv hkv => hpre kv (List.mem_cons_of_mem _ hkv))

theorem exists_first_failure (l : List (String × GoValue))
    (h : ∃ kv ∈ l, ∃ e, strValue kv.2 = .error e) :
    ∃ pre key value err post, l = pre ++ (key, value) :: post ∧
      (∀ kv ∈ pre, ∃ s, strValue kv.2 = .ok s) ∧ strValue value = .error err := by
  induction l with
  | nil => simp at h
  | cons p rest ih =>
    obtain ⟨k, v⟩ := p
    cases hv : strValue v with
    | error e => exact ⟨[], k, v, e, rest, rfl, by simp, hv⟩
    | ok s =>
      have h' : ∃ kv ∈ rest, ∃ e, strValue kv.2 = .error e := by
        obtain ⟨kv, hkv, e, he⟩ := h
        rcases List.mem_cons.1 hkv with heq | hmem
        · subst heq
          simp only at he
          rw [hv] at he
          cases he
        · exact ⟨kv, hmem, e, he⟩
      obtain ⟨pre, key, value, err, post, hl, hpre, hval⟩ := ih h'
      refine ⟨(k, v) :: pre, key, value, err, post, by simp [hl], ?_, hval⟩
      intro kv hkv
      rcases List.mem_cons.1 hkv with heq | hmem
      · subst heq; exact ⟨s, hv⟩
      · exact hpre kv hmem

/-- C7: when the conversion of the value under `key` fails in `json.Marshal`
(all values visited before it having converted), `CustomDataToMap` returns a
nil map and the error `failed to marshal custom_data value for key <key>:
<cause>`, whose text contains the key.  No call returns a map together with an
error, and a map with any value that fails to convert yields such an error for
one of its failing keys. -/
theorem customDataToMap_error_names_key (m : GoMap GoValue)
    (pre post : List (String × GoValue)) (key : String) (value : GoValue) (err : String)
    (hsplit : m.entries = pre ++ (key, value) :: post)
    (hpre : ∀ kv ∈ pre, ∃ s, strValue kv.2 = .ok s)
    (hval : strValue value = .error err) :
    json.Marshal value = .error err ∧
    CustomDataToMap (some m) =
      (none, some ("failed to marshal custom_data value for key " ++ key ++ ": " ++ err)) ∧
    key.data <:+:
      ("failed to marshal custom_data value for key " ++ key ++ ": " ++ err).data ∧
    (∀ (c : CustomData) (r : Option (GoMap AttrValue)) (e : String),
      CustomDataToMap c = (r, some e) → r = none) ∧
    (∀ m' : GoMap GoValue, (∃ kv ∈ m'.entries, ∃ e, strValue kv.2 = .error e) →
      ∃ key' value' err', (key', value') ∈ m'.entries ∧ json.Marshal value' = .error err' ∧
        CustomDataToMap (some m') =
          (none,
            some ("failed to marshal custom_data value for key " ++ key' ++ ": " ++ err'))) := by
  refine ⟨strValue_error_marshal value err hval, ?_, marshalError_infix key err, ?_, ?_⟩
  · simp only [CustomDataToMap, hsplit]
    exact customDataLoop_first_failure pre post key value err _ hpre hval
  · intro c r e hc
    cases c with
    | none => simp [CustomDataToMap] at hc
    | some m0 => exact customDataLoop_error m0.entries GoMap.empty r e hc
  · intro m' hfail
    obtain ⟨pre', key', value', err', post', hl, hpre', hval'⟩ :=
      exists_first_failure m'.entries hfail
    refine ⟨key', value', err', by simp [hl], strValue_error_marshal value' err' hval', ?_⟩
    simp only [CustomDataToMap, hl]
    exact customDataLoop_first_failure pre' post' key' value' err' _ hpre' hval'

/-- Witness of C7: a channel stored under `ch`, after a number that converts. -/
theorem customDataToMap_error_names_key_witness :
    CustomDataToMap (some (GoMap.lit
      [("count", .float64 (Float64.ofNat 42)), ("ch", .unsupported "chan int")])) =
      (none, some "failed to marshal custom_data value for key ch: json: unsupported type: chan int") :=
  (customDataToMap_error_names_key
    (GoMap.lit [("count", .float64 (Float64.ofNat 42)), ("ch", .unsupported "chan int")])
    [("count", .float64 (Float64.ofNat 42))] [] "ch" (.unsupported "chan int")
    "json: unsupported type: chan int" (by rfl)
    (by intro kv hkv; simp at hkv; subst hkv; exact ⟨"42", by rfl⟩) (by rfl)).2.1

/-! ### The JSON text holds no insignificant whitespace -/

theorem SpacesOnlyIf.append {b : Bool} {l₁ l₂ : List Char} (h₁ : SpacesOnlyIf b l₁)
    (h₂ : SpacesOnlyIf b l₂) : SpacesOnlyIf b (l₁ ++ l₂) := by
  intro c hc
  rcases List.mem_append.1 hc with h | h
  · exact h₁ c h
  · exact h₂ c h

theorem SpacesOnlyIf.of_none {b : Bool} {l : List Char} (h : ∀ c ∈ l, isWhitespace c = false) :
    SpacesOnlyIf b l := by
  intro c hc hw
  rw [h c hc] at hw
  cases hw

theorem SpacesOnlyIf.mono {b b' : Bool} {l : List Char} (h : SpacesOnlyIf b l)
    (hb : b = true → b' = true) : SpacesOnlyIf b' l :=
  fun c hc hw => ⟨(h c hc hw).1, hb (h c hc hw).2⟩

theorem isWhitespace_digitChar (d : Nat) : isWhitespace (strconv.digitChar d) = false := by
  unfold strconv.digitChar
  have h : d % 10 < 10 := Nat.mod_lt _ (by decide)
  generalize d % 10 = r at h
  interval_cases r <;> rfl

theorem isWhitespace_digitAt (ds : List Nat) (j : Int) :
    isWhitespace (strconv.digitAt ds j) = false := by
  unfold strconv.digitAt
  split
  · exact isWhitespace_digitChar _
  · rfl

theorem isWhitespace_hexDigit (n : Nat) : isWhitespace (json.hexDigit n) = false := by
  unfold json.hexDigit
  have h : n % 16 < 16 := Nat.mod_lt _ (by decide)
  generalize n % 16 = r at h
  interval_cases r <;> rfl

theorem isWhitespace_digitAt_map (ds : List Nat) (g : Nat → Int) (l : List Nat) :
    ∀ c ∈ l.map (fun i => strconv.digitAt ds (g i)), isWhitespace c = false := by
  intro c hc
  obtain ⟨i, _, rfl⟩ := List.mem_map.1 hc
  exact isWhitespace_digitAt _ _

theorem fmtE_no_whitespace (neg : Bool) (d : DecimalSlice) (prec : Int) :
    ∀ c ∈ strconv.fmtE neg d prec, isWhitespace c = false := by
  unfold strconv.fmtE
  simp only [List.forall_mem_append]
  refine ⟨⟨⟨⟨?_, ?_⟩, ?_⟩, ?_⟩, ?_⟩
  · split_ifs <;> simp [isWhitespace]
  · simp [isWhitespace_digitAt]
  · split_ifs
    · intro c hc
      rcases List.mem_cons.1 hc with h | h
      · subst h; rfl
      · exact isWhitespace_digitAt_map d.d (fun i => (i : Int) + 1) _ c h
    · simp
  · split_ifs <;> simp [isWhitespace]
  · split_ifs
    all_goals
      intro x hx
      simp only [List.mem_cons, List.mem_singleton, List.not_mem_nil, or_false] at hx
      first
        | (rcases hx with h | h | h <;> subst h <;> exact isWhitespace_digitChar _)
        | (rcases hx with h | h <;> subst h <;>
            first | exact isWhitespace_digitChar _ | rfl)

theorem fmtF_no_whitespace (neg : Bool) (d : DecimalSlice) (prec : Int) :
    ∀ c ∈ strconv.fmtF neg d prec, isWhitespace c = false := by
  unfold strconv.fmtF
  simp only [List.forall_mem_append]
  refine ⟨⟨?_, ?_⟩, ?_⟩
  · split_ifs <;> simp [isWhitespace]
  · split_ifs
    · exact isWhitespace_digitAt_map d.d (fun i => (i : Int)) _
    · simp [isWhitespace]
  · split_ifs
    · intro c hc
      rcases List.mem_cons.1 hc with h | h
      · subst h; rfl
      · exact isWhitespace_digitAt_map d.d (fun i => d.dp + (i : Int)) _ c h
    · simp

theorem formatFloat_no_whitespace (f : Float64) (fmt : strconv.Fmt) :
    ∀ c ∈ (strconv.FormatFloat f fmt).data, isWhitespace c = false := by
  unfold strconv.FormatFloat
  split
  · decide
  · split
    · split <;> decide
    · cases fmt
      · exact fmtE_no_whitespace _ _ _
      · exact fmtF_no_whitespace _ _ _
      · simp only
        split
        · exact fmtE_no_whitespace _ _ _
        · exact fmtF_no_whitespace _ _ _

theorem getD_mem_or_default (l : List Char) (i : Nat) (d : Char) :
    l.getD i d ∈ l ∨ l.getD i d = d := by
  induction l generalizing i with
  | nil => right; rfl
  | cons a rest ih =>
    cases i with
    | zero => left; simp
    | succ i =>
      rcases ih i with h | h
      · left; simpa using Or.inr h
      · right; simpa using h

theorem encodeFloat_no_whitespace (f : Float64) (s : String) (h : json.encodeFloat f = .ok s) :
    ∀ c ∈ s.data, isWhitespace c = false := by
  unfold json.encodeFloat at h
  split at h
  · cases h
  · split at h
    · simp only at h
      split at h
      · cases h
        intro c hc
        simp only [List.mem_append, List.mem_singleton] at hc
        rcases hc with hc | hc
        · exact formatFloat_no_whitespace f .e c (List.mem_of_mem_take hc)
        · subst hc
          rcases getD_mem_or_default (strconv.FormatFloat f .e).data
            ((strconv.FormatFloat f .e).data.length - 1) '0' with h1 | h1
          · exact formatFloat_no_whitespace f .e _ h1
          · rw [h1]; rfl
      · cases h
        exact formatFloat_no_whitespace f .e
    · cases h
      exact formatFloat_no_whitespace f .f

theorem formatInt_no_whitespace (i : Int) :
    ∀ c ∈ (strconv.FormatInt i).data, isWhitespace c = false := by
  have digit : ∀ (n : Nat) (c : Char), c ∈ (strconv.FormatUint n).data →
      isWhitespace c = false := by
    intro n c hc
    have hr := (formatUint_value n).2 c hc
    have e : c = Char.ofNat c.toNat := by simp [Char.ofNat_toNat]
    rw [e]
    generalize c.toNat = m at hr
    obtain ⟨h1, h2⟩ := hr
    interval_cases m <;> rfl
  intro c hc
  unfold strconv.FormatInt at hc
  split at hc
  · simp only [String.data_append, List.mem_append] at hc
    rcases hc with hc | hc
    · simp at hc; subst hc; rfl
    · exact digit _ c hc
  · exact digit _ c hc

theorem encodeChar_spaces (c : Char) :
    ∀ x ∈ json.encodeChar c, isWhitespace x = true → x = ' ' ∧ c = ' ' := by
  intro x hx hw
  unfold json.encodeChar at hx
  split at hx
  · rename_i h
    simp only [List.mem_cons, List.mem_singleton, List.not_mem_nil, or_false] at hx
    rcases hx with hx | hx
    · subst hx; cases hw
    · subst hx
      rcases h with h | h <;> subst h <;> cases hw
  · split at hx
    · simp at hx; rcases hx with hx | hx <;> subst hx <;> cases hw
    · split at hx
      · simp at hx; rcases hx with hx | hx <;> subst hx <;> cases hw
      · split at hx
        · simp at hx; rcases hx with hx | hx <;> subst hx <;> cases hw
        · split at hx
          · simp at hx; rcases hx with hx | hx <;> subst hx <;> cases hw
          · split at hx
            · simp at hx; rcases hx with hx | hx <;> subst hx <;> cases hw
            · split at hx
              · simp only [json.escapeByte, List.mem_cons, List.mem_singleton,
                  List.not_mem_nil, or_false] at hx
                rcases hx with hx | hx | hx | hx | hx | hx
                · subst hx; cases hw
                · subst hx; cases hw
                · subst hx; cases hw
                · subst hx; cases hw
                · subst hx; rw [isWhitespace_hexDigit] at hw; cases hw
                · subst hx; rw [isWhitespace_hexDigit] at hw; cases hw
              · split at hx
                · simp at hx
                  rcases hx with hx | hx | hx | hx | hx | hx <;> subst hx <;> cases hw
                · split at hx
                  · simp at hx
                    rcases hx with hx | hx | hx | hx | hx | hx <;> subst hx <;> cases hw
                  · rename_i hn hr ht _ _ _
                    simp only [List.mem_singleton] at hx
                    subst hx
                    simp only [isWhitespace, Bool.or_eq_true, beq_iff_eq] at hw
                    rcases hw with ((h | h) | h) | h
                    · exact ⟨h, h⟩
                    · exact absurd h hn
                    · exact absurd h hr
                    · exact absurd h ht

theorem encodeString_spaces (s : String) :
    SpacesOnlyIf (s.data.contains ' ') (json.encodeString s).data := by
  intro c hc hw
  simp only [json.encodeString, List.mem_cons, List.mem_append, List.mem_flatMap,
    List.not_mem_nil, or_false] at hc
  rcases hc with (hc | ⟨a, ha, hca⟩) | hc
  · subst hc; cases hw
  · obtain ⟨h1, h2⟩ := encodeChar_spaces a c hca hw
    subst h2
    exact ⟨h1, by simpa using ha⟩
  · subst hc; cases hw

theorem joinElements_spaces (b : Bool) (l : List (Except String String)) :
    ∀ s, json.joinElements l = .ok s →
      (∀ e ∈ l, ∀ t, e = .ok t → SpacesOnlyIf b t.data) → SpacesOnlyIf b s.data := by
  induction l with
  | nil =>
    intro s h _
    simp only [json.joinElements] at h
    cases h
    exact SpacesOnlyIf.of_none (by simp)
  | cons x rest ih =>
    intro s h hl
    cases rest with
    | nil =>
      simp only [json.joinElements] at h
      exact hl x (by simp) s h
    | cons y rest =>
      simp only [json.joinElements] at h
      cases x with
      | error e => simp at h
      | ok sx =>
        simp only at h
        cases hj : json.joinElements (y :: rest) with
        | error e => rw [hj] at h; simp at h
        | ok t =>
          rw [hj] at h
          simp only [Except.ok.injEq] at h
          subst h
          have h1 : SpacesOnlyIf b sx.data := hl (.ok sx) (by simp) sx rfl
          have h2 : SpacesOnlyIf b t.data :=
            ih t hj (fun e he => hl e (List.mem_cons_of_mem _ he))
          simp only [String.data_append]
          exact (h1.append (SpacesOnlyIf.of_none (by decide))).append h2

theorem mem_insertMember (kv x : String × Except String String)
    (l : List (String × Except String String)) :
    x ∈ json.insertMember kv l ↔ x = kv ∨ x ∈ l := by
  induction l with
  | nil => simp [json.insertMember]
  | cons a rest ih =>
    simp only [json.insertMember]
    split
    · simp
    · simp only [List.mem_cons, ih]
      tauto

theorem mem_sortMembers (x : String × Except String String)
    (l : List (String × Except String String)) : x ∈ json.sortMembers l ↔ x ∈ l := by
  induction l with
  | nil => simp [json.sortMembers]
  | cons a rest ih =>
    have e : json.sortMembers (a :: rest) = json.insertMember a (json.sortMembers rest) := rfl
    rw [e, mem_insertMember, ih]
    simp

theorem member_spaces (b : Bool) (kv : String × Except String String) (s : String)
    (h : json.member kv = .ok s) (hk : SpacesOnlyIf b (json.encodeString kv.1).data)
    (hv : ∀ t, kv.2 = .ok t → SpacesOnlyIf b t.data) : SpacesOnlyIf b s.data := by
  unfold json.member at h
  split at h
  · cases h
  · rename_i t ht
    cases h
    simp only [String.data_append]
    exact (hk.append (SpacesOnlyIf.of_none (by decide))).append (hv t ht)

mutual

/-- The text of `json.Marshal` holds no line feed, carriage return or tab,
and a space only where a string of the value holds one. -/
theorem marshal_spaces : (v : GoValue) → (s : String) → json.Marshal v = .ok s →
    SpacesOnlyIf v.hasSpace s.data
  | .nil, s, h => by
    simp only [json.Marshal, Except.ok.injEq] at h
    subst h
    exact SpacesOnlyIf.of_none (by decide)
  | .string x, s, h => by
    simp only [json.Marshal, Except.ok.injEq] at h
    subst h
    simpa only [GoValue.hasSpace] using encodeString_spaces x
  | .bool x, s, h => by
    simp only [json.Marshal, Except.ok.injEq] at h
    subst h
    cases x <;> exact SpacesOnlyIf.of_none (by decide)
  | .int i, s, h => by
    simp only [json.Marshal, Except.ok.injEq] at h
    subst h
    exact SpacesOnlyIf.of_none (formatInt_no_whitespace i)
  | .int64 i, s, h => by
    simp only [json.Marshal, Except.ok.injEq] at h
    subst h
    exact SpacesOnlyIf.of_none (formatInt_no_whitespace i)
  | .float64 f, s, h => by
    simp only [json.Marshal] at h
    exact SpacesOnlyIf.of_none (encodeFloat_no_whitespace f s h)
  | .slice xs, s, h => by
    simp only [json.Marshal] at h
    cases hj : json.joinElements (json.marshalElements xs) with
    | error e => rw [hj] at h; simp at h
    | ok t =>
      rw [hj] at h
      simp only [Except.ok.injEq] at h
      subst h
      have ht := joinElements_spaces (hasSpaceElements xs) _ t hj (marshalElements_spaces xs)
      simp only [String.data_append, GoValue.hasSpace]
      exact ((SpacesOnlyIf.of_none (by decide)).append ht).append
        (SpacesOnlyIf.of_none (by decide))
  | .map kvs, s, h => by
    simp only [json.Marshal] at h
    cases hj : json.joinElements
        ((json.sortMembers (json.marshalMembers kvs)).map json.member) with
    | error e => rw [hj] at h; simp at h
    | ok t =>
      rw [hj] at h
      simp only [Except.ok.injEq] at h
      subst h
      have ht : SpacesOnlyIf (hasSpaceMembers kvs) t.data := by
        refine joinElements_spaces (hasSpaceMembers kvs) _ t hj ?_
        intro e he u hu
        obtain ⟨kv, hkv, rfl⟩ := List.mem_map.1 he
        rw [mem_sortMembers] at hkv
        obtain ⟨h1, h2⟩ := marshalMembers_spaces kvs kv hkv
        exact member_spaces _ kv u hu h1 h2
      simp only [String.data_append, GoValue.hasSpace]
      exact ((SpacesOnlyIf.of_none (by decide)).append ht).append
        (SpacesOnlyIf.of_none (by decide))
  | .unsupported _, s, h => by
    simp [json.Marshal] at h

theorem marshalElements_spaces : (xs : List GoValue) →
    ∀ e ∈ json.marshalElements xs, ∀ t, e = .ok t → SpacesOnlyIf (hasSpaceElements xs) t.data
  | [], e, he, _, _ => by simp [json.marshalElements] at he
  | x :: xs, e, he, t, ht => by
    simp only [json.marshalElements, List.mem_cons] at he
    rcases he with he | he
    · subst he
      exact (marshal_spaces x t ht).mono (by simp [hasSpaceElements]; tauto)
    · exact (marshalElements_spaces xs e he t ht).mono (by simp [hasSpaceElements]; tauto)

theorem marshalMembers_spaces : (kvs : List (String × GoValue)) →
    ∀ kv ∈ json.marshalMembers kvs,
      SpacesOnlyIf (hasSpaceMembers kvs) (json.encodeString kv.1).data ∧
      ∀ t, kv.2 = .ok t → SpacesOnlyIf (hasSpaceMembers kvs) t.data
  | [], kv, hkv => by simp [json.marshalMembers] at hkv
  | (k, v) :: rest, kv, hkv => by
    simp only [json.marshalMembers, List.mem_cons] at hkv
    rcases hkv with hkv | hkv
    · subst hkv
      refine ⟨(encodeString_spaces k).mono (by simp [hasSpaceMembers]; tauto), ?_⟩
      intro t ht
      exact (marshal_spaces v t ht).mono (by simp [hasSpaceMembers]; tauto)
    · obtain ⟨h1, h2⟩ := marshalMembers_spaces rest kv hkv
      refine ⟨h1.mono (by simp [hasSpaceMembers]; tauto), ?_⟩
      intro t ht
      exact (h2 t ht).mono (by simp [hasSpaceMembers]; tauto)

end

/-- C6: when `CustomDataToMap` succeeds, a value that is a null, an array or an
object is stored as the text of `json.Marshal`, the compact serialization: the
text holds no line feed, carriage return or tab, and a space only where a
string inside the value holds one.  The array `["a","b"]`, the object
`{"a":"b"}` and null give the texts `["a","b"]`, `{"a":"b"}` and `null`. -/
theorem customDataToMap_stores_compact_json (c : CustomData) (k : String) (v : GoValue)
    (hok : (CustomDataToMap c).2 = none) (hk : lookupOf c k = some v)
    (hv : v = .nil ∨ (∃ xs, v = .slice xs) ∨ ∃ kvs, v = .map kvs) :
    (∃ s, json.Marshal v = .ok s ∧
      lookupOf (CustomDataToMap c).1 k = some (TfString.StringValue s) ∧
      ∀ ch ∈ s.data, isWhitespace ch = true → ch = ' ' ∧ v.hasSpace = true) ∧
    json.Marshal (.slice [.string "a", .string "b"]) = .ok "[\"a\",\"b\"]" ∧
    json.Marshal (.map [("a", .string "b")]) = .ok "\x7b\"a\":\"b\"\x7d" ∧
    json.Marshal .nil = .ok "null" := by
  refine ⟨?_, rfl, rfl, rfl⟩
  cases c with
  | none => simp [lookupOf] at hk
  | some m =>
    have hmem : (k, v) ∈ m.entries := lookupEntries_mem m.entries k v hk
    have hconv : strValue v = .ok (storedString v) := customDataToMap_success m hok (k, v) hmem
    have hjson : json.Marshal v = .ok (storedString v) := by
      rcases hv with h | ⟨xs, h⟩ | ⟨kvs, h⟩ <;> subst h <;> exact hconv
    refine ⟨storedString v, hjson, ?_, marshal_spaces v _ hjson⟩
    rw [(customDataToMap_lookup (some m) hok).2 k, hk]
    rfl

/-- Witness of C6: an array, an object and a null in one map. -/
theorem customDataToMap_stores_compact_json_witness :
    CustomDataToMap (some (GoMap.lit
      [("tags", .slice [.string "a", .string "b"]), ("meta", .map [("a", .string "b")]),
        ("none", .nil)])) =
      (some (GoMap.lit
        [("tags", TfString.StringValue "[\"a\",\"b\"]"),
          ("meta", TfString.StringValue "\x7b\"a\":\"b\"\x7d"),
          ("none", TfString.StringValue "null")]), none) ∧
    ∃ s, json.Marshal (.slice [.string "a", .string "b"]) = .ok s ∧
      lookupOf (CustomDataToMap (some (GoMap.lit
        [("tags", .slice [.string "a", .string "b"]), ("meta", .map [("a", .string "b")]),
          ("none", .nil)]))).1 "tags" = some (TfString.StringValue s) ∧
      ∀ ch ∈ s.data, isWhitespace ch = true →
        ch = ' ' ∧ (GoValue.slice [.string "a", .string "b"]).hasSpace = true :=
  ⟨by rfl,
    (customDataToMap_stores_compact_json (some (GoMap.lit
      [("tags", .slice [.string "a", .string "b"]), ("meta", .map [("a", .string "b")]),
        ("none", .nil)])) "tags" (.slice [.string "a", .string "b"]) (by rfl) (by rfl)
      (Or.inr (Or.inl ⟨_, rfl⟩))).1⟩

/-! ## Theorems: the remaining validator claims -/

theorem country_step_not_start (s : List Char) :
    CountryCodeValidator.pattern.step (false, s) = [] := by
  simp [CountryCodeValidator.pattern, Regexp.step]

theorem country_matchFrom_false (s : List Char) :
    Regexp.matchFrom CountryCodeValidator.pattern false s = false := by
  induction s with
  | nil => simp [Regexp.matchFrom, country_step_not_start]
  | cons c rest ih => simp [Regexp.matchFrom, country_step_not_start, ih]

theorem country_matchFrom_start (s : List Char) :
    Regexp.matchFrom CountryCodeValidator.pattern true s =
      !(CountryCodeValidator.pattern.step (true, s)).isEmpty := by
  cases s <;> simp [Regexp.matchFrom, country_matchFrom_false]

theorem country_matchFrom_true (s : List Char) :
    Regexp.matchFrom CountryCodeValidator.pattern true s = true ↔
      s.length = 2 ∧ ∀ c ∈ s, 'A' ≤ c ∧ c ≤ 'Z' := by
  rw [country_matchFrom_start]
  match s with
  | [] => simp [CountryCodeValidator.pattern, Regexp.step, Regexp.iter]
  | [a] =>
    by_cases ha : 'A' ≤ a ∧ a ≤ 'Z' <;>
      simp [CountryCodeValidator.pattern, Regexp.step, Regexp.iter, ha]
  | [a, b] =>
    by_cases ha : 'A' ≤ a ∧ a ≤ 'Z' <;> by_cases hb : 'A' ≤ b ∧ b ≤ 'Z' <;>
      simp [CountryCodeValidator.pattern, Regexp.step, Regexp.iter, ha, hb]
  | a :: b :: c :: rest =>
    by_cases ha : 'A' ≤ a ∧ a ≤ 'Z' <;> by_cases hb : 'A' ≤ b ∧ b ≤ 'Z' <;>
      simp [CountryCodeValidator.pattern, Regexp.step, Regexp.iter, ha, hb]

/-- C11: on a known value, `CountryCodeValidator` leaves the response free of
errors exactly when the response held none before and the value has two
characters, each an upper-case ASCII letter.  `US` passes; `us`, `U`, `USA`,
`U1` and the empty string are rejected. -/
theorem country_validator_accept_iff (p : Path) (s : String) (resp : StringResponse) :
    ((CountryCodeValidator.ValidateString ⟨p, .known s⟩ resp).Diagnostics.HasError = false ↔
      resp.Diagnostics.HasError = false ∧
      s.length = 2 ∧ ∀ c ∈ s.data, 'A' ≤ c ∧ c ≤ 'Z') ∧
    (CountryCodeValidator.ValidateString ⟨p, .known "US"⟩ ⟨⟨[]⟩⟩).Diagnostics.HasError
      = false ∧
    (∀ bad ∈ ["us", "U", "USA", "U1", ""],
      (CountryCodeValidator.ValidateString ⟨p, .known bad⟩ resp).Diagnostics.HasError
        = true) := by
  have key : ∀ (v : String) (r : StringResponse),
      (CountryCodeValidator.ValidateString ⟨p, .known v⟩ r).Diagnostics.HasError =
        (r.Diagnostics.HasError || !Regexp.MatchString CountryCodeValidator.pattern v) := by
    intro v r
    simp only [CountryCodeValidator.ValidateString, TfString.IsNull, TfString.IsUnknown,
      TfString.ValueString]
    cases h : Regexp.MatchString CountryCodeValidator.pattern v
    · simp [hasError_addAttributeError]
    · simp
  refine ⟨?_, ?_, ?_⟩
  · rw [key, Bool.or_eq_false_iff, Bool.not_eq_false', Regexp.MatchString,
      country_matchFrom_true]
    rfl
  · rw [key]; decide
  · intro bad hbad
    rw [key]
    simp only [List.mem_cons, List.mem_singleton, List.not_mem_nil, or_false] at hbad
    have e : Regexp.MatchString CountryCodeValidator.pattern bad = false := by
      rcases hbad with h | h | h | h | h <;> subst h <;> decide
    rw [e]; simp

/-- C12: a null or an unknown value is never validated.  Each of the seven
validators returns the response it was given, whatever that response holds and
whatever `strconv.ParseFloat` would do. -/
theorem validators_skip_null_and_unknown (ParseFloat : String → Except String Float64)
    (p : Path) (resp : StringResponse) :
    ∀ v ∈ [TfString.null, TfString.unknown],
      TaxCategoryValidator.ValidateString ⟨p, v⟩ resp = resp ∧
      DiscountTypeValidator.ValidateString ⟨p, v⟩ resp = resp ∧
      PercentageAmountValidator.ValidateString ParseFloat ⟨p, v⟩ resp = resp ∧
      CurrencyCodeValidator.ValidateString ⟨p, v⟩ resp = resp ∧
      CountryCodeValidator.ValidateString ⟨p, v⟩ resp = resp ∧
      TaxModeValidator.ValidateString ⟨p, v⟩ resp = resp ∧
      IntervalValidator.ValidateString ⟨p, v⟩ resp = resp := by
  intro v hv
  simp only [List.mem_cons, List.mem_singleton, List.not_mem_nil, or_false] at hv
  rcases hv with h | h <;> subst h <;> exact ⟨rfl, rfl, rfl, rfl, rfl, rfl, rfl⟩

/-- Witness of C12: a null tax category leaves a fresh response empty. -/
theorem validators_skip_null_and_unknown_witness :
    TaxCategoryValidator.ValidateString ⟨Path.Root "tax_category", .null⟩ ⟨⟨[]⟩⟩ = ⟨⟨[]⟩⟩ :=
  (validators_skip_null_and_unknown (fun _ => .error "invalid syntax")
    (Path.Root "tax_category") ⟨⟨[]⟩⟩ .null (by simp)).1

theorem append_fresh (d : Diagnostic) : (⟨[]⟩ : Diagnostics).Append d = ⟨[d]⟩ := by
  simp [Diagnostics.Append]

/-- C13: on a known value each validator returns the response it was given or
that response with one diagnostic appended: an error at the path of the request
whose detail is the fixed text that names the allowed set or pattern, followed
by the value as it was given.  Appended to the fresh response that the
framework passes, the diagnostic is the only one the response holds, so a
validator that rejects adds exactly one error. -/
theorem validators_report_one_error (ParseFloat : String → Except String Float64)
    (p : Path) (s : String) (resp : StringResponse) :
    ((TaxCategoryValidator.ValidateString ⟨p, .known s⟩ resp = resp ∨
        TaxCategoryValidator.ValidateString ⟨p, .known s⟩ resp =
          ⟨resp.Diagnostics.Append ⟨.error, "Invalid Tax Category",
            "Tax category must be one of: standard, digital-goods, ebooks, implementation-services, professional-services, saas, software-programming-services, training-services. Got: " ++ s,
            some p⟩⟩) ∧
      (DiscountTypeValidator.ValidateString ⟨p, .known s⟩ resp = resp ∨
        DiscountTypeValidator.ValidateString ⟨p, .known s⟩ resp =
          ⟨resp.Diagnostics.Append ⟨.error, "Invalid Discount Type",
            "Discount type must be one of: percentage, flat, flat_per_seat. Got: " ++ s,
            some p⟩⟩) ∧
      (PercentageAmountValidator.ValidateString ParseFloat ⟨p, .known s⟩ resp = resp ∨
        PercentageAmountValidator.ValidateString ParseFloat ⟨p, .known s⟩ resp =
          ⟨resp.Diagnostics.Append ⟨.error, "Invalid Percentage Amount",
            "Percentage amount must be a valid number. Got: " ++ s, some p⟩⟩ ∨
        PercentageAmountValidator.ValidateString ParseFloat ⟨p, .known s⟩ resp =
          ⟨resp.Diagnostics.Append ⟨.error, "Invalid Percentage Amount",
            "Percentage amount must be between 0.01 and 100. Got: " ++ s, some p⟩⟩) ∧
      (CurrencyCodeValidator.ValidateString ⟨p, .known s⟩ resp = resp ∨
        CurrencyCodeValidator.ValidateString ⟨p, .known s⟩ resp =
          ⟨resp.Diagnostics.Append ⟨.error, "Invalid Currency Code",
            "Currency code must be a three-letter uppercase ISO 4217 code (e.g., USD, EUR, GBP). Got: " ++ s,
            some p⟩⟩) ∧
      (CountryCodeValidator.ValidateString ⟨p, .known s⟩ resp = resp ∨
        CountryCodeValidator.ValidateString ⟨p, .known s⟩ resp =
          ⟨resp.Diagnostics.Append ⟨.error, "Invalid Country Code",
            "Country code must be a two-letter uppercase ISO 3166-1 alpha-2 code (e.g., US, GB, FR). Got: " ++ s,
            some p⟩⟩) ∧
      (TaxModeValidator.ValidateString ⟨p, .known s⟩ resp = resp ∨
        TaxModeValidator.ValidateString ⟨p, .known s⟩ resp =
          ⟨resp.Diagnostics.Append ⟨.error, "Invalid Tax Mode",
            "Tax mode must be one of: account_setting, internal, external. Got: " ++ s,
            some p⟩⟩) ∧
      (IntervalValidator.ValidateString ⟨p, .known s⟩ resp = resp ∨
        IntervalValidator.ValidateString ⟨p, .known s⟩ resp =
          ⟨resp.Diagnostics.Append ⟨.error, "Invalid Interval",
            "Interval must be one of: day, week, month, year. Got: " ++ s, some p⟩⟩)) ∧
    (∀ d : Diagnostic, ((⟨[]⟩ : Diagnostics).Append d).items = [d]) ∧
    (∀ text : String, s.data <:+ (text ++ s).data) := by
  refine ⟨?_, fun d => by rw [append_fresh], fun text => ⟨text.data, by simp⟩⟩
  refine ⟨?_, ?_, ?_, ?_, ?_, ?_, ?_⟩
  · simp only [TaxCategoryValidator.ValidateString, TfString.IsNull, TfString.IsUnknown,
      TfString.ValueString, Diagnostics.AddAttributeError]
    split_ifs <;> simp
  · simp only [DiscountTypeValidator.ValidateString, TfString.IsNull, TfString.IsUnknown,
      TfString.ValueString, Diagnostics.AddAttributeError]
    split_ifs <;> simp
  · simp only [PercentageAmountValidator.ValidateString, TfString.IsNull, TfString.IsUnknown,
      TfString.ValueString, Diagnostics.AddAttributeError]
    cases ParseFloat s with
    | error e => simp
    | ok amount => simp only []; split_ifs <;> simp
  · simp only [CurrencyCodeValidator.ValidateString, TfString.IsNull, TfString.IsUnknown,
      TfString.ValueString, Diagnostics.AddAttributeError]
    split_ifs <;> simp
  · simp only [CountryCodeValidator.ValidateString, TfString.IsNull, TfString.IsUnknown,
      TfString.ValueString, Diagnostics.AddAttributeError]
    split_ifs <;> simp
  · simp only [TaxModeValidator.ValidateString, TfString.IsNull, TfString.IsUnknown,
      TfString.ValueString, Diagnostics.AddAttributeError]
    split_ifs <;> simp
  · simp only [IntervalValidator.ValidateString, TfString.IsNull, TfString.IsUnknown,
      TfString.ValueString, Diagnostics.AddAttributeError]
    split_ifs <;> simp

/-! ## Theorems: provider configuration -/

namespace paddleProvider

theorem configure_of_known (sdk : SDKConstructors) (Getenv : String → String)
    (config : paddleProviderModel) (hk : config.ApiKey.IsUnknown = false)
    (he : config.Environment.IsUnknown = false) :
    Configure sdk Getenv ⟨config, ⟨[]⟩⟩ ⟨⟨[]⟩, none, none⟩ =
      if resolvedApiKey Getenv config = "" then
        if resolvedEnvironment Getenv config ∈ ["", "sandbox", "production"] then
          (⟨⟨[missingApiKey]⟩, none, none⟩, [])
        else
          (⟨⟨[missingApiKey, invalidEnvironment (resolvedEnvironment Getenv config)]⟩,
            none, none⟩, [])
      else if resolvedEnvironment Getenv config ∈ ["", "sandbox"] then
        match sdk.NewSandbox (resolvedApiKey Getenv config) with
        | .error err =>
          (⟨⟨[⟨.error, "Unable to Create Paddle API Client",
              "An unexpected error occurred when creating the Paddle API client. " ++
                "Paddle Client Error: " ++ err, none⟩]⟩, none, none⟩,
            [SDKCall.NewSandbox (resolvedApiKey Getenv config)])
        | .ok client =>
          (⟨⟨[]⟩, some client, some client⟩,
            [SDKCall.NewSandbox (resolvedApiKey Getenv config)])
      else if resolvedEnvironment Getenv config = "production" then
        match sdk.New (resolvedApiKey Getenv config) with
        | .error err =>
          (⟨⟨[⟨.error, "Unable to Create Paddle API Client",
              "An unexpected error occurred when creating the Paddle API client. " ++
                "Paddle Client Error: " ++ err, none⟩]⟩, none, none⟩,
            [SDKCall.New (resolvedApiKey Getenv config)])
        | .ok client =>
          (⟨⟨[]⟩, some client, some client⟩, [SDKCall.New (resolvedApiKey Getenv config)])
      else
        (⟨⟨[invalidEnvironment (resolvedEnvironment Getenv config)]⟩, none, none⟩, []) := by
  have e₁ : (if (!config.ApiKey.IsNull) = true then config.ApiKey.ValueString
      else Getenv "PADDLE_API_KEY") = resolvedApiKey Getenv config := by
    unfold resolvedApiKey
    cases config.ApiKey <;> rfl
  have e₂ : (if (!config.Environment.IsNull) = true then config.Environment.ValueString
      else Getenv "PADDLE_ENVIRONMENT") = resolvedEnvironment Getenv config := by
    unfold resolvedEnvironment
    cases config.Environment <;> rfl
  simp only [Configure, hk, he, e₁, e₂]
  generalize resolvedApiKey Getenv config = key
  generalize resolvedEnvironment Getenv config = env
  by_cases h₁ : key = "" <;> by_cases h₂ : env = "" <;> by_cases h₃ : env = "sandbox" <;>
    by_cases h₄ : env = "production" <;>
    simp [h₁, h₂, h₃, h₄, Diagnostics.AppendAll, Diagnostics.HasError,
      Diagnostics.AddAttributeError, Diagnostics.AddError, Diagnostics.Append,
      missingApiKey, invalidEnvironment]

/-- C14: with known configuration values and a fresh response, `Configure`
reports an error, calls no constructor of the SDK and hands no client to data
sources or resources exactly when the resolved API key is empty or the resolved
environment is none of the empty string, `sandbox` and `production`.  The
diagnostics are then the error for the key, the error for the environment, or,
when both are at fault, both of them in this order. -/
theorem configure_rejects_iff (sdk : SDKConstructors) (Getenv : String → String)
    (config : paddleProviderModel) (hk : config.ApiKey.IsUnknown = false)
    (he : config.Environment.IsUnknown = false) :
    (((Configure sdk Getenv ⟨config, ⟨[]⟩⟩ ⟨⟨[]⟩, none, none⟩).1.Diagnostics.HasError = true ∧
        (Configure sdk Getenv ⟨config, ⟨[]⟩⟩ ⟨⟨[]⟩, none, none⟩).2 = [] ∧
        (Configure sdk Getenv ⟨config, ⟨[]⟩⟩ ⟨⟨[]⟩, none, none⟩).1.DataSourceData = none ∧
        (Configure sdk Getenv ⟨config, ⟨[]⟩⟩ ⟨⟨[]⟩, none, none⟩).1.ResourceData = none) ↔
      (resolvedApiKey Getenv config = "" ∨
        resolvedEnvironment Getenv config ∉ ["", "sandbox", "production"])) ∧
    (resolvedApiKey Getenv config = "" ∨
        resolvedEnvironment Getenv config ∉ ["", "sandbox", "production"] →
      (Configure sdk Getenv ⟨config, ⟨[]⟩⟩ ⟨⟨[]⟩, none, none⟩).1.Diagnostics.items =
        (if resolvedApiKey Getenv config = "" then [missingApiKey] else []) ++
        (if resolvedEnvironment Getenv config ∈ ["", "sandbox", "production"] then []
          else [invalidEnvironment (resolvedEnvironment Getenv config)])) := by
  rw [configure_of_known sdk Getenv config hk he]
  generalize resolvedApiKey Getenv config = key
  generalize resolvedEnvironment Getenv config = env
  by_cases h₁ : key = "" <;> by_cases h₂ : env = "" <;> by_cases h₃ : env = "sandbox" <;>
    by_cases h₄ : env = "production" <;>
    simp [h₁, h₂, h₃, h₄, Diagnostics.HasError, missingApiKey, invalidEnvironment] <;>
    (split <;> simp)

/-- Witness of C14: an empty key and the environment `staging` give both errors. -/
theorem configure_rejects_iff_witness :
    (Configure plainSDK (fun _ => "") ⟨⟨.known "", .known "staging"⟩, ⟨[]⟩⟩
      ⟨⟨[]⟩, none, none⟩).1.Diagnostics.items =
      [missingApiKey, invalidEnvironment "staging"] :=
  (configure_rejects_iff plainSDK (fun _ => "") ⟨.known "", .known "staging"⟩ rfl rfl).2
    (Or.inl rfl)

/-- C15: `Configure` resolves the key and the environment each on its own: a
configured value that is not null is taken as it is, the empty string included,
and the environment variable is read only for a null value.  With known values
and a fresh response the one constructor call, made when the key is not empty
and the environment is valid, is `NewSandbox` when the environment resolves to
`sandbox` or to the empty string, which defaults to it, and `New` for
`production`; the client that the constructor returns is handed to data sources
and resources. -/
theorem configure_resolves_independently (sdk : SDKConstructors) (Getenv : String → String)
    (config : paddleProviderModel) (hk : config.ApiKey.IsUnknown = false)
    (he : config.Environment.IsUnknown = false) :
    (∀ s, config.ApiKey = .known s → resolvedApiKey Getenv config = s) ∧
    (config.ApiKey = .null → resolvedApiKey Getenv config = Getenv "PADDLE_API_KEY") ∧
    (∀ s, config.Environment = .known s → resolvedEnvironment Getenv config = s) ∧
    (config.Environment = .null →
      resolvedEnvironment Getenv config = Getenv "PADDLE_ENVIRONMENT") ∧
    (Configure sdk Getenv ⟨config, ⟨[]⟩⟩ ⟨⟨[]⟩, none, none⟩).2 =
      (if resolvedApiKey Getenv config = "" ∨
          resolvedEnvironment Getenv config ∉ ["", "sandbox", "production"] then []
        else if resolvedEnvironment Getenv config = "production" then
          [SDKCall.New (resolvedApiKey Getenv config)]
        else [SDKCall.NewSandbox (resolvedApiKey Getenv config)]) ∧
    (∀ client,
      (resolvedApiKey Getenv config ≠ "" ∧
        ((resolvedEnvironment Getenv config ∈ ["", "sandbox"] ∧
            sdk.NewSandbox (resolvedApiKey Getenv config) = .ok client) ∨
          (resolvedEnvironment Getenv config = "production" ∧
            sdk.New (resolvedApiKey Getenv config) = .ok client))) →
      (Configure sdk Getenv ⟨config, ⟨[]⟩⟩ ⟨⟨[]⟩, none, none⟩).1 =
        ⟨⟨[]⟩, some client, some client⟩) := by
  refine ⟨?_, ?_, ?_, ?_, ?_, ?_⟩
  · intro s h; simp [resolvedApiKey, h, TfString.ValueString]
  · intro h; simp [resolvedApiKey, h]
  · intro s h; simp [resolvedEnvironment, h, TfString.ValueString]
  · intro h; simp [resolvedEnvironment, h]
  · rw [configure_of_known sdk Getenv config hk he]
    generalize resolvedApiKey Getenv config = key
    generalize resolvedEnvironment Getenv config = env
    by_cases h₁ : key = "" <;> by_cases h₂ : env = "" <;> by_cases h₃ : env = "sandbox" <;>
      by_cases h₄ : env = "production" <;>
      simp [h₁, h₂, h₃, h₄] <;> (split <;> simp)
  · intro client h
    rw [configure_of_known sdk Getenv config hk he]
    obtain ⟨hkey, h | h⟩ := h
    · obtain ⟨henv, hc⟩ := h
      simp [hkey, henv, hc]
    · obtain ⟨henv, hc⟩ := h
      simp [hkey, henv, hc]

/-- Witness of C15: an empty configured environment is not replaced by the
variable, defaults to `sandbox`, and the key comes from the variable when the
configuration omits it. -/
theorem configure_resolves_independently_witness :
    Configure plainSDK (fun name => if name = "PADDLE_API_KEY" then "key" else "production")
      ⟨⟨.null, .known ""⟩, ⟨[]⟩⟩ ⟨⟨[]⟩, none, none⟩ =
      (⟨⟨[]⟩, some ⟨true, "key"⟩, some ⟨true, "key"⟩⟩, [SDKCall.NewSandbox "key"]) :=
  Prod.ext
    ((configure_resolves_independently plainSDK
      (fun name => if name = "PADDLE_API_KEY" then "key" else "production")
      ⟨.null, .known ""⟩ rfl rfl).2.2.2.2.2 ⟨true, "key"⟩
      ⟨by decide, Or.inl ⟨by decide, rfl⟩⟩)
    (by decide)

end paddleProvider

/-! ## Theorems: the price resource -/

namespace PriceResource

theorem sendUpdate_calls (UpdatePrice : UpdatePriceRequest → Except ApiError Price)
    (plan : priceResourceModel) (resp : UpdateResponse priceResourceModel)
    (diags : Diagnostics) (updateReq : UpdatePriceRequest) :
    (sendUpdate UpdatePrice plan resp diags updateReq).2 = [updateReq] := by
  unfold sendUpdate
  split <;> rfl

theorem mutableOnly_setName (plan : priceResourceModel) (r : UpdatePriceRequest)
    (v : PatchField (Option String)) (h : MutableOnly plan r) :
    MutableOnly plan (setName r v) := h

theorem mutableOnly_setTaxMode (plan : priceResourceModel) (r : UpdatePriceRequest)
    (v : PatchField String) (h : MutableOnly plan r) : MutableOnly plan (setTaxMode r v) := h

theorem mutableOnly_setQuantity (plan : priceResourceModel) (r : UpdatePriceRequest)
    (v : PatchField PriceQuantity) (h : MutableOnly plan r) :
    MutableOnly plan (setQuantity r v) := h

theorem mutableOnly_setCustomData (plan : priceResourceModel) (r : UpdatePriceRequest)
    (v : PatchField CustomData) (h : MutableOnly plan r) :
    MutableOnly plan (setCustomData r v) := h

theorem mutableOnly_base (plan : priceResourceModel) :
    MutableOnly plan
      { PriceID := plan.ID.ValueString,
        Description := some (NewPatchField plan.Description.ValueString) } :=
  ⟨rfl, rfl, rfl, rfl, rfl, rfl, rfl, rfl⟩

theorem sendsMutableOnly_nil (plan : priceResourceModel)
    (resp : UpdateResponse priceResourceModel) : SendsMutableOnly plan (resp, []) :=
  Or.inl rfl

theorem sendsMutableOnly_ite (plan : priceResourceModel) (c : Prop) [Decidable c]
    (a b : UpdateResponse priceResourceModel × List UpdatePriceRequest)
    (ha : SendsMutableOnly plan a) (hb : SendsMutableOnly plan b) :
    SendsMutableOnly plan (if c then a else b) := by
  split <;> assumption

theorem mutableOnly_ite (plan : priceResourceModel) (c : Prop) [Decidable c]
    (a b : UpdatePriceRequest) (ha : MutableOnly plan a) (hb : MutableOnly plan b) :
    MutableOnly plan (if c then a else b) := by
  split <;> assumption

theorem sendUpdate_good (UpdatePrice : UpdatePriceRequest → Except ApiError Price)
    (plan plan' : priceResourceModel) (resp : UpdateResponse priceResourceModel)
    (diags : Diagnostics) (r : UpdatePriceRequest) (h : MutableOnly plan r) :
    SendsMutableOnly plan (sendUpdate UpdatePrice plan' resp diags r) :=
  Or.inr ⟨r, sendUpdate_calls UpdatePrice plan' resp diags r, h⟩

theorem update_calls (UpdatePrice : UpdatePriceRequest → Except ApiError Price)
    (req : UpdateRequest priceResourceModel) (resp : UpdateResponse priceResourceModel) :
    SendsMutableOnly req.Plan (Update UpdatePrice req resp) := by
  unfold Update
  simp only []
  repeat' first
    | with_reducible apply sendsMutableOnly_ite
    | with_reducible apply sendsMutableOnly_nil
    | with_reducible apply sendUpdate_good
    | with_reducible apply mutableOnly_setCustomData
    | with_reducible apply mutableOnly_setQuantity
    | with_reducible apply mutableOnly_setTaxMode
    | with_reducible apply mutableOnly_setName
    | with_reducible apply mutableOnly_ite
    | with_reducible exact mutableOnly_base _
    | split

/-- C16: `PriceResource.Update` sends at most one request, and a request that it
sends carries the identifier and the description of the plan and sets none of
the immutable fields: product, unit price, unit-price overrides, billing
cycle, trial period and status stay out of it, for every plan, every prior
state and every behaviour of the remote API. -/
theorem update_never_sends_immutable_fields
    (UpdatePrice : UpdatePriceRequest → Except ApiError Price)
    (req : UpdateRequest priceResourceModel) (resp : UpdateResponse priceResourceModel) :
    (Update UpdatePrice req resp).2.length ≤ 1 ∧
    ∀ r ∈ (Update UpdatePrice req resp).2,
      r.PriceID = req.Plan.ID.ValueString ∧
      r.Description = some (NewPatchField req.Plan.Description.ValueString) ∧
      r.ProductID = none ∧ r.UnitPrice = none ∧ r.UnitPriceOverrides = none ∧
      r.BillingCycle = none ∧ r.TrialPeriod = none ∧ r.Status = none := by
  rcases update_calls UpdatePrice req resp with h | ⟨r, h, hr⟩
  · rw [h]; simp
  · rw [h]
    refine ⟨by simp, ?_⟩
    intro r' hr'
    simp only [List.mem_singleton] at hr'
    subst hr'
    exact hr

/-- Witness of C16: the sample plan changes the description and the unit
price; the request sends the description and leaves the unit price out. -/
theorem update_never_sends_immutable_fields_witness :
    (Update (fun _ => .ok samplePrice) ⟨samplePlan, ⟨[]⟩, sampleState, ⟨[]⟩⟩
      ⟨⟨[]⟩, sampleState⟩).2 = [sampleRequest] ∧
    sampleRequest.UnitPrice = none :=
  ⟨by rfl,
    ((update_never_sends_immutable_fields (fun _ => .ok samplePrice)
      ⟨samplePlan, ⟨[]⟩, sampleState, ⟨[]⟩⟩ ⟨⟨[]⟩, sampleState⟩).2 sampleRequest
      (by
        have h : (Update (fun _ => .ok samplePrice) ⟨samplePlan, ⟨[]⟩, sampleState, ⟨[]⟩⟩
            ⟨⟨[]⟩, sampleState⟩).2 = [sampleRequest] := by rfl
        rw [h]
        exact List.mem_singleton.2 rfl)).2.2.2.1⟩

theorem planModifiers_replace :
    planModifiers "product_id" = [.RequiresReplace] ∧
    planModifiers "unit_price" = [.RequiresReplace] ∧
    planModifiers "billing_cycle" = [.RequiresReplace] ∧
    planModifiers "trial_period" = [.RequiresReplace] ∧
    planModifiers "unit_price_overrides" = [] := by
  refine ⟨?_, ?_, ?_, ?_, ?_⟩ <;> rfl

theorem mem_requiresReplace (plan state : priceResourceModel) (name : String) :
    name ∈ RequiresReplace plan state ↔
      name ∈ topLevel ∧ PlanModifier.RequiresReplace ∈ planModifiers name ∧
        attributeEqual name plan state = false := by
  simp [RequiresReplace, List.mem_filter]

theorem plannedAction_replace (plan state : priceResourceModel) (name : String)
    (h : name ∈ RequiresReplace plan state) : plannedAction plan state = .Replace := by
  unfold plannedAction
  cases hl : RequiresReplace plan state with
  | nil => rw [hl] at h; cases h
  | cons a l => rfl

/-- C17: the attributes `product_id`, `unit_price`, `billing_cycle` and
`trial_period` of the price schema each carry the plan modifier
`RequiresReplace`.  So a plan whose value for one of them differs from the
state, be it only in the amount or only in the currency of the unit price,
lists that attribute as requiring replacement, and the planned action is a
replacement and not a call of `Update`. -/
theorem immutable_attributes_require_replace (plan state : priceResourceModel) :
    (∀ name ∈ ["product_id", "unit_price", "billing_cycle", "trial_period"],
      PlanModifier.RequiresReplace ∈ planModifiers name) ∧
    (plan.ProductID ≠ state.ProductID → "product_id" ∈ RequiresReplace plan state) ∧
    (plan.UnitPrice ≠ state.UnitPrice → "unit_price" ∈ RequiresReplace plan state) ∧
    (plan.BillingCycle ≠ state.BillingCycle → "billing_cycle" ∈ RequiresReplace plan state) ∧
    (plan.TrialPeriod ≠ state.TrialPeriod → "trial_period" ∈ RequiresReplace plan state) ∧
    (plan.ProductID ≠ state.ProductID ∨ plan.UnitPrice ≠ state.UnitPrice ∨
        plan.BillingCycle ≠ state.BillingCycle ∨ plan.TrialPeriod ≠ state.TrialPeriod →
      plannedAction plan state = .Replace) ∧
    (∀ a b : unitPriceModel, a.Amount ≠ b.Amount ∨ a.CurrencyCode ≠ b.CurrencyCode →
      Tf.known a ≠ Tf.known b) := by
  obtain ⟨m₁, m₂, m₃, m₄, _⟩ := planModifiers_replace
  have h₁ : plan.ProductID ≠ state.ProductID → "product_id" ∈ RequiresReplace plan state := by
    intro h
    rw [mem_requiresReplace, m₁]
    refine ⟨by decide, by simp, ?_⟩
    simp [attributeEqual, TfString.Equal, h]
  have h₂ : plan.UnitPrice ≠ state.UnitPrice → "unit_price" ∈ RequiresReplace plan state := by
    intro h
    rw [mem_requiresReplace, m₂]
    refine ⟨by decide, by simp, ?_⟩
    simp [attributeEqual, Tf.Equal, h]
  have h₃ : plan.BillingCycle ≠ state.BillingCycle →
      "billing_cycle" ∈ RequiresReplace plan state := by
    intro h
    rw [mem_requiresReplace, m₃]
    refine ⟨by decide, by simp, ?_⟩
    simp [attributeEqual, Tf.Equal, h]
  have h₄ : plan.TrialPeriod ≠ state.TrialPeriod →
      "trial_period" ∈ RequiresReplace plan state := by
    intro h
    rw [mem_requiresReplace, m₄]
    refine ⟨by decide, by simp, ?_⟩
    simp [attributeEqual, Tf.Equal, h]
  refine ⟨?_, h₁, h₂, h₃, h₄, ?_, ?_⟩
  · intro name hn
    simp only [List.mem_cons, List.mem_singleton, List.not_mem_nil, or_false] at hn
    rcases hn with h | h | h | h <;> subst h
    · rw [m₁]; simp
    · rw [m₂]; simp
    · rw [m₃]; simp
    · rw [m₄]; simp
  · intro h
    rcases h with h | h | h | h
    · exact plannedAction_replace plan state _ (h₁ h)
    · exact plannedAction_replace plan state _ (h₂ h)
    · exact plannedAction_replace plan state _ (h₃ h)
    · exact plannedAction_replace plan state _ (h₄ h)
  · intro a b h hab
    have e : a = b := by injection hab
    subst e
    rcases h with h | h <;> exact h rfl

/-- Witness of C17: a plan that changes only the currency of the unit price is
planned as a replacement. -/
theorem immutable_attributes_require_replace_witness :
    RequiresReplace currencyPlan sampleState = ["unit_price"] ∧
    plannedAction currencyPlan sampleState = .Replace :=
  ⟨by decide,
    (immutable_attributes_require_replace currencyPlan sampleState).2.2.2.2.2.1
      (Or.inr (Or.inl (by decide)))⟩

/-- C18, evaluated on the code: the attribute `unit_price_overrides` carries no
plan modifier, although its description says that a change forces a new
resource, so no plan lists it as requiring replacement.  For the sample price
and a plan that only adds an override, the planned action is an update, and
`Update` sends nothing to the remote API and writes the planned overrides to
the state. -/
theorem overrides_change_updates_in_place :
    planModifiers "unit_price_overrides" = [] ∧
    (lookupEntries "unit_price_overrides" Schema).map (fun a => a.MarkdownDescription) =
      some "Country-specific price overrides for regional pricing strategies. Useful for purchasing power parity or local market pricing. Cannot be changed after creation - changing this will force a new resource." ∧
    (∀ plan state : priceResourceModel,
      "unit_price_overrides" ∉ RequiresReplace plan state) ∧
    overridesPlan.UnitPriceOverrides ≠ sampleState.UnitPriceOverrides ∧
    plannedAction overridesPlan sampleState = .Update ∧
    (Update (fun _ => .ok samplePrice) ⟨overridesPlan, ⟨[]⟩, sampleState, ⟨[]⟩⟩
      ⟨⟨[]⟩, sampleState⟩).2 = [] ∧
    (Update (fun _ => .ok samplePrice) ⟨overridesPlan, ⟨[]⟩, sampleState, ⟨[]⟩⟩
      ⟨⟨[]⟩, sampleState⟩).1.State.UnitPriceOverrides = overridesPlan.UnitPriceOverrides ∧
    (Update (fun _ => .ok samplePrice) ⟨overridesPlan, ⟨[]⟩, sampleState, ⟨[]⟩⟩
      ⟨⟨[]⟩, sampleState⟩).1.Diagnostics.items = [] := by
  refine ⟨rfl, rfl, ?_, by decide, by decide, by rfl, by rfl, by rfl⟩
  intro plan state h
  rw [mem_requiresReplace, planModifiers_replace.2.2.2.2] at h
  simp at h

end PriceResource

/-! ## Theorems: the `Delete` operations -/

/-- C19: `Delete` on a product, a price, a discount or a customer sends, unless
reading the state has failed, exactly one update request, which carries the
identifier recorded in state and the status `archived` and sets no other field;
`Delete` on a notification setting sends exactly one delete request for the
identifier recorded in state. -/
theorem delete_sends_one_request {Product Discount Customer : Type}
    (UpdateProduct : UpdateProductRequest → Except ApiError Product)
    (UpdatePrice : UpdatePriceRequest → Except ApiError Price)
    (UpdateDiscount : UpdateDiscountRequest → Except ApiError Discount)
    (UpdateCustomer : UpdateCustomerRequest → Except ApiError Customer)
    (DeleteNotificationSetting : DeleteNotificationSettingRequest → Option ApiError)
    (resp : DeleteResponse) :
    (∀ req : DeleteRequest productResourceModel,
      (ProductResource.Delete UpdateProduct req resp).2 =
        if (resp.Diagnostics.AppendAll req.StateDiags).HasError then []
        else [⟨req.State.ID.ValueString, none, none, none, none, none, some ⟨"archived"⟩⟩]) ∧
    (∀ req : DeleteRequest priceResourceModel,
      (PriceResource.Delete UpdatePrice req resp).2 =
        if (resp.Diagnostics.AppendAll req.StateDiags).HasError then []
        else [⟨req.State.ID.ValueString, none, none, none, none, none, some ⟨"archived"⟩,
          none, none, none, none, none⟩]) ∧
    (∀ req : DeleteRequest discountResourceModel,
      (DiscountResource.Delete UpdateDiscount req resp).2 =
        if (resp.Diagnostics.AppendAll req.StateDiags).HasError then []
        else [⟨req.State.ID.ValueString, none, none, none, none, none, none, none, none,
          none, none, none, some ⟨"archived"⟩, none, none, none⟩]) ∧
    (∀ req : DeleteRequest customerResourceModel,
      (CustomerResource.Delete UpdateCustomer req resp).2 =
        if (resp.Diagnostics.AppendAll req.StateDiags).HasError then []
        else [⟨req.State.ID.ValueString, none, none, none, none, some ⟨"archived"⟩⟩]) ∧
    (∀ req : DeleteRequest notificationSettingResourceModel,
      (NotificationSettingResource.Delete DeleteNotificationSetting req resp).2 =
        if (resp.Diagnostics.AppendAll req.StateDiags).HasError then []
        else [⟨req.State.ID.ValueString⟩]) ∧
    ((⟨[]⟩ : Diagnostics).AppendAll ⟨[]⟩).HasError = false := by
  refine ⟨?_, ?_, ?_, ?_, ?_, rfl⟩
  · intro req
    unfold ProductResource.Delete
    simp only []
    split
    · rfl
    · split <;> rfl
  · intro req
    unfold PriceResource.Delete
    simp only []
    split
    · rfl
    · split <;> rfl
  · intro req
    unfold DiscountResource.Delete
    simp only []
    split
    · rfl
    · split <;> rfl
  · intro req
    unfold CustomerResource.Delete
    simp only []
    split
    · rfl
    · split <;> rfl
  · intro req
    unfold NotificationSettingResource.Delete
    simp only []
    split
    · rfl
    · split <;> rfl

theorem hasError_addError (diags : Diagnostics) (summary detail : String) :
    (diags.AddError summary detail).HasError = true := by
  unfold Diagnostics.AddError Diagnostics.Append
  split
  · rename_i h
    simp only [Diagnostics.HasError, List.any_eq_true]
    exact ⟨⟨Severity.error, summary, detail, none⟩, by simpa using h, by simp⟩
  · simp [Diagnostics.HasError]

/-- Counterexample to C20: the remote call of `Delete` fails because the entity
does not exist remotely, and `Delete` adds an error diagnostic, for a product
as for a notification setting. -/
theorem delete_errors_on_absent_entity :
    (ProductResource.Delete (fun _ => (.error notFoundError : Except ApiError Unit))
      ⟨ProductResource.sampleState, ⟨[]⟩⟩ ⟨⟨[]⟩⟩).1.Diagnostics.items =
      [⟨.error, "Error archiving product", "Could not archive product ID pro_01: not found",
        none⟩] ∧
    (ProductResource.Delete (fun _ => (.error notFoundError : Except ApiError Unit))
      ⟨ProductResource.sampleState, ⟨[]⟩⟩ ⟨⟨[]⟩⟩).1.Diagnostics.HasError = true ∧
    (NotificationSettingResource.Delete (fun _ => some notFoundError)
      ⟨NotificationSettingResource.sampleState, ⟨[]⟩⟩ ⟨⟨[]⟩⟩).1.Diagnostics.HasError = true := by
  refine ⟨by decide, by decide, by decide⟩

/-- C20 as amended: `Delete` reports every failure of its remote call, whatever
its cause.  From a fresh response and a state read without diagnostics, each of
the five reconcilers adds one error diagnostic, which names the identifier and
the cause, when the remote call returns an error, an error for an entity that
does not exist remotely included, and adds no diagnostic when the call
succeeds. -/
theorem delete_reports_every_failure {Product Discount Customer : Type}
    (UpdateProduct : UpdateProductRequest → Except ApiError Product)
    (UpdatePrice : UpdatePriceRequest → Except ApiError Price)
    (UpdateDiscount : UpdateDiscountRequest → Except ApiError Discount)
    (UpdateCustomer : UpdateCustomerRequest → Except ApiError Customer)
    (DeleteNotificationSetting : DeleteNotificationSettingRequest → Option ApiError) :
    (∀ state : productResourceModel,
      (ProductResource.Delete UpdateProduct ⟨state, ⟨[]⟩⟩ ⟨⟨[]⟩⟩).1.Diagnostics.items =
        match UpdateProduct
          ⟨state.ID.ValueString, none, none, none, none, none, some ⟨"archived"⟩⟩ with
        | .error err =>
          [⟨.error, "Error archiving product",
            "Could not archive product ID " ++ state.ID.ValueString ++ ": " ++ err.text, none⟩]
        | .ok _ => []) ∧
    (∀ state : priceResourceModel,
      (PriceResource.Delete UpdatePrice ⟨state, ⟨[]⟩⟩ ⟨⟨[]⟩⟩).1.Diagnostics.items =
        match UpdatePrice
          ⟨state.ID.ValueString, none, none, none, none, none, some ⟨"archived"⟩,
            none, none, none, none, none⟩ with
        | .error err =>
          [⟨.error, "Error archiving price",
            "Could not archive price ID " ++ state.ID.ValueString ++ ": " ++ err.text, none⟩]
        | .ok _ => []) ∧
    (∀ state : discountResourceModel,
      (DiscountResource.Delete UpdateDiscount ⟨state, ⟨[]⟩⟩ ⟨⟨[]⟩⟩).1.Diagnostics.items =
        match UpdateDiscount
          ⟨state.ID.ValueString, none, none, none, none, none, none, none, none,
            none, none, none, some ⟨"archived"⟩, none, none, none⟩ with
        | .error err =>
          [⟨.error, "Error archiving discount",
            "Could not archive discount ID " ++ state.ID.ValueString ++ ": " ++ err.text,
            none⟩]
        | .ok _ => []) ∧
    (∀ state : customerResourceModel,
      (CustomerResource.Delete UpdateCustomer ⟨state, ⟨[]⟩⟩ ⟨⟨[]⟩⟩).1.Diagnostics.items =
        match UpdateCustomer
          ⟨state.ID.ValueString, none, none, none, none, some ⟨"archived"⟩⟩ with
        | .error err =>
          [⟨.error, "Error archiving customer",
            "Could not archive customer ID " ++ state.ID.ValueString ++ ": " ++ err.text,
            none⟩]
        | .ok _ => []) ∧
    (∀ state : notificationSettingResourceModel,
      (NotificationSettingResource.Delete DeleteNotificationSetting ⟨state, ⟨[]⟩⟩
        ⟨⟨[]⟩⟩).1.Diagnostics.items =
        match DeleteNotificationSetting ⟨state.ID.ValueString⟩ with
        | some err =>
          [⟨.error, "Error deleting notification setting",
            "Could not delete notification setting ID " ++ state.ID.ValueString ++ ": " ++
              err.text, none⟩]
        | none => []) := by
  refine ⟨?_, ?_, ?_, ?_, ?_⟩
  · intro state
    simp only [ProductResource.Delete, Diagnostics.AppendAll, List.foldl_nil,
      Diagnostics.HasError, List.any_nil, Bool.false_eq_true, if_false, NewPatchField,
      StatusArchived]
    split <;> simp_all [Diagnostics.AddError, Diagnostics.Append]
  · intro state
    simp only [PriceResource.Delete, Diagnostics.AppendAll, List.foldl_nil,
      Diagnostics.HasError, List.any_nil, Bool.false_eq_true, if_false, NewPatchField,
      StatusArchived]
    split <;> simp_all [Diagnostics.AddError, Diagnostics.Append]
  · intro state
    simp only [DiscountResource.Delete, Diagnostics.AppendAll, List.foldl_nil,
      Diagnostics.HasError, List.any_nil, Bool.false_eq_true, if_false, NewPatchField,
      StatusArchived]
    split <;> simp_all [Diagnostics.AddError, Diagnostics.Append]
  · intro state
    simp only [CustomerResource.Delete, Diagnostics.AppendAll, List.foldl_nil,
      Diagnostics.HasError, List.any_nil, Bool.false_eq_true, if_false, NewPatchField,
      StatusArchived]
    split <;> simp_all [Diagnostics.AddError, Diagnostics.Append]
  · intro state
    simp only [NotificationSettingResource.Delete, Diagnostics.AppendAll, List.foldl_nil,
      Diagnostics.HasError, List.any_nil, Bool.false_eq_true, if_false]
    split <;> simp_all [Diagnostics.AddError, Diagnostics.Append]

/-! ## The subscribed-event merge: idempotence and shape (C27, C28) -/

namespace NotificationSettingResource

theorem mem_mergeReference (old remote : List String) (e : String) :
    e ∈ mergeReference old remote ↔ e ∈ remote := by
  unfold mergeReference
  simp only [List.mem_append, List.mem_filter, decide_eq_true_eq]
  constructor
  · rintro (⟨_, h⟩ | ⟨h, _⟩) <;> exact h
  · intro h
    by_cases ho : e ∈ old
    · exact Or.inl ⟨ho, h⟩
    · exact Or.inr ⟨h, ho⟩

theorem mergeReference_fixed (M remote : List String) (h : ∀ e, e ∈ M ↔ e ∈ remote) :
    mergeReference M remote = M := by
  have e₁ : M.filter (fun e => decide (e ∈ remote)) = M := by
    rw [List.filter_eq_self]
    intro a ha
    simpa using (h a).1 ha
  have e₂ : remote.filter (fun e => decide (e ∉ M)) = [] := by
    rw [List.filter_eq_nil_iff]
    intro a ha
    simpa using (h a).2 ha
  unfold mergeReference
  rw [e₁, e₂, List.append_nil]

theorem mergeReference_idem (old remote : List String) :
    mergeReference (mergeReference old remote) remote = mergeReference old remote :=
  mergeReference_fixed _ remote (mem_mergeReference old remote)

theorem mergeReference_nodup (old remote : List String) (h₁ : old.Nodup)
    (h₂ : remote.Nodup) : (mergeReference old remote).Nodup := by
  unfold mergeReference
  rw [List.nodup_append]
  refine ⟨h₁.filter _, h₂.filter _, ?_⟩
  intro a ha hb
  simp only [List.mem_filter, decide_eq_true_eq] at ha hb
  exact hb.2 ha.1

/-- C27: the merge is idempotent against the same remote answer: for every
recorded list and every remote list, with or without repetitions, merging the
result of a first `Read` with the same remote list again returns that result,
so a second `Read` leaves the recorded order as it is. -/
theorem read_merge_idempotent (old remote : List String) :
    readSubscribedEvents (readSubscribedEvents old remote) remote =
      readSubscribedEvents old remote := by
  rw [readSubscribedEvents_eq old remote, readSubscribedEvents_eq]
  exact mergeReference_idem old remote

/-- C28: for a recorded list and a remote list without repetitions, the merge
has no repetition, is a permutation of the remote list, has its length and
holds exactly its events; and from an empty recorded list the merge is the
remote list itself, in remote order. -/
theorem read_merge_permutes_remote (old remote : List String)
    (h₁ : old.Nodup) (h₂ : remote.Nodup) :
    (readSubscribedEvents old remote).Nodup ∧
    (readSubscribedEvents old remote).Perm remote ∧
    (readSubscribedEvents old remote).length = remote.length ∧
    (∀ e, e ∈ readSubscribedEvents old remote ↔ e ∈ remote) ∧
    readSubscribedEvents [] remote = remote := by
  have hn : (readSubscribedEvents old remote).Nodup := by
    rw [readSubscribedEvents_eq]
    exact mergeReference_nodup old remote h₁ h₂
  have hm : ∀ e, e ∈ readSubscribedEvents old remote ↔ e ∈ remote := by
    intro e
    rw [readSubscribedEvents_eq]
    exact mem_mergeReference old remote e
  have hp : (readSubscribedEvents old remote).Perm remote :=
    (List.perm_ext_iff_of_nodup hn h₂).2 hm
  refine ⟨hn, hp, hp.length_eq, hm, ?_⟩
  rw [readSubscribedEvents_eq, mergeReference]
  simp

/-- Witness of C28: the recorded list `[A,B,C]` against the remote list
`[D,C,B]`. -/
theorem read_merge_permutes_remote_witness :
    (readSubscribedEvents ["A", "B", "C"] ["D", "C", "B"]).Nodup ∧
    (readSubscribedEvents ["A", "B", "C"] ["D", "C", "B"]).Perm ["D", "C", "B"] ∧
    (readSubscribedEvents ["A", "B", "C"] ["D", "C", "B"]).length = 3 ∧
    (∀ e, e ∈ readSubscribedEvents ["A", "B", "C"] ["D", "C", "B"] ↔ e ∈ ["D", "C", "B"]) ∧
    readSubscribedEvents [] ["D", "C", "B"] = ["D", "C", "B"] :=
  read_merge_permutes_remote ["A", "B", "C"] ["D", "C", "B"] (by decide) (by decide)

end NotificationSettingResource

/-! ## `CustomDataToMap` on values decoded from JSON (C29) -/

theorem encodeFloat_finite (f : Float64) (h : (!f.IsInf && !f.IsNaN) = true) :
    ∃ s, json.encodeFloat f = .ok s := by
  have h' : (f.IsInf || f.IsNaN) = false := by
    cases h₁ : f.IsInf <;> cases h₂ : f.IsNaN <;> simp [h₁, h₂] at h ⊢
  unfold json.encodeFloat
  rw [h']
  simp only [Bool.false_eq_true, if_false]
  split
  · split
    · exact ⟨_, rfl⟩
    · exact ⟨_, rfl⟩
  · exact ⟨_, rfl⟩

theorem joinElements_ok (l : List (Except String String))
    (h : ∀ x ∈ l, ∃ s, x = .ok s) : ∃ s, json.joinElements l = .ok s := by
  induction l with
  | nil => exact ⟨_, rfl⟩
  | cons x rest ih =>
    obtain ⟨s, hs⟩ := h x (by simp)
    obtain ⟨t, ht⟩ := ih (fun y hy => h y (by simp [hy]))
    subst hs
    cases rest with
    | nil => exact ⟨_, rfl⟩
    | cons y rest' =>
      refine ⟨s ++ "," ++ t, ?_⟩
      rw [json.joinElements]
      · simp only [ht]
      · simp

mutual

theorem marshal_jsonShaped (v : GoValue) (h : v.JSONShaped = true) :
    ∃ s, json.Marshal v = .ok s := by
  cases v with
  | nil => exact ⟨_, rfl⟩
  | string s => exact ⟨_, rfl⟩
  | bool b => exact ⟨_, rfl⟩
  | int i => exact ⟨_, rfl⟩
  | int64 i => exact ⟨_, rfl⟩
  | float64 f =>
    rw [GoValue.JSONShaped] at h
    simpa [json.Marshal] using encodeFloat_finite f h
  | slice xs =>
    rw [GoValue.JSONShaped] at h
    obtain ⟨s, hs⟩ := joinElements_ok _ (marshalElements_jsonShaped xs h)
    exact ⟨"[" ++ s ++ "]", by rw [json.Marshal, hs]⟩
  | map kvs =>
    rw [GoValue.JSONShaped] at h
    have hm := marshalMembers_jsonShaped kvs h
    have hall : ∀ x ∈ (json.sortMembers (json.marshalMembers kvs)).map json.member,
        ∃ s, x = .ok s := by
      intro x hx
      obtain ⟨kv, hkv, rfl⟩ := List.mem_map.1 hx
      obtain ⟨t, ht⟩ := hm kv ((mem_sortMembers kv _).1 hkv)
      exact ⟨_, by rw [json.member, ht]⟩
    obtain ⟨s, hs⟩ := joinElements_ok _ hall
    exact ⟨"\x7b" ++ s ++ "\x7d", by rw [json.Marshal, hs]⟩
  | unsupported t => simp [GoValue.JSONShaped] at h

theorem marshalElements_jsonShaped (xs : List GoValue) (h : jsonShapedElements xs = true) :
    ∀ x ∈ json.marshalElements xs, ∃ s, x = .ok s := by
  cases xs with
  | nil => simp [json.marshalElements]
  | cons y ys =>
    rw [jsonShapedElements, Bool.and_eq_true] at h
    intro x hx
    rw [json.marshalElements] at hx
    rcases List.mem_cons.1 hx with hx | hx
    · rw [hx]
      exact marshal_jsonShaped y h.1
    · exact marshalElements_jsonShaped ys h.2 x hx

theorem marshalMembers_jsonShaped (kvs : List (String × GoValue))
    (h : jsonShapedMembers kvs = true) :
    ∀ kv ∈ json.marshalMembers kvs, ∃ s, kv.2 = .ok s := by
  cases kvs with
  | nil => simp [json.marshalMembers]
  | cons p rest =>
    obtain ⟨k, v⟩ := p
    rw [jsonShapedMembers, Bool.and_eq_true] at h
    intro kv hkv
    rw [json.marshalMembers] at hkv
    rcases List.mem_cons.1 hkv with hkv | hkv
    · rw [hkv]
      exact marshal_jsonShaped v h.1
    · exact marshalMembers_jsonShaped rest h.2 kv hkv

end

theorem strValue_jsonShaped (v : GoValue) (h : v.JSONShaped = true) :
    strValue v = .ok (storedString v) := by
  have key : ∃ s, strValue v = .ok s := by
    cases v with
    | nil => exact ⟨_, rfl⟩
    | string s => exact ⟨_, rfl⟩
    | bool b => exact ⟨_, rfl⟩
    | int i => exact ⟨_, rfl⟩
    | int64 i => exact ⟨_, rfl⟩
    | float64 f => exact ⟨_, rfl⟩
    | slice xs => exact marshal_jsonShaped _ h
    | map kvs => exact marshal_jsonShaped _ h
    | unsupported t => simp [GoValue.JSONShaped] at h
  obtain ⟨s, hs⟩ := key
  rw [storedString, hs]

/-- C29: `CustomDataToMap` is total on data decoded from JSON.  For every
custom-data map whose values are built only from null, booleans, numbers,
strings, arrays and objects with string keys, it returns a nil error, and a
map exactly when the input is not nil: the branch that reports a failure of
`json.Marshal` is not taken. -/
theorem customDataToMap_total_on_json (c : CustomData) (h : jsonShapedData c = true) :
    (CustomDataToMap c).2 = none ∧ ((CustomDataToMap c).1.isSome = c.isSome) := by
  cases c with
  | none => exact ⟨rfl, rfl⟩
  | some m =>
    have hall : ∀ kv ∈ m.entries, strValue kv.2 = .ok (storedString kv.2) := by
      intro kv hkv
      apply strValue_jsonShaped
      rw [jsonShapedData, List.all_eq_true] at h
      exact h kv hkv
    rw [CustomDataToMap, customDataLoop_ok m.entries GoMap.empty hall]
    exact ⟨rfl, rfl⟩

/-- Witness of C29: a nested document with a number, a null, an array and an
object. -/
theorem customDataToMap_total_on_json_witness :
    (CustomDataToMap (some (GoMap.lit [("tier", .string "gold"), ("seats", .float64 (Float64.ofNat 3)),
        ("tags", .slice [.string "a", .nil, .bool true]),
        ("owner", .map [("id", .float64 (Float64.ofNat 7))])]))).2 = none ∧
    (CustomDataToMap (some (GoMap.lit [("tier", .string "gold"), ("seats", .float64 (Float64.ofNat 3)),
        ("tags", .slice [.string "a", .nil, .bool true]),
        ("owner", .map [("id", .float64 (Float64.ofNat 7))])]))).1.isSome = true :=
  customDataToMap_total_on_json _ (by decide)

/-! ## `PercentageAmountValidator` on a text that is not a number (C26) -/

/-- C26: the validator accepts the text `NaN`.  `strconv.ParseFloat` reads it
without error as the double NaN, and both comparisons `amount < 0.01` and
`amount > 100` are false on NaN, so no diagnostic is added, whatever the
reading of ordinary numbers is; the infinities, which are read as well, are
rejected by the comparisons. -/
theorem percentage_validator_accepts_nan (readNumber : String → Except String Float64)
    (p : Path) :
    strconv.ParseFloat readNumber "NaN" = .ok strconv.NaN ∧
    strconv.NaN.IsNaN = true ∧
    PercentageAmountValidator.ValidateString (strconv.ParseFloat readNumber)
      ⟨p, TfString.StringValue "NaN"⟩ ⟨⟨[]⟩⟩ = ⟨⟨[]⟩⟩ ∧
    (PercentageAmountValidator.ValidateString (strconv.ParseFloat readNumber)
      ⟨p, TfString.StringValue "nan"⟩ ⟨⟨[]⟩⟩).Diagnostics.HasError = false ∧
    (PercentageAmountValidator.ValidateString (strconv.ParseFloat readNumber)
      ⟨p, TfString.StringValue "+Inf"⟩ ⟨⟨[]⟩⟩).Diagnostics.HasError = true ∧
    (PercentageAmountValidator.ValidateString (strconv.ParseFloat readNumber)
      ⟨p, TfString.StringValue "-infinity"⟩ ⟨⟨[]⟩⟩).Diagnostics.HasError = true := by
  have e₁ : strconv.ParseFloat readNumber "NaN" = .ok strconv.NaN := rfl
  have e₂ : strconv.ParseFloat readNumber "nan" = .ok strconv.NaN := rfl
  have e₃ : strconv.ParseFloat readNumber "+Inf" = .ok (strconv.Inf false) := rfl
  have e₄ : strconv.ParseFloat readNumber "-infinity" = .ok (strconv.Inf true) := rfl
  refine ⟨e₁, by decide, ?_, ?_, ?_, ?_⟩
  · simp only [PercentageAmountValidator.ValidateString, e₁]
    rfl
  · simp only [PercentageAmountValidator.ValidateString, e₂]
    rfl
  · simp only [PercentageAmountValidator.ValidateString, e₃]
    rfl
  · simp only [PercentageAmountValidator.ValidateString, e₄]
    rfl

/-! ## When `PriceResource.Update` calls the remote API (C30) -/

theorem hasError_append (a : Diagnostics) (d : Diagnostic) :
    (a.Append d).HasError = (a.HasError || (d.severity == Severity.error)) := by
  unfold Diagnostics.Append
  split
  · rename_i h
    cases hd : (d.severity == Severity.error)
    · simp
    · have : a.HasError = true := by
        simp only [Diagnostics.HasError, List.any_eq_true]
        exact ⟨d, by simpa using h, hd⟩
      simp [this]
  · simp [Diagnostics.HasError, List.any_append]

theorem hasError_appendAll (a b : Diagnostics) :
    (a.AppendAll b).HasError = (a.HasError || b.HasError) := by
  obtain ⟨l⟩ := b
  unfold Diagnostics.AppendAll
  induction l generalizing a with
  | nil => simp [Diagnostics.HasError]
  | cons d rest ih =>
    rw [List.foldl_cons, ih, hasError_append]
    simp [Diagnostics.HasError, Bool.or_assoc]

namespace PriceResource

theorem hasChanges_iff (plan state : priceResourceModel) :
    (!plan.Description.Equal state.Description || !plan.Name.Equal state.Name ||
      !plan.TaxMode.Equal state.TaxMode || !plan.Quantity.Equal state.Quantity ||
      !TfMap.Equal plan.CustomData state.CustomData) = true ↔
    MutableFieldsDiffer plan state := by
  simp [MutableFieldsDiffer, TfString.Equal, Tf.Equal, or_assoc]

theorem update_without_changes (UpdatePrice : UpdatePriceRequest → Except ApiError Price)
    (req : UpdateRequest priceResourceModel) (resp : UpdateResponse priceResourceModel)
    (h₀ : ((resp.Diagnostics.AppendAll req.PlanDiags).AppendAll req.StateDiags).HasError = false)
    (hc : ¬ MutableFieldsDiffer req.Plan req.State) :
    Update UpdatePrice req resp =
      ({ Diagnostics := (resp.Diagnostics.AppendAll req.PlanDiags).AppendAll req.StateDiags,
         State := { req.Plan with UpdatedAt := req.State.UpdatedAt, Status := req.State.Status } },
        []) := by
  rw [← hasChanges_iff, Bool.not_eq_true] at hc
  unfold Update
  simp only [h₀, hc]
  rfl

theorem update_with_changes (UpdatePrice : UpdatePriceRequest → Except ApiError Price)
    (req : UpdateRequest priceResourceModel) (resp : UpdateResponse priceResourceModel)
    (h₀ : ((resp.Diagnostics.AppendAll req.PlanDiags).AppendAll req.StateDiags).HasError = false)
    (hc : MutableFieldsDiffer req.Plan req.State) :
    (Converts req.Plan → ∃ r, (Update UpdatePrice req resp).2 = [r]) ∧
    (¬ Converts req.Plan → (Update UpdatePrice req resp).2 = [] ∧
      (Update UpdatePrice req resp).1.Diagnostics.HasError = true ∧
      (Update UpdatePrice req resp).1.State = resp.State) := by
  rw [← hasChanges_iff] at hc
  unfold Update Converts
  simp only [h₀, hc, hasError_appendAll, Bool.false_or, Bool.not_true, Bool.false_eq_true,
    if_false]
  cases hu : (Tf.As req.Plan.UnitPrice).2.HasError
  · have hq : (if (!req.Plan.Quantity.IsNull && !req.Plan.Quantity.IsUnknown) = true then
          (((resp.Diagnostics.AppendAll req.PlanDiags).AppendAll req.StateDiags).AppendAll
            (Tf.As req.Plan.UnitPrice).2).AppendAll (Tf.As req.Plan.Quantity).2
        else ((resp.Diagnostics.AppendAll req.PlanDiags).AppendAll req.StateDiags).AppendAll
            (Tf.As req.Plan.UnitPrice).2).HasError = false := by
      split
      · rename_i h
        rw [hasError_appendAll, hasError_appendAll, h₀, hu]
        cases hq : req.Plan.Quantity with
        | null => simp [hq, Tf.IsNull] at h
        | unknown => simp [hq, Tf.IsNull, Tf.IsUnknown] at h
        | known q => rfl
      · rw [hasError_appendAll, h₀, hu]
        rfl
    simp only [hq, Bool.false_eq_true, if_false, true_and]
    cases hm : req.Plan.CustomData with
    | null =>
      simp only [sendUpdate_calls]
      simp
    | unknown =>
      simp only [sendUpdate_calls]
      simp
    | known elems =>
      simp only [hasError_appendAll, hq, Bool.false_or]
      cases he : (TfMap.ElementsAs elems).2.HasError
      · simp only [Bool.false_eq_true, if_false, sendUpdate_calls]
        simp [he]
      · simp only [if_true]
        simp [he, hasError_appendAll]
  · simp [hasError_appendAll, hu]

/-- Counterexample to C30: a plan that changes the description of the sample
price and holds a null element in its custom data differs from the state in
two of the five fields, and `Update` issues no remote call for it: reading the
custom data into a map of Go strings fails, and `Update` returns with that error
and the state it was given. -/
theorem update_differs_without_call :
    nullElementPlan.Description ≠ sampleState.Description ∧
    MutableFieldsDiffer nullElementPlan sampleState ∧
    (Update (fun _ => .ok samplePrice) ⟨nullElementPlan, ⟨[]⟩, sampleState, ⟨[]⟩⟩
      ⟨⟨[]⟩, sampleState⟩).2 = [] ∧
    (Update (fun _ => .ok samplePrice) ⟨nullElementPlan, ⟨[]⟩, sampleState, ⟨[]⟩⟩
      ⟨⟨[]⟩, sampleState⟩).1.Diagnostics.HasError = true := by
  refine ⟨by decide, Or.inl (by decide), rfl, rfl⟩

/-- C30, amended: when the plan and the state were read without an error,
`Update` issues a remote call, and then exactly one, if and only if the plan
differs from the state in at least one of description, name, tax mode, quantity
and custom data and the plan converts into a request (a known unit price, no
null or unknown element of custom data).  When none of the five differs,
whatever else does, it makes no remote call and writes the plan to state with
`updated_at` and `status` copied from the prior state. -/
theorem update_calls_iff_change_converts
    (UpdatePrice : UpdatePriceRequest → Except ApiError Price)
    (req : UpdateRequest priceResourceModel) (resp : UpdateResponse priceResourceModel)
    (h₀ : ((resp.Diagnostics.AppendAll req.PlanDiags).AppendAll req.StateDiags).HasError =
      false) :
    ((Update UpdatePrice req resp).2 ≠ [] ↔
      MutableFieldsDiffer req.Plan req.State ∧ Converts req.Plan) ∧
    ((∃ r, (Update UpdatePrice req resp).2 = [r]) ↔
      MutableFieldsDiffer req.Plan req.State ∧ Converts req.Plan) ∧
    (¬ MutableFieldsDiffer req.Plan req.State →
      Update UpdatePrice req resp =
        ({ Diagnostics := (resp.Diagnostics.AppendAll req.PlanDiags).AppendAll req.StateDiags,
           State :=
            { req.Plan with UpdatedAt := req.State.UpdatedAt, Status := req.State.Status } },
          [])) := by
  have key : (∃ r, (Update UpdatePrice req resp).2 = [r]) ↔
      MutableFieldsDiffer req.Plan req.State ∧ Converts req.Plan := by
    by_cases hc : MutableFieldsDiffer req.Plan req.State
    · obtain ⟨h₁, h₂⟩ := update_with_changes UpdatePrice req resp h₀ hc
      by_cases hv : Converts req.Plan
      · exact ⟨fun _ => ⟨hc, hv⟩, fun _ => h₁ hv⟩
      · refine ⟨fun ⟨r, hr⟩ => ?_, fun h => absurd h.2 hv⟩
        rw [(h₂ hv).1] at hr
        cases hr
    · refine ⟨fun ⟨r, hr⟩ => ?_, fun h => absurd h.1 hc⟩
      rw [update_without_changes UpdatePrice req resp h₀ hc] at hr
      cases hr
  refine ⟨?_, key, update_without_changes UpdatePrice req resp h₀⟩
  rw [← key]
  constructor
  · intro h
    rcases update_calls UpdatePrice req resp with h' | ⟨r, hr, _⟩
    · exact absurd h' h
    · exact ⟨r, hr⟩
  · rintro ⟨r, hr⟩
    rw [hr]
    simp

/-- Witness of C30: the sample plan, which changes the description, against
the sample state. -/
theorem update_calls_iff_change_converts_witness :
    ((Update (fun _ => .ok samplePrice) ⟨samplePlan, ⟨[]⟩, sampleState, ⟨[]⟩⟩
        ⟨⟨[]⟩, sampleState⟩).2 ≠ [] ↔
      MutableFieldsDiffer samplePlan sampleState ∧ Converts samplePlan) ∧
    ((∃ r, (Update (fun _ => .ok samplePrice) ⟨samplePlan, ⟨[]⟩, sampleState, ⟨[]⟩⟩
        ⟨⟨[]⟩, sampleState⟩).2 = [r]) ↔
      MutableFieldsDiffer samplePlan sampleState ∧ Converts samplePlan) ∧
    (¬ MutableFieldsDiffer samplePlan sampleState →
      Update (fun _ => .ok samplePrice) ⟨samplePlan, ⟨[]⟩, sampleState, ⟨[]⟩⟩
          ⟨⟨[]⟩, sampleState⟩ =
        ({ Diagnostics := ((⟨[]⟩ : Diagnostics).AppendAll ⟨[]⟩).AppendAll ⟨[]⟩,
           State :=
            { samplePlan with UpdatedAt := sampleState.UpdatedAt,
                              Status := sampleState.Status } },
          [])) :=
  update_calls_iff_change_converts (fun _ => .ok samplePrice)
    ⟨samplePlan, ⟨[]⟩, sampleState, ⟨[]⟩⟩ ⟨⟨[]⟩, sampleState⟩ rfl

end PriceResource

/-! ## A failed remote call leaves the state as it was (C22) -/

theorem failsClosed_nil {Req Ent S : Type} (client : Req → Except ApiError Ent)
    (diags : Diagnostics) (before after : S) :
    FailsClosed client [] diags before after := by
  intro r hr
  cases hr

theorem failsClosed_error {Req Ent S : Type} (client : Req → Except ApiError Ent) (r : Req)
    (diags : Diagnostics) (summary detail : String) (before : S) :
    FailsClosed client [r] (diags.AddError summary detail) before before :=
  fun _ _ _ _ => ⟨hasError_addError diags summary detail, rfl⟩

theorem failsClosed_ok {Req Ent S : Type} (client : Req → Except ApiError Ent) (r : Req)
    (x : Ent) (h : client r = .ok x) (diags : Diagnostics) (before after : S) :
    FailsClosed client [r] diags before after := by
  intro r' hr err herr
  rw [List.mem_singleton.1 hr, h] at herr
  cases herr

theorem ProductResource.product_sendCreate_failsClosed
    (client : CreateProductRequest → Except ApiError Product)
    (data : productResourceModel) (resp : CreateResponse productResourceModel)
    (diags : Diagnostics) (r : CreateProductRequest) :
    FailsClosed client (ProductResource.sendCreate client data resp diags r).2
      (ProductResource.sendCreate client data resp diags r).1.Diagnostics resp.State
      (ProductResource.sendCreate client data resp diags r).1.State := by
  unfold ProductResource.sendCreate
  split
  · exact failsClosed_error _ _ _ _ _ _
  · rename_i h
    exact failsClosed_ok _ _ _ h _ _ _

theorem ProductResource.product_create_failsClosed
    (client : CreateProductRequest → Except ApiError Product)
    (req : CreateRequest productResourceModel) (resp : CreateResponse productResourceModel) :
    FailsClosed client (ProductResource.Create client req resp).2
      (ProductResource.Create client req resp).1.Diagnostics resp.State
      (ProductResource.Create client req resp).1.State := by
  unfold ProductResource.Create
  simp only []
  repeat' first
    | exact failsClosed_nil _ _ _ _
    | exact ProductResource.product_sendCreate_failsClosed _ _ _ _ _
    | split

theorem ProductResource.product_sendUpdate_failsClosed
    (client : UpdateProductRequest → Except ApiError Product)
    (data : productResourceModel) (resp : UpdateResponse productResourceModel)
    (diags : Diagnostics) (r : UpdateProductRequest) :
    FailsClosed client (ProductResource.sendUpdate client data resp diags r).2
      (ProductResource.sendUpdate client data resp diags r).1.Diagnostics resp.State
      (ProductResource.sendUpdate client data resp diags r).1.State := by
  unfold ProductResource.sendUpdate
  split
  · exact failsClosed_error _ _ _ _ _ _
  · rename_i h
    exact failsClosed_ok _ _ _ h _ _ _

theorem ProductResource.product_update_failsClosed
    (client : UpdateProductRequest → Except ApiError Product)
    (req : UpdateRequest productResourceModel) (resp : UpdateResponse productResourceModel) :
    FailsClosed client (ProductResource.Update client req resp).2
      (ProductResource.Update client req resp).1.Diagnostics resp.State
      (ProductResource.Update client req resp).1.State := by
  unfold ProductResource.Update
  simp only []
  repeat' first
    | exact failsClosed_nil _ _ _ _
    | exact ProductResource.product_sendUpdate_failsClosed _ _ _ _ _
    | split

theorem ProductResource.product_read_failsClosed
    (client : GetProductRequest → Except ApiError Product)
    (req : ReadRequest productResourceModel) (resp : ReadResponse productResourceModel) :
    FailsClosed client (ProductResource.Read client req resp).2
      (ProductResource.Read client req resp).1.Diagnostics resp.State
      (ProductResource.Read client req resp).1.State := by
  unfold ProductResource.Read
  simp only []
  repeat' first
    | exact failsClosed_nil _ _ _ _
    | exact failsClosed_error _ _ _ _ _ _
    | (rename_i h; exact failsClosed_ok _ _ _ h _ _ _)
    | split

theorem CustomerResource.customer_sendCreate_failsClosed
    (client : CreateCustomerRequest → Except ApiError Customer)
    (data : customerResourceModel) (resp : CreateResponse customerResourceModel)
    (diags : Diagnostics) (r : CreateCustomerRequest) :
    FailsClosed client (CustomerResource.sendCreate client data resp diags r).2
      (CustomerResource.sendCreate client data resp diags r).1.Diagnostics resp.State
      (CustomerResource.sendCreate client data resp diags r).1.State := by
  unfold CustomerResource.sendCreate
  split
  · exact failsClosed_error _ _ _ _ _ _
  · rename_i h
    exact failsClosed_ok _ _ _ h _ _ _

theorem CustomerResource.customer_create_failsClosed
    (client : CreateCustomerRequest → Except ApiError Customer)
    (req : CreateRequest customerResourceModel) (resp : CreateResponse customerResourceModel) :
    FailsClosed client (CustomerResource.Create client req resp).2
      (CustomerResource.Create client req resp).1.Diagnostics resp.State
      (CustomerResource.Create client req resp).1.State := by
  unfold CustomerResource.Create
  simp only []
  repeat' first
    | exact failsClosed_nil _ _ _ _
    | exact CustomerResource.customer_sendCreate_failsClosed _ _ _ _ _
    | split

theorem CustomerResource.customer_sendUpdate_failsClosed
    (client : UpdateCustomerRequest → Except ApiError Customer)
    (data : customerResourceModel) (resp : UpdateResponse customerResourceModel)
    (diags : Diagnostics) (r : UpdateCustomerRequest) :
    FailsClosed client (CustomerResource.sendUpdate client data resp diags r).2
      (CustomerResource.sendUpdate client data resp diags r).1.Diagnostics resp.State
      (CustomerResource.sendUpdate client data resp diags r).1.State := by
  unfold CustomerResource.sendUpdate
  split
  · exact failsClosed_error _ _ _ _ _ _
  · rename_i h
    exact failsClosed_ok _ _ _ h _ _ _

theorem CustomerResource.customer_update_failsClosed
    (client : UpdateCustomerRequest → Except ApiError Customer)
    (req : UpdateRequest customerResourceModel) (resp : UpdateResponse customerResourceModel) :
    FailsClosed client (CustomerResource.Update client req resp).2
      (CustomerResource.Update client req resp).1.Diagnostics resp.State
      (CustomerResource.Update client req resp).1.State := by
  unfold CustomerResource.Update
  simp only []
  repeat' first
    | exact failsClosed_nil _ _ _ _
    | exact CustomerResource.customer_sendUpdate_failsClosed _ _ _ _ _
    | split

theorem CustomerResource.customer_read_failsClosed
    (client : GetCustomerRequest → Except ApiError Customer)
    (req : ReadRequest customerResourceModel) (resp : ReadResponse customerResourceModel) :
    FailsClosed client (CustomerResource.Read client req resp).2
      (CustomerResource.Read client req resp).1.Diagnostics resp.State
      (CustomerResource.Read client req resp).1.State := by
  unfold CustomerResource.Read
  simp only []
  repeat' first
    | exact failsClosed_nil _ _ _ _
    | exact failsClosed_error _ _ _ _ _ _
    | (rename_i h; exact failsClosed_ok _ _ _ h _ _ _)
    | split

theorem DiscountResource.discount_sendCreate_failsClosed
    (client : CreateDiscountRequest → Except ApiError Discount)
    (data : discountResourceModel) (resp : CreateResponse discountResourceModel)
    (diags : Diagnostics) (r : CreateDiscountRequest) :
    FailsClosed client (DiscountResource.sendCreate client data resp diags r).2
      (DiscountResource.sendCreate client data resp diags r).1.Diagnostics resp.State
      (DiscountResource.sendCreate client data resp diags r).1.State := by
  unfold DiscountResource.sendCreate
  split
  · exact failsClosed_error _ _ _ _ _ _
  · rename_i h
    exact failsClosed_ok _ _ _ h _ _ _

theorem DiscountResource.discount_create_failsClosed
    (client : CreateDiscountRequest → Except ApiError Discount)
    (req : CreateRequest discountResourceModel) (resp : CreateResponse discountResourceModel) :
    FailsClosed client (DiscountResource.Create client req resp).2
      (DiscountResource.Create client req resp).1.Diagnostics resp.State
      (DiscountResource.Create client req resp).1.State := by
  unfold DiscountResource.Create
  simp only []
  repeat' first
    | exact failsClosed_nil _ _ _ _
    | exact DiscountResource.discount_sendCreate_failsClosed _ _ _ _ _
    | split

theorem DiscountResource.discount_sendUpdate_failsClosed
    (client : UpdateDiscountRequest → Except ApiError Discount)
    (data : discountResourceModel) (resp : UpdateResponse discountResourceModel)
    (diags : Diagnostics) (r : UpdateDiscountRequest) :
    FailsClosed client (DiscountResource.sendUpdate client data resp diags r).2
      (DiscountResource.sendUpdate client data resp diags r).1.Diagnostics resp.State
      (DiscountResource.sendUpdate client data resp diags r).1.State := by
  unfold DiscountResource.sendUpdate
  split
  · exact failsClosed_error _ _ _ _ _ _
  · rename_i h
    exact failsClosed_ok _ _ _ h _ _ _

theorem DiscountResource.discount_update_failsClosed
    (client : UpdateDiscountRequest → Except ApiError Discount)
    (req : UpdateRequest discountResourceModel) (resp : UpdateResponse discountResourceModel) :
    FailsClosed client (DiscountResource.Update client req resp).2
      (DiscountResource.Update client req resp).1.Diagnostics resp.State
      (DiscountResource.Update client req resp).1.State := by
  unfold DiscountResource.Update
  simp only []
  repeat' first
    | exact failsClosed_nil _ _ _ _
    | exact DiscountResource.discount_sendUpdate_failsClosed _ _ _ _ _
    | split

theorem DiscountResource.discount_read_failsClosed
    (client : GetDiscountRequest → Except ApiError Discount)
    (req : ReadRequest discountResourceModel) (resp : ReadResponse discountResourceModel) :
    FailsClosed client (DiscountResource.Read client req resp).2
      (DiscountResource.Read client req resp).1.Diagnostics resp.State
      (DiscountResource.Read client req resp).1.State := by
  unfold DiscountResource.Read
  simp only []
  repeat' first
    | exact failsClosed_nil _ _ _ _
    | exact failsClosed_error _ _ _ _ _ _
    | (rename_i h; exact failsClosed_ok _ _ _ h _ _ _)
    | split

theorem NotificationSettingResource.notification_create_failsClosed
    (client : CreateNotificationSettingRequest → Except ApiError NotificationSetting)
    (req : CreateRequest notificationSettingResourceModel) (resp : CreateResponse notificationSettingResourceModel) :
    FailsClosed client (NotificationSettingResource.Create client req resp).2
      (NotificationSettingResource.Create client req resp).1.Diagnostics resp.State
      (NotificationSettingResource.Create client req resp).1.State := by
  unfold NotificationSettingResource.Create
  simp only []
  repeat' first
    | exact failsClosed_nil _ _ _ _
    | exact failsClosed_error _ _ _ _ _ _
    | (rename_i h; exact failsClosed_ok _ _ _ h _ _ _)
    | split

theorem NotificationSettingResource.notification_update_failsClosed
    (client : UpdateNotificationSettingRequest → Except ApiError NotificationSetting)
    (req : UpdateRequest notificationSettingResourceModel) (resp : UpdateResponse notificationSettingResourceModel) :
    FailsClosed client (NotificationSettingResource.Update client req resp).2
      (NotificationSettingResource.Update client req resp).1.Diagnostics resp.State
      (NotificationSettingResource.Update client req resp).1.State := by
  unfold NotificationSettingResource.Update
  simp only []
  repeat' first
    | exact failsClosed_nil _ _ _ _
    | exact failsClosed_error _ _ _ _ _ _
    | (rename_i h; exact failsClosed_ok _ _ _ h _ _ _)
    | split

theorem NotificationSettingResource.notification_read_failsClosed
    (client : GetNotificationSettingRequest → Except ApiError NotificationSetting)
    (req : ReadRequest notificationSettingResourceModel) (resp : ReadResponse notificationSettingResourceModel) :
    FailsClosed client (NotificationSettingResource.Read client req resp).2
      (NotificationSettingResource.Read client req resp).1.Diagnostics resp.State
      (NotificationSettingResource.Read client req resp).1.State := by
  unfold NotificationSettingResource.Read
  simp only []
  repeat' first
    | exact failsClosed_nil _ _ _ _
    | exact failsClosed_error _ _ _ _ _ _
    | (rename_i h; exact failsClosed_ok _ _ _ h _ _ _)
    | split

theorem PriceResource.price_create_failsClosed
    (client : CreatePriceRequest → Except ApiError Price)
    (req : CreateRequest priceResourceModel) (resp : CreateResponse priceResourceModel) :
    FailsClosed client (PriceResource.Create client req resp).2
      (PriceResource.Create client req resp).1.Diagnostics resp.State
      (PriceResource.Create client req resp).1.State := by
  unfold PriceResource.Create
  simp only []
  repeat' first
    | exact failsClosed_nil _ _ _ _
    | exact failsClosed_error _ _ _ _ _ _
    | (rename_i h; exact failsClosed_ok _ _ _ h _ _ _)
    | split

theorem PriceResource.price_read_failsClosed
    (client : GetPriceRequest → Except ApiError Price)
    (req : ReadRequest priceResourceModel) (resp : ReadResponse priceResourceModel) :
    FailsClosed client (PriceResource.Read client req resp).2
      (PriceResource.Read client req resp).1.Diagnostics resp.State
      (PriceResource.Read client req resp).1.State := by
  unfold PriceResource.Read
  simp only []
  repeat' first
    | exact failsClosed_nil _ _ _ _
    | exact failsClosed_error _ _ _ _ _ _
    | (rename_i h; exact failsClosed_ok _ _ _ h _ _ _)
    | split

theorem PriceResource.price_sendUpdate_failsClosed
    (client : UpdatePriceRequest → Except ApiError Price)
    (data : priceResourceModel) (resp : UpdateResponse priceResourceModel)
    (diags : Diagnostics) (r : UpdatePriceRequest) :
    FailsClosed client (PriceResource.sendUpdate client data resp diags r).2
      (PriceResource.sendUpdate client data resp diags r).1.Diagnostics resp.State
      (PriceResource.sendUpdate client data resp diags r).1.State := by
  unfold PriceResource.sendUpdate
  split
  · exact failsClosed_error _ _ _ _ _ _
  · rename_i h
    exact failsClosed_ok _ _ _ h _ _ _

theorem prop_ite {α : Type} (P : α → Prop) (c : Prop) [Decidable c] (a b : α)
    (ha : P a) (hb : P b) : P (if c then a else b) := by
  split <;> assumption

/-- Case analysis on `PriceResource.Update`: either it sends nothing, or it
ends with `sendUpdate`. -/
theorem PriceResource.update_cases (client : UpdatePriceRequest → Except ApiError Price)
    (req : UpdateRequest priceResourceModel) (resp : UpdateResponse priceResourceModel)
    (P : UpdateResponse priceResourceModel × List UpdatePriceRequest → Prop)
    (hnil : ∀ r, P (r, []))
    (hsend : ∀ diags r, P (PriceResource.sendUpdate client req.Plan resp diags r)) :
    P (PriceResource.Update client req resp) := by
  unfold PriceResource.Update
  simp only []
  repeat' first
    | with_reducible apply prop_ite P
    | with_reducible apply hnil
    | with_reducible apply hsend
    | split

theorem PriceResource.price_update_failsClosed
    (client : UpdatePriceRequest → Except ApiError Price)
    (req : UpdateRequest priceResourceModel) (resp : UpdateResponse priceResourceModel) :
    FailsClosed client (PriceResource.Update client req resp).2
      (PriceResource.Update client req resp).1.Diagnostics resp.State
      (PriceResource.Update client req resp).1.State :=
  PriceResource.update_cases client req resp
    (fun out => FailsClosed client out.2 out.1.Diagnostics resp.State out.1.State)
    (fun _ => failsClosed_nil _ _ _ _)
    (fun _ _ => PriceResource.price_sendUpdate_failsClosed _ _ _ _ _)

/-- C22: a failed remote call leaves the state as it was.  For each of the
five resources and each of `Create`, `Read` and `Update`, with any client: if
a request that the operation sent was answered with an error, the response
holds an error diagnostic and its state is the state it held before the
operation, absent for `Create` and the recorded one for `Read` and `Update`.
On the sample customer plan, a `Create` whose call fails sends its one request
and leaves the state absent. -/
theorem failed_call_leaves_state :
    (∀ (client : CreateProductRequest → Except ApiError Product) req resp,
      FailsClosed client (ProductResource.Create client req resp).2
        (ProductResource.Create client req resp).1.Diagnostics resp.State
        (ProductResource.Create client req resp).1.State) ∧
    (∀ (client : GetProductRequest → Except ApiError Product) req resp,
      FailsClosed client (ProductResource.Read client req resp).2
        (ProductResource.Read client req resp).1.Diagnostics resp.State
        (ProductResource.Read client req resp).1.State) ∧
    (∀ (client : UpdateProductRequest → Except ApiError Product) req resp,
      FailsClosed client (ProductResource.Update client req resp).2
        (ProductResource.Update client req resp).1.Diagnostics resp.State
        (ProductResource.Update client req resp).1.State) ∧
    (∀ (client : CreatePriceRequest → Except ApiError Price) req resp,
      FailsClosed client (PriceResource.Create client req resp).2
        (PriceResource.Create client req resp).1.Diagnostics resp.State
        (PriceResource.Create client req resp).1.State) ∧
    (∀ (client : GetPriceRequest → Except ApiError Price) req resp,
      FailsClosed client (PriceResource.Read client req resp).2
        (PriceResource.Read client req resp).1.Diagnostics resp.State
        (PriceResource.Read client req resp).1.State) ∧
    (∀ (client : UpdatePriceRequest → Except ApiError Price) req resp,
      FailsClosed client (PriceResource.Update client req resp).2
        (PriceResource.Update client req resp).1.Diagnostics resp.State
        (PriceResource.Update client req resp).1.State) ∧
    (∀ (client : CreateDiscountRequest → Except ApiError Discount) req resp,
      FailsClosed client (DiscountResource.Create client req resp).2
        (DiscountResource.Create client req resp).1.Diagnostics resp.State
        (DiscountResource.Create client req resp).1.State) ∧
    (∀ (client : GetDiscountRequest → Except ApiError Discount) req resp,
      FailsClosed client (DiscountResource.Read client req resp).2
        (DiscountResource.Read client req resp).1.Diagnostics resp.State
        (DiscountResource.Read client req resp).1.State) ∧
    (∀ (client : UpdateDiscountRequest → Except ApiError Discount) req resp,
      FailsClosed client (DiscountResource.Update client req resp).2
        (DiscountResource.Update client req resp).1.Diagnostics resp.State
        (DiscountResource.Update client req resp).1.State) ∧
    (∀ (client : CreateCustomerRequest → Except ApiError Customer) req resp,
      FailsClosed client (CustomerResource.Create client req resp).2
        (CustomerResource.Create client req resp).1.Diagnostics resp.State
        (CustomerResource.Create client req resp).1.State) ∧
    (∀ (client : GetCustomerRequest → Except ApiError Customer) req resp,
      FailsClosed client (CustomerResource.Read client req resp).2
        (CustomerResource.Read client req resp).1.Diagnostics resp.State
        (CustomerResource.Read client req resp).1.State) ∧
    (∀ (client : UpdateCustomerRequest → Except ApiError Customer) req resp,
      FailsClosed client (CustomerResource.Update client req resp).2
        (CustomerResource.Update client req resp).1.Diagnostics resp.State
        (CustomerResource.Update client req resp).1.State) ∧
    (∀ (client : CreateNotificationSettingRequest → Except ApiError NotificationSetting)
        req resp,
      FailsClosed client (NotificationSettingResource.Create client req resp).2
        (NotificationSettingResource.Create client req resp).1.Diagnostics resp.State
        (NotificationSettingResource.Create client req resp).1.State) ∧
    (∀ (client : GetNotificationSettingRequest → Except ApiError NotificationSetting)
        req resp,
      FailsClosed client (NotificationSettingResource.Read client req resp).2
        (NotificationSettingResource.Read client req resp).1.Diagnostics resp.State
        (NotificationSettingResource.Read client req resp).1.State) ∧
    (∀ (client : UpdateNotificationSettingRequest → Except ApiError NotificationSetting)
        req resp,
      FailsClosed client (NotificationSettingResource.Update client req resp).2
        (NotificationSettingResource.Update client req resp).1.Diagnostics resp.State
        (NotificationSettingResource.Update client req resp).1.State) ∧
    (CustomerResource.Create (fun _ => .error timeoutError)
        ⟨CustomerResource.samplePlan, ⟨[]⟩⟩ ⟨⟨[]⟩, none⟩).2.length = 1 ∧
    (CustomerResource.Create (fun _ => .error timeoutError)
        ⟨CustomerResource.samplePlan, ⟨[]⟩⟩ ⟨⟨[]⟩, none⟩).1.State.isNone = true ∧
    (CustomerResource.Create (fun _ => .error timeoutError)
        ⟨CustomerResource.samplePlan, ⟨[]⟩⟩ ⟨⟨[]⟩, none⟩).1.Diagnostics.HasError = true :=
  ⟨ProductResource.product_create_failsClosed, ProductResource.product_read_failsClosed,
    ProductResource.product_update_failsClosed, PriceResource.price_create_failsClosed,
    PriceResource.price_read_failsClosed, PriceResource.price_update_failsClosed,
    DiscountResource.discount_create_failsClosed, DiscountResource.discount_read_failsClosed,
    DiscountResource.discount_update_failsClosed, CustomerResource.customer_create_failsClosed,
    CustomerResource.customer_read_failsClosed, CustomerResource.customer_update_failsClosed,
    NotificationSettingResource.notification_create_failsClosed, NotificationSettingResource.notification_read_failsClosed,
    NotificationSettingResource.notification_update_failsClosed, rfl, rfl, rfl⟩

/-! ## `Read` on an entity that the remote API does not find (C21) -/

theorem readFailure_intro {Req M : Type} (resp : ReadResponse M) (diags₀ : Diagnostics)
    (getReq : Req) (summary detail : String) :
    ReadFailure
      (if diags₀.HasError = true then ({ resp with Diagnostics := diags₀ }, [])
        else ({ resp with Diagnostics := diags₀.AddError summary detail }, [getReq]))
      resp diags₀ getReq summary detail := by
  unfold ReadFailure
  split
  · rename_i h
    exact ⟨rfl, h, fun h' => by rw [h] at h'; cases h'⟩
  · exact ⟨rfl, hasError_addError _ _ _, fun _ => rfl⟩

/-- Counterexample to C21: the remote read of the sample product, and of the
sample notification setting, fails because the entity does not exist remotely.
`Read` adds the error diagnostic of every failed read, and the entity stays in
the state. -/
theorem read_keeps_absent_entity :
    notFoundError.notFound = true ∧
    (ProductResource.Read (fun _ => .error notFoundError)
      ⟨ProductResource.sampleState, ⟨[]⟩⟩ ⟨⟨[]⟩, some ProductResource.sampleState⟩).1.Diagnostics
      = ⟨[⟨.error, "Error reading product", "Could not read product ID pro_01: not found",
          none⟩]⟩ ∧
    (ProductResource.Read (fun _ => .error notFoundError)
      ⟨ProductResource.sampleState, ⟨[]⟩⟩ ⟨⟨[]⟩, some ProductResource.sampleState⟩).1.State.isSome
      = true ∧
    (NotificationSettingResource.Read (fun _ => .error notFoundError)
      ⟨NotificationSettingResource.sampleState, ⟨[]⟩⟩
      ⟨⟨[]⟩, some NotificationSettingResource.sampleState⟩).1.Diagnostics.HasError = true ∧
    (NotificationSettingResource.Read (fun _ => .error notFoundError)
      ⟨NotificationSettingResource.sampleState, ⟨[]⟩⟩
      ⟨⟨[]⟩, some NotificationSettingResource.sampleState⟩).1.State.isSome = true :=
  ⟨rfl, rfl, rfl, rfl, rfl⟩

/-- C21, amended: `Read` treats a remote "entity not found" as it treats every
failure of the remote read.  For each of the five resources and every error
that the read returns, the not-found error included, `Read` leaves the state
as the response held it, so the entity is not removed, and the response holds
an error: when reading the recorded state raised none, it is the error
diagnostic of the failed read, which names the identifier and the cause, added
after the one request was sent. -/
theorem read_reports_every_failure (err : ApiError) :
    (∀ req resp,
      ReadFailure (ProductResource.Read (fun _ => .error err) req resp) resp
        (resp.Diagnostics.AppendAll req.StateDiags) ⟨req.State.ID.ValueString⟩
        "Error reading product"
        ("Could not read product ID " ++ req.State.ID.ValueString ++ ": " ++ err.text)) ∧
    (∀ req resp,
      ReadFailure (PriceResource.Read (fun _ => .error err) req resp) resp
        (resp.Diagnostics.AppendAll req.StateDiags) ⟨req.State.ID.ValueString⟩
        "Error reading price"
        ("Could not read price ID " ++ req.State.ID.ValueString ++ ": " ++ err.text)) ∧
    (∀ req resp,
      ReadFailure (DiscountResource.Read (fun _ => .error err) req resp) resp
        (resp.Diagnostics.AppendAll req.StateDiags) ⟨req.State.ID.ValueString⟩
        "Error reading discount"
        ("Could not read discount ID " ++ req.State.ID.ValueString ++ ": " ++ err.text)) ∧
    (∀ req resp,
      ReadFailure (CustomerResource.Read (fun _ => .error err) req resp) resp
        (resp.Diagnostics.AppendAll req.StateDiags) ⟨req.State.ID.ValueString⟩
        "Error reading customer"
        ("Could not read customer ID " ++ req.State.ID.ValueString ++ ": " ++ err.text)) ∧
    (∀ req resp,
      ReadFailure (NotificationSettingResource.Read (fun _ => .error err) req resp) resp
        (resp.Diagnostics.AppendAll req.StateDiags) ⟨req.State.ID.ValueString⟩
        "Error reading notification setting"
        ("Could not read notification setting ID " ++ req.State.ID.ValueString ++ ": " ++
          err.text)) :=
  ⟨fun _ _ => readFailure_intro _ _ _ _ _, fun _ _ => readFailure_intro _ _ _ _ _,
    fun _ _ => readFailure_intro _ _ _ _ _, fun _ _ => readFailure_intro _ _ _ _ _,
    fun _ _ => readFailure_intro _ _ _ _ _⟩

/-! ## Custom-data conversion errors and the remote call (C25) -/

theorem mem_addError (diags : Diagnostics) (summary detail : String) :
    (⟨Severity.error, summary, detail, none⟩ : Diagnostic) ∈
      (diags.AddError summary detail).items := by
  unfold Diagnostics.AddError Diagnostics.Append
  split
  · rename_i h
    simpa using h
  · simp

theorem reportsCause_nil {Req Ent : Type} (client : Req → Except ApiError Ent)
    (diags : Diagnostics) (fields : List String) : ReportsCause client [] diags fields := by
  intro r hr
  cases hr

theorem reportsCause_ok {Req Ent : Type} (client : Req → Except ApiError Ent) (r : Req)
    (x : Ent) (h : client r = .ok x) (diags : Diagnostics) (fields : List String) :
    ReportsCause client [r] diags fields := by
  intro r' hr err herr
  rw [List.mem_singleton.1 hr, h] at herr
  cases herr

theorem reportsCause_error {Req Ent : Type} (client : Req → Except ApiError Ent) (r : Req)
    (e : ApiError) (h : client r = .error e) (diags : Diagnostics) (summary detail : String)
    (fields : List String) (hc : e.text.data <:+: detail.data)
    (hf : ∀ f ∈ fields, f.data <:+: detail.data) :
    ReportsCause client [r] (diags.AddError summary detail) fields := by
  intro r' hr err herr
  rw [List.mem_singleton.1 hr, h] at herr
  cases herr
  exact ⟨_, mem_addError diags summary detail, rfl, hc, hf⟩

theorem infix_last (a b : String) : b.data <:+: (a ++ b).data :=
  ⟨a.data, [], by simp [String.data_append]⟩

theorem ProductResource.product_createErrorDetail_holds (data : productResourceModel) (err : ApiError) :
    err.text.data <:+: (ProductResource.createErrorDetail data err).data ∧
    ∀ f ∈ [data.Name.ValueString], f.data <:+: (ProductResource.createErrorDetail data err).data := by
  unfold ProductResource.createErrorDetail
  refine ⟨infix_last _ _, ?_⟩
  intro f hf
  rw [List.mem_singleton.1 hf]
  exact ⟨"Could not create product with name '".data, ("': " ++ err.text).data,
    by simp [String.data_append]⟩

theorem CustomerResource.customer_createErrorDetail_holds (data : customerResourceModel)
    (err : ApiError) :
    err.text.data <:+: (CustomerResource.createErrorDetail data err).data ∧
    ∀ f ∈ [data.Email.ValueString],
      f.data <:+: (CustomerResource.createErrorDetail data err).data := by
  unfold CustomerResource.createErrorDetail
  refine ⟨infix_last _ _, ?_⟩
  intro f hf
  rw [List.mem_singleton.1 hf]
  exact ⟨"Could not create customer with email '".data, ("': " ++ err.text).data,
    by simp [String.data_append]⟩

theorem DiscountResource.discount_createErrorDetail_holds (data : discountResourceModel)
    (err : ApiError) :
    err.text.data <:+: (DiscountResource.createErrorDetail data err).data ∧
    ∀ f ∈ [data.Code.ValueString, data.Type_.ValueString],
      f.data <:+: (DiscountResource.createErrorDetail data err).data := by
  unfold DiscountResource.createErrorDetail
  refine ⟨infix_last _ _, ?_⟩
  intro f hf
  simp only [List.mem_cons, List.mem_singleton, List.not_mem_nil, or_false] at hf
  rcases hf with hf | hf <;> rw [hf]
  · exact ⟨"Could not create discount with code '".data,
      ("' (type: " ++ data.Type_.ValueString ++ "): " ++ err.text).data,
      by simp [String.data_append]⟩
  · exact ⟨("Could not create discount with code '" ++ data.Code.ValueString ++
      "' (type: ").data, ("): " ++ err.text).data, by simp [String.data_append]⟩

theorem PriceResource.price_createErrorDetail_holds (data : priceResourceModel) (err : ApiError) :
    err.text.data <:+: (PriceResource.createErrorDetail data err).data ∧
    ∀ f ∈ [data.ProductID.ValueString, data.Description.ValueString],
      f.data <:+: (PriceResource.createErrorDetail data err).data := by
  unfold PriceResource.createErrorDetail
  refine ⟨infix_last _ _, ?_⟩
  intro f hf
  simp only [List.mem_cons, List.mem_singleton, List.not_mem_nil, or_false] at hf
  rcases hf with hf | hf <;> rw [hf]
  · exact ⟨"Could not create price for product ".data,
      (" (description: " ++ data.Description.ValueString ++ "): " ++ err.text).data,
      by simp [String.data_append]⟩
  · exact ⟨("Could not create price for product " ++ data.ProductID.ValueString ++
      " (description: ").data, ("): " ++ err.text).data, by simp [String.data_append]⟩

theorem ProductResource.product_sendCreate_reportsCause
    (client : CreateProductRequest → Except ApiError Product)
    (data : productResourceModel) (resp : CreateResponse productResourceModel)
    (diags : Diagnostics) (r : CreateProductRequest) :
    ReportsCause client (ProductResource.sendCreate client data resp diags r).2
      (ProductResource.sendCreate client data resp diags r).1.Diagnostics [data.Name.ValueString] := by
  unfold ProductResource.sendCreate
  split
  · rename_i err h
    exact reportsCause_error _ _ err h _ _ _ _ (ProductResource.product_createErrorDetail_holds data err).1
      (ProductResource.product_createErrorDetail_holds data err).2
  · rename_i h
    exact reportsCause_ok _ _ _ h _ _

theorem ProductResource.product_create_reportsCause
    (client : CreateProductRequest → Except ApiError Product)
    (req : CreateRequest productResourceModel) (resp : CreateResponse productResourceModel) :
    ReportsCause client (ProductResource.Create client req resp).2
      (ProductResource.Create client req resp).1.Diagnostics [req.Plan.Name.ValueString] := by
  unfold ProductResource.Create
  simp only []
  repeat' first
    | exact reportsCause_nil _ _ _
    | exact ProductResource.product_sendCreate_reportsCause _ _ _ _ _
    | split

theorem CustomerResource.customer_sendCreate_reportsCause
    (client : CreateCustomerRequest → Except ApiError Customer)
    (data : customerResourceModel) (resp : CreateResponse customerResourceModel)
    (diags : Diagnostics) (r : CreateCustomerRequest) :
    ReportsCause client (CustomerResource.sendCreate client data resp diags r).2
      (CustomerResource.sendCreate client data resp diags r).1.Diagnostics [data.Email.ValueString] := by
  unfold CustomerResource.sendCreate
  split
  · rename_i err h
    exact reportsCause_error _ _ err h _ _ _ _ (CustomerResource.customer_createErrorDetail_holds data err).1
      (CustomerResource.customer_createErrorDetail_holds data err).2
  · rename_i h
    exact reportsCause_ok _ _ _ h _ _

theorem CustomerResource.customer_create_reportsCause
    (client : CreateCustomerRequest → Except ApiError Customer)
    (req : CreateRequest customerResourceModel) (resp : CreateResponse customerResourceModel) :
    ReportsCause client (CustomerResource.Create client req resp).2
      (CustomerResource.Create client req resp).1.Diagnostics [req.Plan.Email.ValueString] := by
  unfold CustomerResource.Create
  simp only []
  repeat' first
    | exact reportsCause_nil _ _ _
    | exact CustomerResource.customer_sendCreate_reportsCause _ _ _ _ _
    | split

theorem DiscountResource.discount_sendCreate_reportsCause
    (client : CreateDiscountRequest → Except ApiError Discount)
    (data : discountResourceModel) (resp : CreateResponse discountResourceModel)
    (diags : Diagnostics) (r : CreateDiscountRequest) :
    ReportsCause client (DiscountResource.sendCreate client data resp diags r).2
      (DiscountResource.sendCreate client data resp diags r).1.Diagnostics [data.Code.ValueString, data.Type_.ValueString] := by
  unfold DiscountResource.sendCreate
  split
  · rename_i err h
    exact reportsCause_error _ _ err h _ _ _ _ (DiscountResource.discount_createErrorDetail_holds data err).1
      (DiscountResource.discount_createErrorDetail_holds data err).2
  · rename_i h
    exact reportsCause_ok _ _ _ h _ _

theorem DiscountResource.discount_create_reportsCause
    (client : CreateDiscountRequest → Except ApiError Discount)
    (req : CreateRequest discountResourceModel) (resp : CreateResponse discountResourceModel) :
    ReportsCause client (DiscountResource.Create client req resp).2
      (DiscountResource.Create client req resp).1.Diagnostics [req.Plan.Code.ValueString, req.Plan.Type_.ValueString] := by
  unfold DiscountResource.Create
  simp only []
  repeat' first
    | exact reportsCause_nil _ _ _
    | exact DiscountResource.discount_sendCreate_reportsCause _ _ _ _ _
    | split

theorem PriceResource.price_create_reportsCause
    (client : CreatePriceRequest → Except ApiError Price)
    (req : CreateRequest priceResourceModel) (resp : CreateResponse priceResourceModel) :
    ReportsCause client (PriceResource.Create client req resp).2
      (PriceResource.Create client req resp).1.Diagnostics
      [req.Plan.ProductID.ValueString, req.Plan.Description.ValueString] := by
  unfold PriceResource.Create
  simp only []
  split
  · exact reportsCause_nil _ _ _
  · split
    · exact reportsCause_nil _ _ _
    · split
      · rename_i err h
        exact reportsCause_error _ _ err h _ _ _ _
          (PriceResource.price_createErrorDetail_holds req.Plan err).1
          (PriceResource.price_createErrorDetail_holds req.Plan err).2
      · rename_i h
        exact reportsCause_ok _ _ _ h _ _

/-- What `NotificationSettingResource.Create` reports when its remote call
fails: a detail made of a fixed text and the cause. -/
theorem NotificationSettingResource.create_reports
    (client : CreateNotificationSettingRequest → Except ApiError NotificationSetting)
    (req : CreateRequest notificationSettingResourceModel)
    (resp : CreateResponse notificationSettingResourceModel) :
    ∀ r ∈ (NotificationSettingResource.Create client req resp).2, ∀ err,
      client r = .error err →
      (NotificationSettingResource.Create client req resp).1.Diagnostics =
        ((resp.Diagnostics.AppendAll req.PlanDiags).AppendAll
          (listElementsAs req.Plan.SubscribedEvents).2).AddError
          "Error creating notification setting"
          ("Could not create notification setting: " ++ err.text) := by
  unfold NotificationSettingResource.Create
  simp only []
  split
  · intro r hr
    cases hr
  · split
    · intro r hr
      cases hr
    · split
      · rename_i err h
        intro r hr err' herr
        rw [List.mem_singleton.1 hr, h] at herr
        cases herr
        rfl
      · rename_i h
        intro r hr err' herr
        rw [List.mem_singleton.1 hr, h] at herr
        cases herr

/-- C24: the error of a failed `Create` names the cause and fields of the plan
for four resources, and the cause alone for the notification setting.  For the
sample notification setting and a call that times out, the one diagnostic of
the response is the fixed text `Could not create notification setting: `
followed by the cause, and none of the fields of the plan (description,
destination, event, type) occurs in it; for every plan, client and error the
diagnostic is that text and the cause, so that no field of the plan can occur.
The sibling operations, `Create` of the product, price, discount and customer,
report an error whose detail contains the cause and the name of the product,
the product identifier and the description of the price, the code and the
type of the discount, the email of the customer. -/
theorem notification_create_error_names_no_field :
    (NotificationSettingResource.Create (fun _ => .error timeoutError)
      ⟨NotificationSettingResource.samplePlan, ⟨[]⟩⟩ ⟨⟨[]⟩, none⟩).1.Diagnostics =
      ⟨[⟨.error, "Error creating notification setting",
          "Could not create notification setting: request timed out", none⟩]⟩ ∧
    ¬ ("Webhook".data <:+: "Could not create notification setting: request timed out".data) ∧
    ¬ ("https://example.com/hook".data <:+:
        "Could not create notification setting: request timed out".data) ∧
    ¬ ("transaction.completed".data <:+:
        "Could not create notification setting: request timed out".data) ∧
    ¬ ("url".data <:+: "Could not create notification setting: request timed out".data) ∧
    (∀ (client : CreateNotificationSettingRequest → Except ApiError NotificationSetting)
        req resp,
      ∀ r ∈ (NotificationSettingResource.Create client req resp).2, ∀ err,
        client r = .error err →
        (NotificationSettingResource.Create client req resp).1.Diagnostics =
          ((resp.Diagnostics.AppendAll req.PlanDiags).AppendAll
            (listElementsAs req.Plan.SubscribedEvents).2).AddError
            "Error creating notification setting"
            ("Could not create notification setting: " ++ err.text)) ∧
    (∀ (client : CreateProductRequest → Except ApiError Product) req resp,
      ReportsCause client (ProductResource.Create client req resp).2
        (ProductResource.Create client req resp).1.Diagnostics [req.Plan.Name.ValueString]) ∧
    (∀ (client : CreatePriceRequest → Except ApiError Price) req resp,
      ReportsCause client (PriceResource.Create client req resp).2
        (PriceResource.Create client req resp).1.Diagnostics
        [req.Plan.ProductID.ValueString, req.Plan.Description.ValueString]) ∧
    (∀ (client : CreateDiscountRequest → Except ApiError Discount) req resp,
      ReportsCause client (DiscountResource.Create client req resp).2
        (DiscountResource.Create client req resp).1.Diagnostics
        [req.Plan.Code.ValueString, req.Plan.Type_.ValueString]) ∧
    (∀ (client : CreateCustomerRequest → Except ApiError Customer) req resp,
      ReportsCause client (CustomerResource.Create client req resp).2
        (CustomerResource.Create client req resp).1.Diagnostics [req.Plan.Email.ValueString]) ∧
    (CustomerResource.Create (fun _ => .error timeoutError)
      ⟨CustomerResource.samplePlan, ⟨[]⟩⟩ ⟨⟨[]⟩, none⟩).1.Diagnostics =
      ⟨[⟨.error, "Error creating customer",
          "Could not create customer with email 'ada@example.com': request timed out",
          none⟩]⟩ := by
  refine ⟨rfl, by decide, by decide, by decide, by decide,
    NotificationSettingResource.create_reports, ProductResource.product_create_reportsCause,
    PriceResource.price_create_reportsCause, DiscountResource.discount_create_reportsCause,
    CustomerResource.customer_create_reportsCause, rfl⟩

/-! ## What `Update` sends for a null field (C23) -/

theorem ProductResource.product_sendUpdate_calls
    (client : UpdateProductRequest → Except ApiError Product)
    (data : productResourceModel) (resp : UpdateResponse productResourceModel)
    (diags : Diagnostics) (r : UpdateProductRequest) :
    (ProductResource.sendUpdate client data resp diags r).2 = [r] := by
  unfold ProductResource.sendUpdate
  split <;> rfl

theorem ProductResource.product_updateRequest_clears (data : productResourceModel)
    (customData : Option (GoMap String))
    (h : data.CustomData.IsNull = true → customData = none) :
    ProductResource.ClearsAbsent data (ProductResource.updateRequest data customData) := by
  refine ⟨fun h₁ => ?_, fun h₂ => ?_, fun h₃ => ?_⟩
  · simp [ProductResource.updateRequest, h₁]
  · simp [ProductResource.updateRequest, h₂]
  · simp [ProductResource.updateRequest, h h₃, h₃]

theorem ProductResource.product_update_clears
    (client : UpdateProductRequest → Except ApiError Product)
    (req : UpdateRequest productResourceModel) (resp : UpdateResponse productResourceModel) :
    ∀ r ∈ (ProductResource.Update client req resp).2, ProductResource.ClearsAbsent req.Plan r := by
  unfold ProductResource.Update
  simp only []
  split
  · intro r hr
    cases hr
  · split
    · rename_i elems hk
      split
      · intro r hr
        cases hr
      · intro r hr
        rw [ProductResource.product_sendUpdate_calls, List.mem_singleton] at hr
        rw [hr]
        exact ProductResource.product_updateRequest_clears _ _ (fun h => by simp [hk, Tf.IsNull] at h)
    · intro r hr
      rw [ProductResource.product_sendUpdate_calls, List.mem_singleton] at hr
      rw [hr]
      exact ProductResource.product_updateRequest_clears _ _ (fun _ => rfl)

theorem CustomerResource.customer_sendUpdate_calls
    (client : UpdateCustomerRequest → Except ApiError Customer)
    (data : customerResourceModel) (resp : UpdateResponse customerResourceModel)
    (diags : Diagnostics) (r : UpdateCustomerRequest) :
    (CustomerResource.sendUpdate client data resp diags r).2 = [r] := by
  unfold CustomerResource.sendUpdate
  split <;> rfl

theorem CustomerResource.customer_updateRequest_clears (data : customerResourceModel)
    (customData : Option (GoMap String))
    (h : data.CustomData.IsNull = true → customData = none) :
    CustomerResource.ClearsAbsent data (CustomerResource.updateRequest data customData) := by
  refine ⟨fun h₁ => ?_, fun h₂ => ?_, fun h₃ => ?_⟩
  · simp [CustomerResource.updateRequest, h₁]
  · simp [CustomerResource.updateRequest, h h₂]
  · simp [CustomerResource.updateRequest, h₃]

theorem CustomerResource.customer_update_clears
    (client : UpdateCustomerRequest → Except ApiError Customer)
    (req : UpdateRequest customerResourceModel) (resp : UpdateResponse customerResourceModel) :
    ∀ r ∈ (CustomerResource.Update client req resp).2,
      CustomerResource.ClearsAbsent req.Plan r := by
  unfold CustomerResource.Update
  simp only []
  split
  · intro r hr
    cases hr
  · split
    · rename_i elems hk
      split
      · intro r hr
        cases hr
      · intro r hr
        rw [CustomerResource.customer_sendUpdate_calls, List.mem_singleton] at hr
        rw [hr]
        exact CustomerResource.customer_updateRequest_clears _ _ (fun h => by simp [hk, Tf.IsNull] at h)
    · intro r hr
      rw [CustomerResource.customer_sendUpdate_calls, List.mem_singleton] at hr
      rw [hr]
      exact CustomerResource.customer_updateRequest_clears _ _ (fun _ => rfl)

theorem DiscountResource.discount_sendUpdate_calls
    (client : UpdateDiscountRequest → Except ApiError Discount)
    (data : discountResourceModel) (resp : UpdateResponse discountResourceModel)
    (diags : Diagnostics) (r : UpdateDiscountRequest) :
    (DiscountResource.sendUpdate client data resp diags r).2 = [r] := by
  unfold DiscountResource.sendUpdate
  split <;> rfl

theorem DiscountResource.discount_updateRequest_clears (data : discountResourceModel)
    (customData : Option (GoMap String))
    (h : data.CustomData.IsNull = true → customData = none) :
    DiscountResource.ClearsAbsent data (DiscountResource.updateRequest data customData) := by
  refine ⟨fun h₁ => ?_, fun h₂ => ?_, fun h₃ => ?_, fun h₄ => ?_, fun h₅ => ?_, fun h₆ => ?_,
    fun h₇ => ?_, fun h₈ => ?_⟩
  · simp [DiscountResource.updateRequest, h₁]
  · simp [DiscountResource.updateRequest, h₂]
  · simp [DiscountResource.updateRequest, h₃]
  · simp [DiscountResource.updateRequest, h₄]
  · simp [DiscountResource.updateRequest, h h₅]
  · simp [DiscountResource.updateRequest, h₆]
  · simp [DiscountResource.updateRequest, h₇]
  · simp [DiscountResource.updateRequest, h₈]

theorem DiscountResource.discount_update_clears
    (client : UpdateDiscountRequest → Except ApiError Discount)
    (req : UpdateRequest discountResourceModel) (resp : UpdateResponse discountResourceModel) :
    ∀ r ∈ (DiscountResource.Update client req resp).2,
      DiscountResource.ClearsAbsent req.Plan r ∧ r.Mode = none ∧ r.CurrencyCode = none ∧
        r.MaximumRecurringIntervals = none := by
  unfold DiscountResource.Update
  simp only []
  split
  · intro r hr
    cases hr
  · split
    · intro r hr
      cases hr
    · split
      · rename_i elems hk
        split
        · intro r hr
          cases hr
        · intro r hr
          rw [DiscountResource.discount_sendUpdate_calls, List.mem_singleton] at hr
          rw [hr]
          exact ⟨DiscountResource.discount_updateRequest_clears _ _
            (fun h => by simp [hk, Tf.IsNull] at h), rfl, rfl, rfl⟩
      · intro r hr
        rw [DiscountResource.discount_sendUpdate_calls, List.mem_singleton] at hr
        rw [hr]
        exact ⟨DiscountResource.discount_updateRequest_clears _ _ (fun _ => rfl), rfl, rfl, rfl⟩

theorem NotificationSettingResource.notification_updateRequest_clears
    (data : notificationSettingResourceModel) (subscribedEvents : List String) :
    NotificationSettingResource.ClearsAbsent data
      (NotificationSettingResource.updateRequest data subscribedEvents) := by
  refine ⟨fun h₁ => ?_, fun h₂ => ?_, fun h₃ => ?_⟩
  · simp [NotificationSettingResource.updateRequest, h₁]
  · simp [NotificationSettingResource.updateRequest, h₂]
  · simp [NotificationSettingResource.updateRequest, h₃]

theorem NotificationSettingResource.notification_update_clears
    (client : UpdateNotificationSettingRequest → Except ApiError NotificationSetting)
    (req : UpdateRequest notificationSettingResourceModel)
    (resp : UpdateResponse notificationSettingResourceModel) :
    ∀ r ∈ (NotificationSettingResource.Update client req resp).2,
      NotificationSettingResource.ClearsAbsent req.Plan r ∧ r.Type_ = none := by
  unfold NotificationSettingResource.Update
  simp only []
  split
  · intro r hr
    cases hr
  · split
    · intro r hr
      cases hr
    · split <;>
      · intro r hr
        rw [List.mem_singleton] at hr
        rw [hr]
        exact ⟨NotificationSettingResource.notification_updateRequest_clears _ _, rfl⟩

namespace PriceResource

theorem sendsClearing_nil (plan : priceResourceModel)
    (x : UpdateResponse priceResourceModel) : SendsClearing plan (x, []) := by
  intro r hr
  cases hr

theorem sendsClearing_ite (plan : priceResourceModel) (c : Prop) [Decidable c]
    (a b : UpdateResponse priceResourceModel × List UpdatePriceRequest)
    (ha : SendsClearing plan a) (hb : SendsClearing plan b) :
    SendsClearing plan (if c then a else b) := by
  split <;> assumption

theorem sendsClearing_send (client : UpdatePriceRequest → Except ApiError Price)
    (plan plan' : priceResourceModel) (resp : UpdateResponse priceResourceModel)
    (diags : Diagnostics) (r₃ : UpdatePriceRequest) (v : PatchField CustomData)
    (h₁ : plan.Name.IsNull = true → r₃.Name = some (NewPatchField none))
    (h₃ : plan.TaxMode.IsNull = true → r₃.TaxMode = some (NewPatchField TaxModeAccountSetting))
    (h₄ : plan.Quantity.IsNull = true → r₃.Quantity = none)
    (h₂ : plan.CustomData.IsNull = true → v = NewPatchField none) :
    SendsClearing plan (sendUpdate client plan' resp diags (setCustomData r₃ v)) := by
  intro r hr
  rw [sendUpdate_calls, List.mem_singleton] at hr
  subst hr
  exact ⟨h₁, fun h => by rw [← h₂ h]; rfl, h₃, h₄⟩

theorem update_sendsClearing (client : UpdatePriceRequest → Except ApiError Price)
    (req : UpdateRequest priceResourceModel) (resp : UpdateResponse priceResourceModel) :
    SendsClearing req.Plan (Update client req resp) := by
  unfold Update
  simp only []
  repeat' first
    | with_reducible apply sendsClearing_ite
    | with_reducible apply sendsClearing_nil
    | with_reducible apply sendsClearing_send
    | split
  all_goals
    intro h
    first
      | rfl
      | simp_all [Tf.IsNull, TfString.IsNull, TfString.IsUnknown, setName, setTaxMode,
          setQuantity]

theorem update_leaves_immutable (client : UpdatePriceRequest → Except ApiError Price)
    (req : UpdateRequest priceResourceModel) (resp : UpdateResponse priceResourceModel) :
    ∀ r ∈ (Update client req resp).2,
      r.UnitPriceOverrides = none ∧ r.BillingCycle = none ∧ r.TrialPeriod = none := by
  intro r hr
  rcases update_calls client req resp with h | ⟨r', h, hm⟩
  · rw [h] at hr
    cases hr
  · rw [h, List.mem_singleton] at hr
    rw [hr]
    exact ⟨hm.2.2.2.2.1, hm.2.2.2.2.2.1, hm.2.2.2.2.2.2.1⟩

end PriceResource

/-- Counterexample to C23: the plan of a customer leaves the optional field
`locale` null.  The request that `Update` sends carries no patch for the
locale: the field is left out of the request, not sent as a patch to nil, while
the null custom data of the same plan is sent as a patch to nil. -/
theorem update_omits_null_locale :
    CustomerResource.localePlan.Locale.IsNull = true ∧
    (CustomerResource.Update (fun _ => .ok CustomerResource.sampleCustomer)
      ⟨CustomerResource.localePlan, ⟨[]⟩, CustomerResource.localePlan, ⟨[]⟩⟩
      ⟨⟨[]⟩, CustomerResource.localePlan⟩).2.map (fun r => r.Locale) = [none] ∧
    (CustomerResource.Update (fun _ => .ok CustomerResource.sampleCustomer)
      ⟨CustomerResource.localePlan, ⟨[]⟩, CustomerResource.localePlan, ⟨[]⟩⟩
      ⟨⟨[]⟩, CustomerResource.localePlan⟩).2.map (fun r => r.Name) =
      [some (NewPatchField (some "Ada L."))] :=
  ⟨rfl, rfl, rfl⟩

/-- C23, amended: in the `Update` of every resource, with any client, each
request sent treats the optional fields as follows.  Sent as a patch to nil
when the plan leaves them null, and never left out: description, image and
custom data of a product; name and custom data of a price; code, usage limit,
restriction list, expiry, custom data and discount group of a discount; name
and custom data of a customer.  Left out of the request when the plan leaves
them null: the quantity of a price, `enabled_for_checkout` and `recur` of a
discount, the locale of a customer, `active` and `include_sensitive_fields` of
a notification setting.  Sent as a default when the plan leaves them null: the
tax mode of a price as `account_setting`, the traffic source of a notification
setting as the empty traffic source.  Never set in an update request, whatever
the plan holds: country overrides, billing cycle and trial period of a price;
mode, currency and maximum of recurring intervals of a discount; the type of a
notification setting.  The request for the sample price plan, whose trial
period and overrides are null, leaves both out. -/
theorem update_clears_optional_fields :
    (∀ (client : UpdateProductRequest → Except ApiError Product) req resp,
      ∀ r ∈ (ProductResource.Update client req resp).2,
        ProductResource.ClearsAbsent req.Plan r) ∧
    (∀ (client : UpdatePriceRequest → Except ApiError Price) req resp,
      ∀ r ∈ (PriceResource.Update client req resp).2,
        PriceResource.ClearsAbsent req.Plan r ∧
          r.UnitPriceOverrides = none ∧ r.BillingCycle = none ∧ r.TrialPeriod = none) ∧
    (∀ (client : UpdateDiscountRequest → Except ApiError Discount) req resp,
      ∀ r ∈ (DiscountResource.Update client req resp).2,
        DiscountResource.ClearsAbsent req.Plan r ∧ r.Mode = none ∧ r.CurrencyCode = none ∧
          r.MaximumRecurringIntervals = none) ∧
    (∀ (client : UpdateCustomerRequest → Except ApiError Customer) req resp,
      ∀ r ∈ (CustomerResource.Update client req resp).2,
        CustomerResource.ClearsAbsent req.Plan r) ∧
    (∀ (client : UpdateNotificationSettingRequest → Except ApiError NotificationSetting)
        req resp,
      ∀ r ∈ (NotificationSettingResource.Update client req resp).2,
        NotificationSettingResource.ClearsAbsent req.Plan r ∧ r.Type_ = none) ∧
    (CustomerResource.Update (fun _ => .ok CustomerResource.sampleCustomer)
      ⟨CustomerResource.localePlan, ⟨[]⟩, CustomerResource.localePlan, ⟨[]⟩⟩
      ⟨⟨[]⟩, CustomerResource.localePlan⟩).2.map (fun r => r.CustomData) =
      [some (NewPatchField none)] ∧
    PriceResource.samplePlan.TrialPeriod.IsNull = true ∧
    PriceResource.samplePlan.UnitPriceOverrides.IsNull = true ∧
    (PriceResource.Update (fun _ => .ok PriceResource.samplePrice)
      ⟨PriceResource.samplePlan, ⟨[]⟩, PriceResource.sampleState, ⟨[]⟩⟩
      ⟨⟨[]⟩, PriceResource.sampleState⟩).2.map
        (fun r => (r.Name, r.TrialPeriod, r.UnitPriceOverrides)) =
      [(some (NewPatchField none), none, none)] :=
  ⟨ProductResource.product_update_clears,
    fun client req resp r hr =>
      ⟨PriceResource.update_sendsClearing client req resp r hr,
        PriceResource.update_leaves_immutable client req resp r hr⟩,
    DiscountResource.discount_update_clears, CustomerResource.customer_update_clears,
    NotificationSettingResource.notification_update_clears, rfl, rfl, rfl, rfl⟩
end Paddle
